import Mathlib

/-!
# Bitmap decode paths of the OpenGL ES bitmap viewers

Shallow embedding of the BMP decoding code of

* `gl2_showbmp/gl2_drawrgba.cpp` (`setupGraphicsRGBA`),
* `gl_showbmp/gl_showbmp.cpp` (`setupYuvTexSurface`, fixed-function path),
* `gl2_showbmp/gl2_drawrgb.cpp` (`setupYuvTexSurface`, strict RGB path),

and of the code around it: `loadShader` and `createProgram`
(`gl2_showbmp/backup/gl2_showbmp.cpp`), the frame functions `renderFrameRGBA`
and `renderFrameRGB`, and the two `main` functions (`gl2_showbmp/main.cpp`,
`gl_showbmp/gl_showbmp.cpp`).

Conventions of the embedding.

* A C `int` is an `Int` kept in the 32-bit two's complement range: every
  arithmetic result is reduced by `wrapInt`, so an overflowing `int`
  expression wraps around.  `size_t` is 64 bits wide.
* A file is the list of its bytes; `fopen` either fails with an `errno` or
  yields that list.  `fseek` to a negative offset is refused and leaves the
  position unchanged; `fread` stores the bytes that are there and leaves the
  rest of its buffer untouched.
* An array that the C code leaves uninitialised (`header`, `tmpb`, the
  `malloc`ed buffers) is a function from indices to values; its contents
  before the first write are a parameter of the decoder.  The function is
  defined on every index, so an access outside the array reads or writes the
  cell the function has there.
* The texel buffer `t32my` is described by the sequence of stores
  `t32my[idx] = v` that the decode loops perform, in program order.
* The GL driver is an oracle: the handle returned by `createProgram` and the
  success of `eglCreateImageKHR` are parameters.
* The swap loop of the strict decoder runs on a bound on its number of turns;
  `swapLoop_terminates` shows that the bound is never reached.
* `malloc` is taken to succeed, except in the strict decoder for a negative
  `imageSize`: the request of `(size_t) imageSize` bytes fails, and a read
  that then stores through the null pointer leaves the call without a result
  (`nullWrite`).
* The row buffer `tmpb[mF*mW]` of the RGBA-expanding decoders is a
  variable-length array: the model of these decoders describes the code only
  when the length `mF*mW` (`rowLength`) is not negative.
* The accesses of the swap loop (`swapAccesses`) and the index expressions of
  the decode loops (`seekOffset`, `rowLength`, `rowIndex`, `texelIndex`) are
  the expressions of the source, evaluated in the same `int` arithmetic.
* Shader and program objects are names in explicit lists of existing objects;
  what the driver answers for an object (name, compile or link status, length
  of the info log) is a parameter.
* A frame function is the list of its GL calls in program order, run on a
  state made of the active program, the enabled vertex attribute arrays and
  the draw calls issued.
* `main` of `main.cpp` is a step function on a control point and the trace of
  the calls made so far; the results of the EGL calls and of the setup
  functions are a parameter.  The render loop never ends, so a run is looked
  at after any number of steps.
-/

namespace ShowBmp

/-! ## Constants of `common.h` -/

/-- The macro `BMP_HEADER_SIZE`. -/
def BMP_HEADER_SIZE : Nat := 54

/-- The macro `BMP_HEADER_MAGIC_0`. -/
def BMP_HEADER_MAGIC_0 : Nat := 0x42

/-- The macro `BMP_HEADER_MAGIC_1`. -/
def BMP_HEADER_MAGIC_1 : Nat := 0x4d

/-! ## C integer arithmetic -/

/-- Reduction of an integer to the 32-bit two's complement range of `int`. -/
def wrapInt (x : Int) : Int := (x + 2147483648) % 4294967296 - 2147483648

/-- The `int` sum `a + b`. -/
def iadd (a b : Int) : Int := wrapInt (a + b)

/-- The `int` difference `a - b`. -/
def isub (a b : Int) : Int := wrapInt (a - b)

/-- The `int` product `a * b`. -/
def imul (a b : Int) : Int := wrapInt (a * b)

/-- The `int` left shift `a << k`. -/
def ishl (a : Int) (k : Nat) : Int := wrapInt (a * 2 ^ k)

/-- Conversion of an `int` to `size_t`. -/
def toSizeT (x : Int) : Nat := (x % 18446744073709551616).toNat

/-- The `size_t` product `a * b`. -/
def smul (a b : Nat) : Nat := (a * b) % 18446744073709551616

/-- Conversion of an `int` to `bool`, as performed by `return e;` in a
function declared `bool`: every non-zero value becomes `true`. -/
def intToBool (x : Int) : Bool := x != 0

/-! ## Files and the header array -/

/-- Result of `fopen(fileName, "rb")`. -/
inductive FOpen where
  | failed (errno : Int)
  | opened (bytes : List UInt8)

/-- The array `header` after `fread(header, 1, BMP_HEADER_SIZE, fp)` on a
freshly opened file: the bytes the file supplies are stored, the remaining
elements keep what the array held before (`stale`). -/
def freadHeader (stale : Nat → UInt8) (file : List UInt8) : Nat → UInt8 :=
  fun i => if i < BMP_HEADER_SIZE then (file[i]?).getD (stale i) else stale i

/-- An element of an `unsigned char` array promoted to `int`. -/
def byteAt (header : Nat → UInt8) (i : Nat) : Int := ((header i).toNat : Int)

/-- The test `(BMP_HEADER_MAGIC_0 != header[0]) || (BMP_HEADER_MAGIC_1 != header[1])`. -/
def badMagic (header : Nat → UInt8) : Bool :=
  (BMP_HEADER_MAGIC_0 != (header 0).toNat) || (BMP_HEADER_MAGIC_1 != (header 1).toNat)

/-- The locals `mS`, `mW`, `mH`, `mP`, `mF` of the decoders. -/
structure BmpInfo where
  mS : Int
  mW : Int
  mH : Int
  mP : Int
  mF : Int
deriving DecidableEq, Repr

/-- The little-endian assembly
`header[k] + (header[k+1] << 8) + (header[k+2] << 16) + (header[k+3] << 24)`. -/
def readInt (header : Nat → UInt8) (k : Nat) : Int :=
  iadd (iadd (iadd (byteAt header k) (ishl (byteAt header (k + 1)) 8))
    (ishl (byteAt header (k + 2)) 16)) (ishl (byteAt header (k + 3)) 24)

/-- The header fields as the decoders compute them. -/
def parseHeader (header : Nat → UInt8) : BmpInfo :=
  let mS := readInt header 2
  let mW := readInt header 18
  let mH := readInt header 22
  let mP := byteAt header 28
  { mS := mS, mW := mW, mH := mH, mP := mP, mF := Int.tdiv mP 8 }

/-- The signed 32-bit little-endian integer with bytes `b0 .. b3`, as the
format description words it: the unsigned value, minus `2^32` when the sign
bit is set. -/
def signedLE32 (b0 b1 b2 b3 : Nat) : Int :=
  let v : Nat := b0 + b1 * 2 ^ 8 + b2 * 2 ^ 16 + b3 * 2 ^ 24
  if v < 2 ^ 31 then (v : Int) else (v : Int) - 2 ^ 32

/-! ## The row loop of the RGBA-expanding decoders -/

/-- The stream `fp` together with the variable-length array `tmpb`. -/
structure RowState where
  pos : Nat
  tmpb : Int → UInt8

/-- The call `fseek(fp, off, SEEK_SET)`: a negative offset is refused and
leaves the position where it was. -/
def fseekSet (pos : Nat) (off : Int) : Nat :=
  if 0 ≤ off then off.toNat else pos

/-- The call `fread(buf, 1, n, fp)` at position `pos`: the bytes the file
still holds from `pos` on, at most `(size_t) n` of them, are stored at the
start of `buf`; the other elements of `buf` are left as they were. -/
def freadBuf (file : List UInt8) (pos : Nat) (n : Int) (buf : Int → UInt8) : Int → UInt8 :=
  fun i => if 0 ≤ i ∧ i.toNat < toSizeT n then (file[pos + i.toNat]?).getD (buf i) else buf i

/-- The file position after `fread(buf, 1, n, fp)` at position `pos`. -/
def freadPos (file : List UInt8) (pos : Nat) (n : Int) : Nat :=
  pos + min (toSizeT n) (file.length - pos)

/-- The two statements
`fseek(fp, BMP_HEADER_SIZE + (mH-ii-1)*mF*mW, SEEK_SET); fread(tmpb, 1, mF*mW, fp);`
of one turn of the outer loop. -/
def readRow (file : List UInt8) (mW mH mF : Int) (ii : Int) (st : RowState) : RowState :=
  let off := iadd (BMP_HEADER_SIZE : Int) (imul (imul (isub (isub mH ii) 1) mF) mW)
  let pos := fseekSet st.pos off
  let n := imul mF mW
  { pos := freadPos file pos n, tmpb := freadBuf file pos n st.tmpb }

/-- The expression `0xff000000 | (b0 << 16) | (b1 << 8) | b2` on three
`unsigned char` operands. -/
def pack (b0 b1 b2 : UInt8) : Nat :=
  0xff000000 ||| (b0.toNat <<< 16) ||| (b1.toNat <<< 8) ||| b2.toNat

/-- The right-hand side
`0xff000000 | (tmpb[jj*mF+0] << 16) | (tmpb[jj*mF+1] << 8) | tmpb[jj*mF+2]`. -/
def texel (tmpb : Int → UInt8) (mF jj : Int) : Nat :=
  pack (tmpb (iadd (imul jj mF) 0)) (tmpb (iadd (imul jj mF) 1)) (tmpb (iadd (imul jj mF) 2))

/-- The inner loop `for (jj = 0; jj < mW; jj++) t32my[ii*mW+jj] = ...` as the
list of its stores, each an index into `t32my` and the value stored. -/
def rowStores (tmpb : Int → UInt8) (mW mF : Int) (ii : Int) : List (Int × Nat) :=
  (List.range mW.toNat).map
    (fun (jj : Nat) => (iadd (imul ii mW) (jj : Int), texel tmpb mF (jj : Int)))

/-- The outer loop over the remaining values of `ii`, as the list of all
stores to `t32my` in program order. -/
def decodeLoop (file : List UInt8) (mW mH mF : Int) : List Nat → RowState → List (Int × Nat)
  | [], _ => []
  | ii :: rest, st =>
    let st1 := readRow file mW mH mF (ii : Int) st
    rowStores st1.tmpb mW mF (ii : Int) ++ decodeLoop file mW mH mF rest st1

/-- All stores to `t32my` made by `for (ii = 0; ii < mH; ii++) ...`, the
stream standing where the header read left it. -/
def decodeStores (file : List UInt8) (b : BmpInfo) (staleRow : Int → UInt8) : List (Int × Nat) :=
  decodeLoop file b.mW b.mH b.mF (List.range b.mH.toNat)
    { pos := min BMP_HEADER_SIZE file.length, tmpb := staleRow }

/-- The contents of `t32my` after a sequence of stores, `stale` being what
`malloc` handed out. -/
def bufferAfter (stale : Int → Nat) : List (Int × Nat) → Int → Nat
  | [], i => stale i
  | (k, v) :: rest, i => bufferAfter (fun j => if j = k then v else stale j) rest i

/-- The byte at offset `k` of a 32-bit texel in little-endian memory, which
is the component `k` that a `GL_RGBA` / `GL_UNSIGNED_BYTE` upload reads. -/
def memByte (t : Nat) (k : Nat) : Nat := (t >>> (8 * k)) % 256

/-- The argument `sizeof(uint32_t) * mW * mH` of `malloc`, in bytes. -/
def mallocBytes (mW mH : Int) : Nat := smul (smul 4 (toSizeT mW)) (toSizeT mH)

/-- What a run of an RGBA-expanding decoder did: the value returned, the size
passed to `malloc` (if reached), the stores to `t32my` in order, and the
width and height passed to `glTexImage2D` (if reached). -/
structure RGBAResult where
  ret : Bool
  alloc : Option Nat
  stores : List (Int × Nat)
  texImage : Option (Int × Int)
deriving DecidableEq, Repr

/-- The part shared by both RGBA-expanding decoders once the header has
passed the signature test: field extraction, allocation, the decode loops and
the upload. -/
def decodeAndUpload (file : List UInt8) (header : Nat → UInt8) (staleRow : Int → UInt8)
    (ret : Bool) : RGBAResult :=
  let b := parseHeader header
  { ret := ret
    alloc := some (mallocBytes b.mW b.mH)
    stores := decodeStores file b staleRow
    texImage := some (b.mW, b.mH) }

namespace Gl2DrawRgba

/-- The function `setupGraphicsRGBA` of `gl2_drawrgba.cpp`.  `gTextureProgram`
is the handle `createProgram` returned; the viewport arguments `w`, `h` only
reach `glViewport` and are left out. -/
def setupGraphicsRGBA (gTextureProgram : Nat) (fp : FOpen)
    (staleHeader : Nat → UInt8) (staleRow : Int → UInt8) : RGBAResult :=
  if gTextureProgram = 0 then
    { ret := false, alloc := none, stores := [], texImage := none }
  else
    match fp with
    | .failed errno =>
      { ret := intToBool (wrapInt (-errno)), alloc := none, stores := [], texImage := none }
    | .opened file =>
      let header := freadHeader staleHeader file
      if badMagic header then
        { ret := intToBool (-1), alloc := none, stores := [], texImage := none }
      else
        decodeAndUpload file header staleRow true

end Gl2DrawRgba

namespace GlShowbmp

/-- The function `setupYuvTexSurface` of `gl_showbmp.cpp`.  `imgOk` tells
whether `eglCreateImageKHR` returned an image other than `EGL_NO_IMAGE_KHR`. -/
def setupYuvTexSurface (imgOk : Bool) (fp : FOpen)
    (staleHeader : Nat → UInt8) (staleRow : Int → UInt8) : RGBAResult :=
  match fp with
  | .failed errno =>
    { ret := intToBool (wrapInt (-errno)), alloc := none, stores := [], texImage := none }
  | .opened file =>
    let header := freadHeader staleHeader file
    if badMagic header then
      { ret := intToBool (-1), alloc := none, stores := [], texImage := none }
    else
      decodeAndUpload file header staleRow imgOk

end GlShowbmp

/-! ## The strict RGB path -/

/-- The assignment `buf[k] = v` on an array given as a function. -/
def store (buf : Int → UInt8) (k : Int) (v : UInt8) : Int → UInt8 :=
  fun j => if j = k then v else buf j

/-- The loop
`for (int i = 0; i < imageSize; i += 3) { temp = t8my[i]; t8my[i] = t8my[i+2]; t8my[i+2] = temp; }`
from the current value of `i`, with a bound on the number of turns; `none`
when the bound is used up before the loop condition fails. -/
def swapLoop (imageSize : Int) : Nat → Int → (Int → UInt8) → Option (Int → UInt8)
  | 0, _, _ => none
  | fuel + 1, i, t8my =>
    if i < imageSize then
      let temp := t8my i
      let t1 := store t8my i (t8my (iadd i 2))
      let t2 := store t1 (iadd i 2) temp
      swapLoop imageSize fuel (iadd i 3) t2
    else
      some t8my

/-- Number of turns after which the counter of the swap loop, stepping by 3
through the 32-bit range, has taken every `int` value. -/
def swapFuel : Nat := 4294967297

/-- What a run of the strict decoder did: the value returned, the size passed
to `malloc` (if reached), the byte buffer after the swap loop (if reached) and
the width and height passed to `glTexImage2D` (if reached). -/
structure RGBResult where
  ret : Bool
  alloc : Option Nat
  t8my : Option (Int → UInt8)
  texImage : Option (Int × Int)

/-- The test `(3 != mF) && (4 != mF)` of the strict decoder. -/
def badDepth (mF : Int) : Bool := (3 != mF) && (4 != mF)

/-- The local `imageSize = mW * mH * mF` of the strict decoder. -/
def imageSize (b : BmpInfo) : Int := imul (imul b.mW b.mH) b.mF

/-- The test `mS != (imageSize + BMP_HEADER_SIZE)` of the strict decoder. -/
def badSize (b : BmpInfo) : Bool := b.mS != iadd (imageSize b) (BMP_HEADER_SIZE : Int)

/-- The buffer `t8my` after
`fseek(fp, BMP_HEADER_SIZE, SEEK_SET); fread(t8my, 1, imageSize, fp);`,
`staleBuf` being what `malloc` handed out. -/
def rawPixels (file : List UInt8) (b : BmpInfo) (staleBuf : Int → UInt8) : Int → UInt8 :=
  freadBuf file (fseekSet (min BMP_HEADER_SIZE file.length) (BMP_HEADER_SIZE : Int))
    (imageSize b) staleBuf

/-- The read `fread(t8my, 1, imageSize, fp)` stores through a null pointer:
`imageSize` is negative, so that `malloc` was asked for `(size_t) imageSize`
bytes, which is more than `PTRDIFF_MAX` and makes it return `NULL`, and the
file holds at least one byte after its header for `fread` to store. -/
def nullWrite (file : List UInt8) (b : BmpInfo) : Bool :=
  decide (imageSize b < 0) && decide (BMP_HEADER_SIZE < file.length)

/-- The strict decoder from the read of the pixel data on, for a buffer that
`malloc` has handed out: the read, the swap loop, `createProgram` and the
upload.  `gProgram` is the handle `createProgram` returned.  The value is
`none` only if the swap loop has not ended within `swapFuel` turns. -/
def swapAndUpload (gProgram : Nat) (file : List UInt8) (b : BmpInfo)
    (staleBuf : Int → UInt8) : Option RGBResult :=
  match swapLoop (imageSize b) swapFuel 0 (rawPixels file b staleBuf) with
  | none => none
  | some t8my =>
    if gProgram = 0 then
      some { ret := false, alloc := some (toSizeT (imageSize b)), t8my := some t8my,
             texImage := none }
    else
      some { ret := true, alloc := some (toSizeT (imageSize b)), t8my := some t8my,
             texImage := some (b.mW, b.mH) }

/-- The part of the strict decoder that follows its three tests: allocation,
the read of the pixel data, the swap loop, `createProgram` and the upload.
The value is `none` when the call does not return: the read stores through
the null pointer of a failed allocation (`nullWrite`), or the swap loop has
not ended within `swapFuel` turns.  When the allocation fails and no byte
follows the header, nothing is stored, the swap loop makes no turn and the
function goes on with the null buffer. -/
def loadAndUpload (gProgram : Nat) (file : List UInt8) (b : BmpInfo)
    (staleBuf : Int → UInt8) : Option RGBResult :=
  if nullWrite file b then none else swapAndUpload gProgram file b staleBuf

namespace Gl2DrawRgb

/-- The function `setupYuvTexSurface` of `gl2_drawrgb.cpp`. -/
def setupYuvTexSurface (gProgram : Nat) (fp : FOpen)
    (staleHeader : Nat → UInt8) (staleBuf : Int → UInt8) : Option RGBResult :=
  match fp with
  | .failed _ => some { ret := false, alloc := none, t8my := none, texImage := none }
  | .opened file =>
    if badMagic (freadHeader staleHeader file) then
      some { ret := false, alloc := none, t8my := none, texImage := none }
    else if badDepth (parseHeader (freadHeader staleHeader file)).mF then
      some { ret := false, alloc := none, t8my := none, texImage := none }
    else if badSize (parseHeader (freadHeader staleHeader file)) then
      some { ret := false, alloc := none, t8my := none, texImage := none }
    else
      loadAndUpload gProgram file (parseHeader (freadHeader staleHeader file)) staleBuf

/-- The function `setupGraphicsRGB` of `gl2_drawrgb.cpp`: it returns `false`
when `setupYuvTexSurface` does and `true` otherwise. -/
def setupGraphicsRGB (gProgram : Nat) (fp : FOpen)
    (staleHeader : Nat → UInt8) (staleBuf : Int → UInt8) : Option Bool :=
  match setupYuvTexSurface gProgram fp staleHeader staleBuf with
  | none => none
  | some r => if r.ret == false then some false else some true

end Gl2DrawRgb

/-! ## Notions used in the statements -/

/-- Three consecutive file bytes from offset `o` on, packed as the decode
loop packs them: alpha `0xff`, then the bytes at `o`, `o+1`, `o+2` from the
high end down. -/
def packAt (file : List UInt8) (o : Nat) : Nat :=
  pack (file.getD o 0) (file.getD (o + 1) 0) (file.getD (o + 2) 0)

/-- The store that the decode loops make for the texel number `p` of the
top-down image (row `p / W`, column `p % W`): index `p`, value packed from the
file bytes of stored row `H - p / W - 1`. -/
def pixelStore (file : List UInt8) (W H F : Nat) (p : Nat) : Int × Nat :=
  ((p : Int), packAt file (54 + (H - p / W - 1) * F * W + (p % W) * F))

/-- The declared file size of a header: bytes 2..5 as an unsigned 32-bit
little-endian number, as the bitmap format defines the field. -/
def declaredSize (header : Nat → UInt8) : Nat :=
  (header 2).toNat + (header 3).toNat * 2 ^ 8 + (header 4).toNat * 2 ^ 16
    + (header 5).toNat * 2 ^ 24

/-- The header of a valid 24-bit or 32-bit input of width `W` and height `H`
with `bpp` bytes per pixel, as the header array shows it to a decoder: the
signature, a depth of 24 or 32 and the two dimensions.  Nothing is asked of
the declared size, which the RGBA-expanding decoders never look at, nor of
the bytes that follow the header. -/
def ValidBmp (header : Nat → UInt8) (W H bpp : Nat) : Prop :=
  badMagic header = false
    ∧ ((parseHeader header).mP = 24 ∧ bpp = 3 ∨ (parseHeader header).mP = 32 ∧ bpp = 4)
    ∧ (parseHeader header).mW = (W : Int)
    ∧ (parseHeader header).mH = (H : Int)

/-- Two states of the row loop that are at the same file position, a position
that is pixel-aligned for 4-byte pixels or at the end of the file, and whose
row buffers agree outside the fourth byte of every 4-byte group. -/
def Agree (len : Nat) (s1 s2 : RowState) : Prop :=
  s1.pos = s2.pos ∧ (s1.pos % 4 = 2 ∨ len ≤ s1.pos)
    ∧ ∀ i : Int, i % 4 ≠ 3 → s1.tmpb i = s2.tmpb i

/-- Two files of the same length that differ at most in the fourth byte of
4-byte pixels stored from offset 54 on. -/
def SameButFourth (f1 f2 : List UInt8) : Prop :=
  f1.length = f2.length ∧ ∀ o : Nat, ¬ (54 ≤ o ∧ (o - 54) % 4 = 3) → f1[o]? = f2[o]?

/-! ## Sample inputs -/

/-- The 70-byte, 32-bit, 2x2 bitmap whose stored rows are `[red, blue]` and
then `[green, yellow]`, each pixel as the bytes B, G, R, A. -/
def bmp2x2 : List UInt8 :=
  [0x42, 0x4d, 70, 0, 0, 0, 0, 0, 0, 0, 54, 0, 0, 0,
   40, 0, 0, 0, 2, 0, 0, 0, 2, 0, 0, 0, 1, 0, 32, 0, 0, 0, 0, 0, 16, 0, 0, 0,
   0, 0, 0, 0, 0, 0, 0, 0, 0, 0, 0, 0, 0, 0, 0, 0,
   0, 0, 255, 255,   255, 0, 0, 255,
   0, 255, 0, 255,   0, 255, 255, 255]

/-- Header of a 32-bit bitmap of width 65536 and height 32768. -/
def bigHeader : List UInt8 :=
  [0x42, 0x4d, 0, 0, 0, 0, 0, 0, 0, 0, 54, 0, 0, 0,
   40, 0, 0, 0, 0, 0, 1, 0, 0, 128, 0, 0, 1, 0, 32, 0, 0, 0, 0, 0, 0, 0, 0, 0,
   0, 0, 0, 0, 0, 0, 0, 0, 0, 0, 0, 0, 0, 0, 0, 0]

/-- A 32-bit bitmap of width 65536 and height 32768: after the header, a
first stored row of bytes 1 and 32767 further rows of bytes 2. -/
def bigFile : List UInt8 :=
  bigHeader ++ (List.replicate 262144 1 ++ List.replicate 8589672448 2)

/-- The 2x2 bitmap with its first byte replaced: the file starts `0x41 0x4d`
instead of the signature `0x42 0x4d`. -/
def badSigFile : List UInt8 := bmp2x2.set 0 0x41

/-- A 16-bit bitmap of width 1 and height 1: 54 header bytes and one 2-byte
pixel. -/
def bmp16 : List UInt8 :=
  [0x42, 0x4d, 56, 0, 0, 0, 0, 0, 0, 0, 54, 0, 0, 0,
   40, 0, 0, 0, 1, 0, 0, 0, 1, 0, 0, 0, 1, 0, 16, 0, 0, 0, 0, 0, 2, 0, 0, 0,
   0, 0, 0, 0, 0, 0, 0, 0, 0, 0, 0, 0, 0, 0, 0, 0,
   0x12, 0x34]

/-- A bitmap of width 1 and height 1 whose bits-per-pixel byte is 25: 54
header bytes, declared size 57, and one 3-byte pixel. -/
def bmp25 : List UInt8 :=
  [0x42, 0x4d, 57, 0, 0, 0, 0, 0, 0, 0, 54, 0, 0, 0,
   40, 0, 0, 0, 1, 0, 0, 0, 1, 0, 0, 0, 1, 0, 25, 0, 0, 0, 0, 0, 3, 0, 0, 0,
   0, 0, 0, 0, 0, 0, 0, 0, 0, 0, 0, 0, 0, 0, 0, 0,
   1, 2, 3]

/-- A 24-bit bitmap header of width 65536 and height 65536 with a declared
size of 54, and no pixel data after it. -/
def wrapFile : List UInt8 :=
  [0x42, 0x4d, 54, 0, 0, 0, 0, 0, 0, 0, 54, 0, 0, 0,
   40, 0, 0, 0, 0, 0, 1, 0, 0, 0, 1, 0, 1, 0, 24, 0, 0, 0, 0, 0, 0, 0, 0, 0,
   0, 0, 0, 0, 0, 0, 0, 0, 0, 0, 0, 0, 0, 0, 0, 0]

/-- The 2x2 bitmap with the low byte of its declared size changed from 70 to
71: the file is one byte shorter than it declares. -/
def padFile : List UInt8 := bmp2x2.set 2 71

/-- A 24-bit bitmap header of width -1 and height 1 with a declared size of
51 (which is `54 + (-1)*1*3`), and no pixel data after it. -/
def negDimFile : List UInt8 :=
  [0x42, 0x4d, 51, 0, 0, 0, 0, 0, 0, 0, 54, 0, 0, 0,
   40, 0, 0, 0, 255, 255, 255, 255, 1, 0, 0, 0, 1, 0, 24, 0, 0, 0, 0, 0, 0, 0, 0, 0,
   0, 0, 0, 0, 0, 0, 0, 0, 0, 0, 0, 0, 0, 0, 0, 0]

/-- A 32-bit bitmap of width 2 and height 1: 54 header bytes, declared size
62, and the two 4-byte pixels `1 2 3 4` and `5 6 7 8`. -/
def bmp32row : List UInt8 :=
  [0x42, 0x4d, 62, 0, 0, 0, 0, 0, 0, 0, 54, 0, 0, 0,
   40, 0, 0, 0, 2, 0, 0, 0, 1, 0, 0, 0, 1, 0, 32, 0, 0, 0, 0, 0, 8, 0, 0, 0,
   0, 0, 0, 0, 0, 0, 0, 0, 0, 0, 0, 0, 0, 0, 0, 0,
   1, 2, 3, 4,   5, 6, 7, 8]

/-- A 24-bit bitmap of width 1 and height 2: 54 header bytes, declared size
60, and two stored rows of one 3-byte pixel each, without row padding. -/
def bmp1x2 : List UInt8 :=
  [0x42, 0x4d, 60, 0, 0, 0, 0, 0, 0, 0, 54, 0, 0, 0,
   40, 0, 0, 0, 1, 0, 0, 0, 2, 0, 0, 0, 1, 0, 24, 0, 0, 0, 0, 0, 6, 0, 0, 0,
   0, 0, 0, 0, 0, 0, 0, 0, 0, 0, 0, 0, 0, 0, 0, 0,
   1, 2, 3,   4, 5, 6]

/-! ## The upload call -/

/-- The least multiple of `a` that is not below `n`. -/
def roundUp (n a : Nat) : Nat := (n + a - 1) / a * a

/-- The number of bytes that
`glTexImage2D(.., width, height, 0, format, GL_UNSIGNED_BYTE, pixels)` reads
from `pixels` when the format has `components` bytes per pixel and the unpack
alignment is `align`: `(height-1)*stride + rowBytes`, where
`rowBytes = components*width` and `stride` is `rowBytes` rounded up to
`align`.  A call whose width or height is not positive reads nothing. -/
def texImageBytes (components align : Nat) (dims : Int × Int) : Nat :=
  if dims.1 ≤ 0 ∨ dims.2 ≤ 0 then 0
  else (dims.2.toNat - 1) * roundUp (components * dims.1.toNat) align
    + components * dims.1.toNat

/-- The unpack alignment in force in the paths that never call
`glPixelStorei`: the initial value of `GL_UNPACK_ALIGNMENT`. -/
def initialUnpackAlignment : Nat := 4

/-- The bytes read by the `GL_RGBA` upload of an RGBA-expanding decoder, if it
was reached. -/
def uploadBytesRGBA (r : RGBAResult) : Option Nat :=
  r.texImage.map (texImageBytes 4 initialUnpackAlignment)

/-- The bytes read by the `GL_RGB` upload of the strict decoder, if it was
reached; the call `glPixelStorei(GL_UNPACK_ALIGNMENT, 4)` precedes it. -/
def Gl2DrawRgb.uploadBytes (r : RGBResult) : Option Nat :=
  r.texImage.map (texImageBytes 3 4)

/-! ## Shader and program objects -/

/-- What the GL driver answers about one shader object: the name that
`glCreateShader` returns (0 when no object was created), its compile status
and the length of its info log. -/
structure ShaderOracle where
  name : Nat
  compiled : Bool
  infoLen : Int
deriving DecidableEq, Repr

/-- What the GL driver answers about the program object: the name that
`glCreateProgram` returns (0 when no object was created), its link status and
the length of its info log. -/
structure ProgramOracle where
  name : Nat
  linked : Bool
  bufLength : Int
deriving DecidableEq, Repr

/-- The shader objects and program objects that exist in the GL context. -/
structure GlObjects where
  shaders : List Nat
  programs : List Nat
deriving DecidableEq, Repr

/-- The call `glCreateShader`: the object named by the driver starts to exist. -/
def glCreateShader (o : ShaderOracle) (s : GlObjects) : GlObjects :=
  if o.name = 0 then s else { s with shaders := o.name :: s.shaders }

/-- The call `glDeleteShader(shader)` on a shader that is attached to no
program. -/
def glDeleteShader (shader : Nat) (s : GlObjects) : GlObjects :=
  { s with shaders := s.shaders.filter (fun x => x != shader) }

/-- The call `glCreateProgram`. -/
def glCreateProgram (p : ProgramOracle) (s : GlObjects) : GlObjects :=
  if p.name = 0 then s else { s with programs := p.name :: s.programs }

/-- The call `glDeleteProgram(program)`. -/
def glDeleteProgram (program : Nat) (s : GlObjects) : GlObjects :=
  { s with programs := s.programs.filter (fun x => x != program) }

/-- The function `loadShader` of `backup/gl2_showbmp.cpp`: the value returned
and the objects that exist afterwards.  Reading and printing the info log
changes neither. -/
def loadShader (o : ShaderOracle) (s : GlObjects) : Nat × GlObjects :=
  if o.name ≠ 0 then
    if !o.compiled then
      if o.infoLen ≠ 0 then
        (0, glDeleteShader o.name (glCreateShader o s))
      else
        (o.name, glCreateShader o s)
    else
      (o.name, glCreateShader o s)
  else
    (o.name, glCreateShader o s)

/-- The function `createProgram` of `backup/gl2_showbmp.cpp`: the value
returned and the objects that exist afterwards.  `v` and `f` are the driver's
answers for the vertex and the fragment shader, `p` for the program.
Attaching and linking change no set of existing objects. -/
def createProgram (v f : ShaderOracle) (p : ProgramOracle) (s : GlObjects) : Nat × GlObjects :=
  if (loadShader v s).1 = 0 then
    (0, (loadShader v s).2)
  else if (loadShader f (loadShader v s).2).1 = 0 then
    (0, (loadShader f (loadShader v s).2).2)
  else if p.name ≠ 0 then
    if p.linked != true then
      (0, glDeleteProgram p.name (glCreateProgram p (loadShader f (loadShader v s).2).2))
    else
      (p.name, glCreateProgram p (loadShader f (loadShader v s).2).2)
  else
    (p.name, glCreateProgram p (loadShader f (loadShader v s).2).2)

/-! ## The frame functions of the programmable paths -/

/-- The value of `GL_TRIANGLE_STRIP`. -/
def GL_TRIANGLE_STRIP : Nat := 0x0005

/-- The GL calls that the two frame functions make. -/
inductive GlCall where
  | glClearColor
  | glClear
  | glBindTexture (texture : Nat)
  | glUseProgram (program : Nat)
  | glEnableBlend
  | glBlendFunc
  | glBindAttribLocation (program index : Nat)
  | glVertexAttribPointer (index : Nat)
  | glEnableVertexAttribArray (index : Nat)
  | glDisableVertexAttribArray (index : Nat)
  | glActiveTexture
  | glGetUniformLocation (program : Nat)
  | glUniform1i
  | glDrawArrays (mode first count : Nat)
deriving DecidableEq, Repr

/-- The part of the GL state that the frame functions are judged by: the
active program (0: none), the indices of the enabled vertex attribute arrays,
and the draw calls issued so far, newest first. -/
structure GlState where
  program : Nat
  arrays : List Nat
  draws : List (Nat × Nat × Nat)
deriving DecidableEq, Repr

/-- The effect of one GL call on the state.  `maxAttribs` is
`GL_MAX_VERTEX_ATTRIBS`: enabling or disabling an array of a larger index is
an error that changes nothing. -/
def execCall (maxAttribs : Nat) (s : GlState) : GlCall → GlState
  | .glUseProgram program => { s with program := program }
  | .glEnableVertexAttribArray index =>
    if index < maxAttribs then
      (if index ∈ s.arrays then s else { s with arrays := index :: s.arrays })
    else s
  | .glDisableVertexAttribArray index =>
    if index < maxAttribs then { s with arrays := s.arrays.filter (fun x => x != index) }
    else s
  | .glDrawArrays mode first count => { s with draws := (mode, first, count) :: s.draws }
  | _ => s

/-- The state after a sequence of GL calls. -/
def execCalls (maxAttribs : Nat) (s : GlState) (calls : List GlCall) : GlState :=
  calls.foldl (execCall maxAttribs) s

/-- The GL calls of `renderFrameRGBA` of `gl2_drawrgba.cpp`, in program
order, for the values of its globals. -/
def renderFrameRGBA (gBufferTexture gTextureProgram gvTexturePositionHandle
    gvTextureTexCoordsHandle : Nat) : List GlCall :=
  [.glClearColor, .glClear, .glBindTexture gBufferTexture, .glUseProgram gTextureProgram,
   .glEnableBlend, .glBlendFunc,
   .glVertexAttribPointer gvTexturePositionHandle,
   .glVertexAttribPointer gvTextureTexCoordsHandle,
   .glEnableVertexAttribArray gvTexturePositionHandle,
   .glEnableVertexAttribArray gvTextureTexCoordsHandle,
   .glDrawArrays GL_TRIANGLE_STRIP 0 4,
   .glUseProgram 0]

/-- The initial value 0 of the global `g_hVertexLoc_RGB`. -/
def g_hVertexLoc_RGB : Nat := 0

/-- The initial value 2 of the global `g_hVertexTexLoc_RGB`. -/
def g_hVertexTexLoc_RGB : Nat := 2

/-- The initial value 1 of the global `g_hColorLoc_RGB`. -/
def g_hColorLoc_RGB : Nat := 1

/-- The GL calls of `renderFrameRGB` of `gl2_drawrgb.cpp`, in program order,
for the values of its globals. -/
def renderFrameRGB (gProgram yuvTex : Nat) : List GlCall :=
  [.glUseProgram gProgram,
   .glBindAttribLocation gProgram g_hVertexLoc_RGB,
   .glBindAttribLocation gProgram g_hColorLoc_RGB,
   .glBindAttribLocation gProgram g_hVertexTexLoc_RGB,
   .glVertexAttribPointer g_hVertexLoc_RGB, .glEnableVertexAttribArray g_hVertexLoc_RGB,
   .glVertexAttribPointer g_hVertexTexLoc_RGB, .glEnableVertexAttribArray g_hVertexTexLoc_RGB,
   .glVertexAttribPointer g_hColorLoc_RGB, .glEnableVertexAttribArray g_hColorLoc_RGB,
   .glActiveTexture, .glBindTexture yuvTex, .glGetUniformLocation gProgram, .glUniform1i,
   .glDrawArrays GL_TRIANGLE_STRIP 0 4,
   .glDisableVertexAttribArray g_hVertexLoc_RGB,
   .glDisableVertexAttribArray g_hColorLoc_RGB,
   .glDisableVertexAttribArray g_hVertexTexLoc_RGB,
   .glUseProgram 0]

/-! ## The `main` functions -/

/-- The value of `RGB_MODE` in `common.h`. -/
def RGB_MODE : Nat := 0

/-- The value of `RGBA_MODE` in `common.h`. -/
def RGBA_MODE : Nat := 1

/-- The statements of `main` in `main.cpp` that select the mode: `argv` is
the whole argument vector, program name first, and `argc` its length. -/
def selectMode (argv : List String) : Nat :=
  if argv.length = 3 then
    if argv.getD 2 "" = "RGBA" then RGBA_MODE
    else if argv.getD 2 "" = "RGB" then RGB_MODE
    else RGBA_MODE
  else RGBA_MODE

/-- What the platform and the setup functions answer during one run of a
`main`: whether `eglGetDisplay` returned a display, `eglInitialize` returned
`EGL_TRUE`, the configuration step succeeded (`printEGLConfigurations` in
`main.cpp`, `EGLUtils::selectConfigForNativeWindow` in `gl_showbmp.cpp`),
`eglCreateWindowSurface` returned a surface, `eglCreateContext` a context,
`eglMakeCurrent` returned `EGL_TRUE`, and the values the setup functions
return. -/
structure Env where
  displayOk : Bool
  initOk : Bool
  configOk : Bool
  surfaceOk : Bool
  contextOk : Bool
  makeCurrentOk : Bool
  setupGraphicsRGB : Bool
  setupGraphicsRGBA : Bool
  setupYuvTexSurface : Bool
deriving DecidableEq, Repr

/-- The calls of a `main` that are recorded: the EGL calls whose result it
tests, the setup functions with the value they returned, the frame functions
and `eglSwapBuffers`. -/
inductive Event where
  | eglGetDisplay
  | eglInitialize
  | printEGLConfigurations
  | selectConfigForNativeWindow
  | eglCreateWindowSurface
  | eglCreateContext
  | eglMakeCurrent
  | setupGraphicsRGB (ret : Bool)
  | setupGraphicsRGBA (ret : Bool)
  | setupYuvTexSurface (ret : Bool)
  | setupGraphics (ret : Bool)
  | renderFrameRGB
  | renderFrameRGBA
  | renderFrame
  | eglSwapBuffers
deriving DecidableEq, Repr

/-- The entry `texDrawer[mode].setupGraphics` called with `(w, h, argv[1])`:
the call made and the value it returns. -/
def setupCall (env : Env) (mode : Nat) : Event × Bool :=
  if mode = RGB_MODE then (.setupGraphicsRGB env.setupGraphicsRGB, env.setupGraphicsRGB)
  else (.setupGraphicsRGBA env.setupGraphicsRGBA, env.setupGraphicsRGBA)

/-- The entry `texDrawer[mode].renderFrame`. -/
def frameCall (mode : Nat) : Event :=
  if mode = RGB_MODE then .renderFrameRGB else .renderFrameRGBA

/-- The part of `main` in `main.cpp` from `eglGetDisplay` to `eglMakeCurrent`:
the calls made, and the value returned by `main` if it returns in this part. -/
def eglInit (env : Env) : List Event × Option Int :=
  if !env.displayOk then ([.eglGetDisplay], some 0)
  else if !env.initOk then ([.eglGetDisplay, .eglInitialize], some 0)
  else if !env.configOk then
    ([.eglGetDisplay, .eglInitialize, .printEGLConfigurations], some 0)
  else if !env.surfaceOk then
    ([.eglGetDisplay, .eglInitialize, .printEGLConfigurations, .eglCreateWindowSurface],
     some 0)
  else if !env.contextOk then
    ([.eglGetDisplay, .eglInitialize, .printEGLConfigurations, .eglCreateWindowSurface,
      .eglCreateContext], some 0)
  else if !env.makeCurrentOk then
    ([.eglGetDisplay, .eglInitialize, .printEGLConfigurations, .eglCreateWindowSurface,
      .eglCreateContext, .eglMakeCurrent], some 0)
  else
    ([.eglGetDisplay, .eglInitialize, .printEGLConfigurations, .eglCreateWindowSurface,
      .eglCreateContext, .eglMakeCurrent], none)

/-- Where a run of `main` in `main.cpp` stands: at its first statement, at
the call of the setup function, at the head of the render loop before the
frame function, before `eglSwapBuffers`, or returned with a value. -/
inductive Pc where
  | entry
  | setup (mode : Nat)
  | frame (mode : Nat)
  | swap (mode : Nat)
  | exited (code : Int)
deriving DecidableEq, Repr

/-- A state of a run of `main` in `main.cpp`: the control point and the calls
made so far, oldest first. -/
structure MainState where
  pc : Pc
  trace : List Event
deriving DecidableEq, Repr

/-- One step of `main` in `main.cpp`. -/
def step (env : Env) (argv : List String) (s : MainState) : MainState :=
  match s.pc with
  | .entry =>
    if argv.length ≤ 1 then { pc := .exited (-1), trace := s.trace }
    else
      match (eglInit env).2 with
      | some code => { pc := .exited code, trace := s.trace ++ (eglInit env).1 }
      | none => { pc := .setup (selectMode argv), trace := s.trace ++ (eglInit env).1 }
  | .setup mode =>
    if (setupCall env mode).2 then
      { pc := .frame mode, trace := s.trace ++ [(setupCall env mode).1] }
    else
      { pc := .exited 1, trace := s.trace ++ [(setupCall env mode).1] }
  | .frame mode => { pc := .swap mode, trace := s.trace ++ [frameCall mode] }
  | .swap mode => { pc := .frame mode, trace := s.trace ++ [.eglSwapBuffers] }
  | .exited code => { pc := .exited code, trace := s.trace }

/-- The state of `main` in `main.cpp` after `n` steps. -/
def run (env : Env) (argv : List String) : Nat → MainState
  | 0 => { pc := .entry, trace := [] }
  | n + 1 => step env argv (run env argv n)

/-- The value returned by `main` in `main.cpp`, if it has returned within `n`
steps. -/
def exitCode (env : Env) (argv : List String) (n : Nat) : Option Int :=
  match (run env argv n).pc with
  | .exited code => some code
  | _ => none

/-- The function `main` of `gl_showbmp.cpp` up to its render loop: the calls
made, and the value returned, `none` when the render loop is entered.
`setupGraphics` of that file returns `true` always. -/
def GlShowbmp.mainExit (env : Env) (argc : Nat) : List Event × Option Int :=
  if argc ≤ 1 then ([], some (-1))
  else if !env.displayOk then ([.eglGetDisplay], some 0)
  else if !env.initOk then ([.eglGetDisplay, .eglInitialize], some 0)
  else if !env.configOk then
    ([.eglGetDisplay, .eglInitialize, .selectConfigForNativeWindow], some 1)
  else if !env.surfaceOk then
    ([.eglGetDisplay, .eglInitialize, .selectConfigForNativeWindow, .eglCreateWindowSurface],
     some 1)
  else if !env.contextOk then
    ([.eglGetDisplay, .eglInitialize, .selectConfigForNativeWindow, .eglCreateWindowSurface,
      .eglCreateContext], some 1)
  else if !env.makeCurrentOk then
    ([.eglGetDisplay, .eglInitialize, .selectConfigForNativeWindow, .eglCreateWindowSurface,
      .eglCreateContext, .eglMakeCurrent], some 1)
  else if !env.setupYuvTexSurface then
    ([.eglGetDisplay, .eglInitialize, .selectConfigForNativeWindow, .eglCreateWindowSurface,
      .eglCreateContext, .eglMakeCurrent, .setupYuvTexSurface false], some 1)
  else
    ([.eglGetDisplay, .eglInitialize, .selectConfigForNativeWindow, .eglCreateWindowSurface,
      .eglCreateContext, .eglMakeCurrent, .setupYuvTexSurface true, .setupGraphics true],
     none)

/-- A trace of a run in mode `mode` in which every call of a frame function is
that of the mode and comes after a call of the setup function of the same
mode that returned `true`. -/
def Gated (mode : Nat) (t : List Event) : Prop :=
  ∀ (pre : List Event) (e : Event) (post : List Event), t = pre ++ e :: post →
    (e = .renderFrameRGB → mode = RGB_MODE ∧ Event.setupGraphicsRGB true ∈ pre)
      ∧ (e = .renderFrameRGBA → mode = RGBA_MODE ∧ Event.setupGraphicsRGBA true ∈ pre)

/-- What holds of every state that a run of `main` in `main.cpp` reaches. -/
def Inv (env : Env) (argv : List String) (s : MainState) : Prop :=
  Gated (selectMode argv) s.trace
    ∧ (s.pc = .entry → s.trace = [])
    ∧ (∀ m, s.pc = .setup m → m = selectMode argv)
    ∧ (∀ m, s.pc = .frame m ∨ s.pc = .swap m →
        m = selectMode argv ∧ (setupCall env m).2 = true ∧ (setupCall env m).1 ∈ s.trace)

/-- A call that renders or presents a frame in `main.cpp`. -/
def isFrameEvent (e : Event) : Bool :=
  e == .renderFrameRGB || e == .renderFrameRGBA || e == .eglSwapBuffers

/-- A run in which every EGL call succeeds and `setupGraphicsRGBA` returns
`false`. -/
def envSetupFails : Env :=
  { displayOk := true, initOk := true, configOk := true, surfaceOk := true,
    contextOk := true, makeCurrentOk := true, setupGraphicsRGB := true,
    setupGraphicsRGBA := false, setupYuvTexSurface := true }

/-- A run in which `eglCreateWindowSurface` returns `EGL_NO_SURFACE`. -/
def envNoSurface : Env :=
  { displayOk := true, initOk := true, configOk := true, surfaceOk := false,
    contextOk := true, makeCurrentOk := true, setupGraphicsRGB := true,
    setupGraphicsRGBA := true, setupYuvTexSurface := true }

/-- A run in which every EGL call and every setup function succeeds. -/
def envAllOk : Env :=
  { displayOk := true, initOk := true, configOk := true, surfaceOk := true,
    contextOk := true, makeCurrentOk := true, setupGraphicsRGB := true,
    setupGraphicsRGBA := true, setupYuvTexSurface := true }

/-! ## Accesses of the swap loop -/

/-- The indices of `t8my` that the swap loop touches from the current value
of `i` on, in program order: each turn reads `t8my[i]`, reads `t8my[i+2]`,
writes `t8my[i]` and writes `t8my[i+2]`.  The bound on the number of turns is
that of `swapLoop`. -/
def swapAccesses (imageSize : Int) : Nat → Int → Option (List Int)
  | 0, _ => none
  | fuel + 1, i =>
    if i < imageSize then
      (swapAccesses imageSize fuel (iadd i 3)).map
        (fun l => i :: iadd i 2 :: i :: iadd i 2 :: l)
    else
      some []

/-- A byte buffer with the first and the third byte of every 3-byte group
exchanged. -/
def swapped3 (t : Int → UInt8) (j : Int) : UInt8 :=
  if j % 3 = 0 then t (j + 2) else if j % 3 = 2 then t (j - 2) else t j

/-- A 57-byte file whose header declares a 24-bit bitmap of width 641 and
height 6700417 (`641 * 6700417 = 2^32 + 1`) and a size of 57, followed by
three bytes. -/
def aliasFile : List UInt8 :=
  [0x42, 0x4d, 57, 0, 0, 0, 0, 0, 0, 0, 54, 0, 0, 0,
   40, 0, 0, 0, 0x81, 0x02, 0, 0, 0x81, 0x3d, 0x66, 0, 1, 0, 24, 0, 0, 0, 0, 0, 0, 0, 0, 0,
   0, 0, 0, 0, 0, 0, 0, 0, 0, 0, 0, 0, 0, 0, 0, 0,
   1, 2, 3]

/-- The 54-byte header of a 24-bit bitmap of width 1 and height 1 with a
declared size of 57, and none of the three pixel bytes it declares. -/
def headerOnlyFile : List UInt8 :=
  [0x42, 0x4d, 57, 0, 0, 0, 0, 0, 0, 0, 54, 0, 0, 0,
   40, 0, 0, 0, 1, 0, 0, 0, 1, 0, 0, 0, 1, 0, 24, 0, 0, 0, 0, 0, 3, 0, 0, 0,
   0, 0, 0, 0, 0, 0, 0, 0, 0, 0, 0, 0, 0, 0, 0, 0]

/-! ## Index expressions of the decode loops -/

/-- The seek offset `BMP_HEADER_SIZE + (mH-ii-1)*mF*mW` of the outer loop. -/
def seekOffset (mW mH mF ii : Int) : Int :=
  iadd (BMP_HEADER_SIZE : Int) (imul (imul (isub (isub mH ii) 1) mF) mW)

/-- The length `mF*mW` of the row buffer `tmpb`, which is also the count
passed to `fread`. -/
def rowLength (mW mF : Int) : Int := imul mF mW

/-- The index `jj*mF+k` into the row buffer `tmpb`. -/
def rowIndex (mF jj k : Int) : Int := iadd (imul jj mF) k

/-- The index `ii*mW+jj` into the texel buffer `t32my`. -/
def texelIndex (mW ii jj : Int) : Int := iadd (imul ii mW) jj

/-- The 54-byte header of a 32-bit bitmap of width 1 and height 536870911,
for which `4*W*H` is 2147483644. -/
def tallFile : List UInt8 :=
  [0x42, 0x4d, 0x32, 0, 0, 0x80, 0, 0, 0, 0, 54, 0, 0, 0,
   40, 0, 0, 0, 1, 0, 0, 0, 0xff, 0xff, 0xff, 0x1f, 1, 0, 32, 0, 0, 0, 0, 0, 0, 0, 0, 0,
   0, 0, 0, 0, 0, 0, 0, 0, 0, 0, 0, 0, 0, 0, 0, 0]

/-- Header of a 24-bit bitmap of width 65536 and height 32769, whose
`65536 * 32769 = 2^31 + 65536` texels are more than `2^31`. -/
def overHeader : List UInt8 :=
  [0x42, 0x4d, 0x36, 0, 0x03, 0x80, 0, 0, 0, 0, 54, 0, 0, 0,
   40, 0, 0, 0, 0, 0, 1, 0, 0x01, 0x80, 0, 0, 1, 0, 24, 0, 0, 0, 0, 0, 0, 0, 0, 0,
   0, 0, 0, 0, 0, 0, 0, 0, 0, 0, 0, 0, 0, 0, 0, 0]

/-- A 24-bit bitmap of width 65536 and height 32769: the header followed by
all `65536 * 32769 * 3` pixel bytes, here zero. -/
def overFile : List UInt8 := overHeader ++ List.replicate 6442647552 0

/-! ## Arithmetic of the header fields -/

theorem readInt_eq (header : Nat → UInt8) (k : Nat) :
    readInt header k = signedLE32 (header k).toNat (header (k + 1)).toNat
      (header (k + 2)).toNat (header (k + 3)).toNat := by
  have h0 := UInt8.toNat_lt (header k)
  have h1 := UInt8.toNat_lt (header (k + 1))
  have h2 := UInt8.toNat_lt (header (k + 2))
  have h3 := UInt8.toNat_lt (header (k + 3))
  simp only [readInt, iadd, ishl, byteAt, wrapInt, signedLE32]
  norm_num at h0 h1 h2 h3 ⊢
  split <;> omega

theorem readInt_neg_iff (header : Nat → UInt8) (k : Nat) :
    readInt header k < 0 ↔ 128 ≤ (header (k + 3)).toNat := by
  have h0 := UInt8.toNat_lt (header k)
  have h1 := UInt8.toNat_lt (header (k + 1))
  have h2 := UInt8.toNat_lt (header (k + 2))
  have h3 := UInt8.toNat_lt (header (k + 3))
  simp only [readInt, iadd, ishl, byteAt, wrapInt]
  norm_num at h0 h1 h2 h3 ⊢
  omega

theorem readInt_range (header : Nat → UInt8) (k : Nat) :
    -2147483648 ≤ readInt header k ∧ readInt header k < 2147483648 := by
  simp only [readInt, iadd, wrapInt]
  omega

/-! ## The decode loops on inputs inside the `int` range -/


theorem wrapInt_of_range {x : Int} (h1 : -2147483648 ≤ x) (h2 : x < 2147483648) :
    wrapInt x = x := by
  unfold wrapInt; omega

theorem wrapInt_natCast {n : Nat} (h : n < 2147483648) : wrapInt (n : Int) = (n : Int) :=
  wrapInt_of_range (by omega) (by omega)

theorem imul_natCast {a b : Nat} (h : a * b < 2147483648) :
    imul (a : Int) (b : Int) = ((a * b : Nat) : Int) := by
  unfold imul
  rw [← Nat.cast_mul]
  exact wrapInt_natCast h

theorem iadd_natCast {a b : Nat} (h : a + b < 2147483648) :
    iadd (a : Int) (b : Int) = ((a + b : Nat) : Int) := by
  unfold iadd
  rw [← Nat.cast_add]
  exact wrapInt_natCast h

theorem isub_natCast {a b : Nat} (hb : b ≤ a) (h : a < 2147483648) :
    isub (a : Int) (b : Int) = ((a - b : Nat) : Int) := by
  unfold isub
  rw [← Nat.cast_sub hb]
  exact wrapInt_natCast (by omega)

theorem toSizeT_natCast {n : Nat} (h : n < 2147483648) : toSizeT (n : Int) = n := by
  unfold toSizeT; omega

theorem idx_lit (jj F k : Nat) (z : Int) (hz : z = (k : Int)) (hk : k ≤ 2)
    (h : jj * F + 2 < 2147483648) :
    iadd (imul (jj : Int) (F : Int)) z = ((jj * F + k : Nat) : Int) := by
  subst hz
  have h0 : jj * F < 2147483648 := by omega
  have h1 : jj * F + k < 2147483648 := by omega
  rw [imul_natCast h0, iadd_natCast h1]

/-- A row and a column inside the image address bytes inside the pixel data. -/
theorem row_bound {W H F ii : Nat} (hii : ii < H) :
    (H - ii - 1) * F * W + F * W ≤ W * H * F := by
  obtain ⟨d, rfl⟩ : ∃ d, H = ii + 1 + d := ⟨H - ii - 1, by omega⟩
  have e : ii + 1 + d - ii - 1 = d := by omega
  rw [e]
  nlinarith [Nat.zero_le (ii * F * W)]

theorem dims_le {W H F : Nat} (hW : 0 < W) (hF : 0 < F) :
    H ≤ W * H * F ∧ F * W ≤ W * H * F ∨ H = 0 := by
  rcases Nat.eq_zero_or_pos H with h | h
  · exact Or.inr h
  · left
    constructor
    · calc H ≤ W * H := Nat.le_mul_of_pos_left H hW
        _ ≤ W * H * F := Nat.le_mul_of_pos_right _ hF
    · calc F * W = W * 1 * F := by ring
        _ ≤ W * H * F := by
          apply Nat.mul_le_mul_right
          exact Nat.mul_le_mul_left _ h

theorem readRow_off (W H F ii : Nat) (hii : ii < H) (hW : 0 < W) (hF : 0 < F)
    (hrange : 54 + W * H * F < 2147483648) :
    iadd (BMP_HEADER_SIZE : Int) (imul (imul (isub (isub (H : Int) (ii : Int)) 1) (F : Int)) (W : Int))
      = ((54 + (H - ii - 1) * F * W : Nat) : Int) := by
  have hb := @row_bound W H F ii hii
  have h1 : (H - ii - 1) * F ≤ (H - ii - 1) * F * W := Nat.le_mul_of_pos_right _ hW
  have hH : H ≤ W * H * F := by
    rcases @dims_le W H F hW hF with h | h
    · exact h.1
    · omega
  have one : ((1 : Nat) : Int) = 1 := rfl
  rw [isub_natCast (by omega) (by omega), ← one, isub_natCast (by omega) (by omega),
    imul_natCast (by omega), imul_natCast (by omega)]
  have : (BMP_HEADER_SIZE : Int) = ((54 : Nat) : Int) := rfl
  rw [this, iadd_natCast (by omega)]

theorem readRow_tmpb (file : List UInt8) (W H F ii : Nat) (st : RowState)
    (hii : ii < H) (hW : 0 < W)
    (hlen : 54 + W * H * F ≤ file.length) (hrange : 54 + W * H * F < 2147483648)
    (idx : Nat) (hidx : idx < F * W) :
    (readRow file (W : Int) (H : Int) (F : Int) (ii : Int) st).tmpb (idx : Int)
      = file.getD (54 + (H - ii - 1) * F * W + idx) 0 := by
  have hF : 0 < F := by
    rcases Nat.eq_zero_or_pos F with h | h
    · subst h; simp at hidx
    · exact h
  have hb := @row_bound W H F ii hii
  have hFW : F * W < 2147483648 := by omega
  simp only [readRow, readRow_off W H F ii hii hW hF hrange, imul_natCast hFW, freadBuf,
    fseekSet, toSizeT_natCast hFW]
  have hin : 54 + (H - ii - 1) * F * W + idx < file.length := by omega
  rw [if_pos (Int.ofNat_nonneg _), if_pos ⟨Int.ofNat_nonneg _, by simpa using hidx⟩]
  simp only [Int.toNat_ofNat, List.getD_eq_getElem?_getD, List.getElem?_eq_getElem hin,
    Option.getD_some]

theorem texel_readRow (file : List UInt8) (W H F ii : Nat) (st : RowState)
    (hii : ii < H) (hF : 3 ≤ F)
    (hlen : 54 + W * H * F ≤ file.length) (hrange : 54 + W * H * F < 2147483648)
    (jj : Nat) (hjj : jj < W) :
    texel (readRow file (W : Int) (H : Int) (F : Int) (ii : Int) st).tmpb (F : Int) (jj : Int)
      = packAt file (54 + (H - ii - 1) * F * W + jj * F) := by
  have hW : 0 < W := by omega
  have hb := @row_bound W H F ii hii
  have hcol : jj * F + F ≤ F * W := by
    calc jj * F + F = F * (jj + 1) := by ring
      _ ≤ F * W := Nat.mul_le_mul_left _ hjj
  have hx0 : jj * F < 2147483648 := by omega
  have hx2 : jj * F + 2 < 2147483648 := by omega
  have b0 : jj * F + 0 < F * W := by omega
  have b1 : jj * F + 1 < F * W := by omega
  have b2 : jj * F + 2 < F * W := by omega
  have i0 : iadd (imul (jj : Int) (F : Int)) 0 = ((jj * F + 0 : Nat) : Int) :=
    idx_lit jj F 0 0 rfl (by decide) hx2
  have i1 : iadd (imul (jj : Int) (F : Int)) 1 = ((jj * F + 1 : Nat) : Int) :=
    idx_lit jj F 1 1 rfl (by decide) hx2
  have i2 : iadd (imul (jj : Int) (F : Int)) 2 = ((jj * F + 2 : Nat) : Int) :=
    idx_lit jj F 2 2 rfl (by decide) hx2
  unfold texel packAt
  simp only [i0, i1, i2]
  rw [readRow_tmpb file W H F ii st hii hW hlen hrange _ b0,
    readRow_tmpb file W H F ii st hii hW hlen hrange _ b1,
    readRow_tmpb file W H F ii st hii hW hlen hrange _ b2]
  simp only [Nat.add_zero, Nat.add_assoc]

theorem rowStores_readRow (file : List UInt8) (W H F ii : Nat) (st : RowState)
    (hii : ii < H) (hF : 3 ≤ F)
    (hlen : 54 + W * H * F ≤ file.length) (hrange : 54 + W * H * F < 2147483648) :
    rowStores (readRow file (W : Int) (H : Int) (F : Int) (ii : Int) st).tmpb (W : Int) (F : Int)
        (ii : Int)
      = (List.range' (ii * W) W).map (pixelStore file W H F) := by
  unfold rowStores
  rw [List.range'_eq_map_range, List.map_map, Int.toNat_ofNat]
  apply List.map_congr_left
  intro jj hjj
  have hjj : jj < W := List.mem_range.mp hjj
  have hW : 0 < W := by omega
  have hidx : ii * W + jj < W * H * F := by
    have h1 : ii * W + W ≤ W * H := by
      calc ii * W + W = W * (ii + 1) := by ring
        _ ≤ W * H := Nat.mul_le_mul_left _ hii
    have h2 : W * H ≤ W * H * F := Nat.le_mul_of_pos_right _ (by omega)
    omega
  have hdiv : (ii * W + jj) / W = ii := by
    rw [Nat.add_comm, Nat.add_mul_div_right _ _ hW, Nat.div_eq_of_lt hjj, Nat.zero_add]
  have hmod : (ii * W + jj) % W = jj := by
    rw [Nat.add_comm, Nat.add_mul_mod_self_right, Nat.mod_eq_of_lt hjj]
  have hy0 : ii * W < 2147483648 := by omega
  have hy1 : ii * W + jj < 2147483648 := by omega
  simp only [Function.comp, pixelStore, hdiv, hmod]
  rw [imul_natCast hy0, iadd_natCast hy1,
    texel_readRow file W H F ii st hii hF hlen hrange jj hjj]

theorem decodeLoop_range' (file : List UInt8) (W H F : Nat) (hF : 3 ≤ F)
    (hlen : 54 + W * H * F ≤ file.length) (hrange : 54 + W * H * F < 2147483648) :
    ∀ (n s : Nat) (st : RowState), s + n ≤ H →
      decodeLoop file (W : Int) (H : Int) (F : Int) (List.range' s n) st
        = (List.range' (s * W) (n * W)).map (pixelStore file W H F) := by
  intro n
  induction n with
  | zero => intro s st _; simp [decodeLoop]
  | succ n ih =>
    intro s st hs
    rw [List.range'_succ, decodeLoop]
    have hs1 : s < H := by omega
    have hs2 : s + 1 + n ≤ H := by omega
    rw [rowStores_readRow file W H F s st hs1 hF hlen hrange, ih (s + 1) _ hs2]
    have e : (s + 1) * W = s * W + W := by ring
    have e2 : (n + 1) * W = n * W + W := by ring
    rw [e, e2, ← List.range'_append_1, List.map_append]




theorem bufferAfter_not_mem (stores : List (Int × Nat)) :
    ∀ (stale : Int → Nat) (i : Int), i ∉ stores.map Prod.fst → bufferAfter stale stores i = stale i := by
  induction stores with
  | nil => intro stale i _; rfl
  | cons kv rest ih =>
    intro stale i hi
    obtain ⟨k, v⟩ := kv
    simp only [List.map_cons, List.mem_cons, not_or] at hi
    rw [bufferAfter, ih _ _ hi.2, if_neg hi.1]

theorem bufferAfter_mem (stores : List (Int × Nat)) :
    ∀ (stale : Int → Nat) (i : Int) (v : Nat), (stores.map Prod.fst).Nodup → (i, v) ∈ stores →
      bufferAfter stale stores i = v := by
  induction stores with
  | nil => intro stale i v _ h; simp at h
  | cons kv rest ih =>
    intro stale i v hnd hmem
    obtain ⟨k, w⟩ := kv
    simp only [List.map_cons, List.nodup_cons] at hnd
    rw [bufferAfter]
    rcases List.mem_cons.mp hmem with h | h
    · have hk : i = k := congrArg Prod.fst h
      have hw : v = w := congrArg Prod.snd h
      subst hk; subst hw
      rw [bufferAfter_not_mem rest _ _ hnd.1, if_pos rfl]
    · exact ih _ i v hnd.2 h

theorem pack_eq (b0 b1 b2 : UInt8) :
    pack b0 b1 b2 = 4278190080 + b0.toNat * 65536 + b1.toNat * 256 + b2.toNat := by
  have h0 := UInt8.toNat_lt b0
  have h1 := UInt8.toNat_lt b1
  have h2 := UInt8.toNat_lt b2
  unfold pack
  simp only [Nat.shiftLeft_eq]
  have e1 : 4278190080 ||| b0.toNat * 2 ^ 16 = 2 ^ 16 * (65280 + b0.toNat) := by
    have h := @Nat.mul_add_lt_is_or 24 (b0.toNat * 2 ^ 16) (by omega) 255
    have e : (4278190080 : Nat) = 2 ^ 24 * 255 := by norm_num
    rw [e, ← h]
    omega
  have e2 : 2 ^ 16 * (65280 + b0.toNat) ||| b1.toNat * 2 ^ 8
      = 2 ^ 8 * (256 * (65280 + b0.toNat) + b1.toNat) := by
    have h := @Nat.mul_add_lt_is_or 16 (b1.toNat * 2 ^ 8) (by omega) (65280 + b0.toNat)
    rw [← h]
    omega
  have e3 : 2 ^ 8 * (256 * (65280 + b0.toNat) + b1.toNat) ||| b2.toNat
      = 2 ^ 8 * (256 * (65280 + b0.toNat) + b1.toNat) + b2.toNat := by
    exact (@Nat.mul_add_lt_is_or 8 b2.toNat (by omega) (256 * (65280 + b0.toNat) + b1.toNat)).symm
  rw [e1, e2, e3]
  omega

theorem memByte_pack (b0 b1 b2 : UInt8) :
    memByte (pack b0 b1 b2) 0 = b2.toNat ∧ memByte (pack b0 b1 b2) 1 = b1.toNat ∧
      memByte (pack b0 b1 b2) 2 = b0.toNat ∧ memByte (pack b0 b1 b2) 3 = 255 := by
  have h0 := UInt8.toNat_lt b0
  have h1 := UInt8.toNat_lt b1
  have h2 := UInt8.toNat_lt b2
  simp only [memByte, pack_eq, Nat.shiftRight_eq_div_pow]
  norm_num
  omega




theorem decodeStores_eq (file : List UInt8) (b : BmpInfo) (staleRow : Int → UInt8)
    (W H F : Nat) (hW : b.mW = (W : Int)) (hH : b.mH = (H : Int)) (hF : b.mF = (F : Int))
    (h3 : 3 ≤ F) (hlen : 54 + W * H * F ≤ file.length)
    (hrange : 54 + W * H * F < 2147483648) :
    decodeStores file b staleRow = (List.range (H * W)).map (pixelStore file W H F) := by
  unfold decodeStores
  rw [hW, hH, hF, Int.toNat_ofNat, List.range_eq_range', List.range_eq_range',
    decodeLoop_range' file W H F h3 hlen hrange H 0 _ (by omega), Nat.zero_mul]

theorem pixelStore_at (file : List UInt8) (W H F r c : Nat) (hc : c < W) :
    pixelStore file W H F (r * W + c)
      = (((r * W + c : Nat) : Int), packAt file (54 + (H - 1 - r) * F * W + c * F)) := by
  have hW : 0 < W := by omega
  have hdiv : (r * W + c) / W = r := by
    rw [Nat.add_comm, Nat.add_mul_div_right _ _ hW, Nat.div_eq_of_lt hc, Nat.zero_add]
  have hmod : (r * W + c) % W = c := by
    rw [Nat.add_comm, Nat.add_mul_mod_self_right, Nat.mod_eq_of_lt hc]
  have e : H - r - 1 = H - 1 - r := by omega
  simp only [pixelStore, hdiv, hmod, e]

theorem cell_lt {W H r c : Nat} (hr : r < H) (hc : c < W) : r * W + c < H * W := by
  have h1 : r * W + W ≤ H * W := by
    calc r * W + W = (r + 1) * W := by ring
      _ ≤ H * W := Nat.mul_le_mul_right _ hr
  omega

theorem nodup_cast_range (n : Nat) :
    ((List.range n).map (fun p : Nat => (p : Int))).Nodup :=
  (List.nodup_range n).map (fun _ _ h => Int.ofNat.inj h)

/-- The buffer cell of row `r`, column `c` after the stores of an in-range decode. -/
theorem bufferAfter_decodeStores (file : List UInt8) (b : BmpInfo) (staleRow : Int → UInt8)
    (staleBuf : Int → Nat)
    (W H F : Nat) (hW : b.mW = (W : Int)) (hH : b.mH = (H : Int)) (hF : b.mF = (F : Int))
    (h3 : 3 ≤ F) (hlen : 54 + W * H * F ≤ file.length)
    (hrange : 54 + W * H * F < 2147483648) (r c : Nat) (hr : r < H) (hc : c < W) :
    bufferAfter staleBuf (decodeStores file b staleRow) ((r * W + c : Nat) : Int)
      = packAt file (54 + (H - 1 - r) * F * W + c * F) := by
  rw [decodeStores_eq file b staleRow W H F hW hH hF h3 hlen hrange]
  apply bufferAfter_mem
  · rw [List.map_map]
    exact nodup_cast_range (H * W)
  · rw [← pixelStore_at file W H F r c hc]
    exact List.mem_map_of_mem _ (List.mem_range.mpr (cell_lt hr hc))

/-! ## Header field extraction -/

/-- C5: for every header array, the decoders compute the declared file size,
the width and the height as the signed 32-bit little-endian integers of bytes
2..5, 18..21 and 22..25 (negative exactly when the top byte is at least
0x80), the bits-per-pixel as the single byte 28 whatever byte 29 holds, and
the bytes-per-pixel as the floor of that byte divided by 8; the width and
height so computed are the ones handed to the upload. -/
theorem header_fields (header : Nat → UInt8) :
    (parseHeader header).mS
        = signedLE32 (header 2).toNat (header 3).toNat (header 4).toNat (header 5).toNat
      ∧ (parseHeader header).mW
        = signedLE32 (header 18).toNat (header 19).toNat (header 20).toNat (header 21).toNat
      ∧ (parseHeader header).mH
        = signedLE32 (header 22).toNat (header 23).toNat (header 24).toNat (header 25).toNat
      ∧ ((parseHeader header).mS < 0 ↔ 128 ≤ (header 5).toNat)
      ∧ ((parseHeader header).mW < 0 ↔ 128 ≤ (header 21).toNat)
      ∧ ((parseHeader header).mH < 0 ↔ 128 ≤ (header 25).toNat)
      ∧ (parseHeader header).mP = ((header 28).toNat : Int)
      ∧ (parseHeader header).mF = (((header 28).toNat / 8 : Nat) : Int)
      ∧ (∀ v : UInt8, parseHeader (fun i => if i = 29 then v else header i) = parseHeader header)
      ∧ (∀ (file : List UInt8) (staleRow : Int → UInt8) (ret : Bool),
          (decodeAndUpload file header staleRow ret).texImage
            = some (signedLE32 (header 18).toNat (header 19).toNat (header 20).toNat
                      (header 21).toNat,
                    signedLE32 (header 22).toNat (header 23).toNat (header 24).toNat
                      (header 25).toNat)) := by
  refine ⟨readInt_eq header 2, readInt_eq header 18, readInt_eq header 22,
    readInt_neg_iff header 2, readInt_neg_iff header 18, readInt_neg_iff header 22, rfl, ?_, ?_, ?_⟩
  · show Int.tdiv ((header 28).toNat : Int) 8 = _
    rw [Int.tdiv_eq_ediv (Int.ofNat_nonneg _) (by decide)]
    rfl
  · intro v
    simp [parseHeader, readInt, byteAt]
  · intro file staleRow ret
    show some ((parseHeader header).mW, (parseHeader header).mH) = _
    rw [show (parseHeader header).mW = readInt header 18 from rfl,
      show (parseHeader header).mH = readInt header 22 from rfl, readInt_eq, readInt_eq]

/-! ## Row mapping of the RGBA-expanding decoders -/

theorem decodeAndUpload_stores (file : List UInt8) (header : Nat → UInt8)
    (staleRow : Int → UInt8) (ret : Bool) :
    (decodeAndUpload file header staleRow ret).stores
      = decodeStores file (parseHeader header) staleRow := by
  simp only [decodeAndUpload]

theorem setupGraphicsRGBA_of_opened (gTextureProgram : Nat) (file : List UInt8)
    (staleHeader : Nat → UInt8) (staleRow : Int → UInt8) (hprog : gTextureProgram ≠ 0)
    (hmagic : badMagic (freadHeader staleHeader file) = false) :
    Gl2DrawRgba.setupGraphicsRGBA gTextureProgram (.opened file) staleHeader staleRow
      = decodeAndUpload file (freadHeader staleHeader file) staleRow true := by
  simp only [Gl2DrawRgba.setupGraphicsRGBA, if_neg hprog, hmagic]
  rfl

theorem glShowbmp_of_opened (imgOk : Bool) (file : List UInt8)
    (staleHeader : Nat → UInt8) (staleRow : Int → UInt8)
    (hmagic : badMagic (freadHeader staleHeader file) = false) :
    GlShowbmp.setupYuvTexSurface imgOk (.opened file) staleHeader staleRow
      = decodeAndUpload file (freadHeader staleHeader file) staleRow imgOk := by
  simp only [GlShowbmp.setupYuvTexSurface, hmagic]
  rfl

/-- C1 (amended): for every file with a valid signature, bytes-per-pixel
`bpp = bits/8` in {3, 4}, width `W`, height `H`, at least `54 + W*H*bpp`
bytes, and `54 + W*H*bpp` within the `int` range, and for every `r < H` and
`c < W`, the buffer element at index `r*W + c` after the decode of either
RGBA-expanding decoder is packed from exactly the three file bytes at offsets
`54 + (H-1-r)*bpp*W + c*bpp + k`, `k = 0, 1, 2`; hence, when the first stored
row is solid red (bytes 0, 0, 255) and the last stored row is solid blue
(bytes 255, 0, 0), decoded row 0 is blue (`0xffff0000`) and decoded row `H-1`
is red (`0xff0000ff`). -/
theorem row_mapping (gTextureProgram : Nat) (imgOk : Bool) (file : List UInt8)
    (staleHeader : Nat → UInt8) (staleRow : Int → UInt8) (staleBuf : Int → Nat)
    (W H bpp : Nat)
    (hprog : gTextureProgram ≠ 0)
    (hmagic : badMagic (freadHeader staleHeader file) = false)
    (hW : (parseHeader (freadHeader staleHeader file)).mW = (W : Int))
    (hH : (parseHeader (freadHeader staleHeader file)).mH = (H : Int))
    (hF : (parseHeader (freadHeader staleHeader file)).mF = (bpp : Int))
    (hbpp : bpp = 3 ∨ bpp = 4)
    (hlen : 54 + W * H * bpp ≤ file.length)
    (hrange : 54 + W * H * bpp ≤ 2147483647)
    (r c : Nat) (hr : r < H) (hc : c < W) :
    (∀ stores : List (Int × Nat),
      (stores = (Gl2DrawRgba.setupGraphicsRGBA gTextureProgram (.opened file) staleHeader
          staleRow).stores
        ∨ stores = (GlShowbmp.setupYuvTexSurface imgOk (.opened file) staleHeader
          staleRow).stores) →
      bufferAfter staleBuf stores ((r * W + c : Nat) : Int)
          = pack (file.getD (54 + (H - 1 - r) * bpp * W + c * bpp) 0)
              (file.getD (54 + (H - 1 - r) * bpp * W + c * bpp + 1) 0)
              (file.getD (54 + (H - 1 - r) * bpp * W + c * bpp + 2) 0)
        ∧ ((file.getD (54 + c * bpp) 0 = 0 ∧ file.getD (54 + c * bpp + 1) 0 = 0
              ∧ file.getD (54 + c * bpp + 2) 0 = 255) →
            bufferAfter staleBuf stores (((H - 1) * W + c : Nat) : Int) = 0xff0000ff)
        ∧ ((file.getD (54 + (H - 1) * bpp * W + c * bpp) 0 = 255
              ∧ file.getD (54 + (H - 1) * bpp * W + c * bpp + 1) 0 = 0
              ∧ file.getD (54 + (H - 1) * bpp * W + c * bpp + 2) 0 = 0) →
            bufferAfter staleBuf stores ((0 * W + c : Nat) : Int) = 0xffff0000)) := by
  have h3 : 3 ≤ bpp := by omega
  have hr2 : 54 + W * H * bpp < 2147483648 := by omega
  have hH0 : 0 < H := by omega
  have hH1 : H - 1 < H := by omega
  have ez : H - 1 - (H - 1) = 0 := by omega
  have key : ∀ r1, r1 < H →
      bufferAfter staleBuf
          (decodeStores file (parseHeader (freadHeader staleHeader file)) staleRow)
          ((r1 * W + c : Nat) : Int)
        = pack (file.getD (54 + (H - 1 - r1) * bpp * W + c * bpp) 0)
            (file.getD (54 + (H - 1 - r1) * bpp * W + c * bpp + 1) 0)
            (file.getD (54 + (H - 1 - r1) * bpp * W + c * bpp + 2) 0) := fun r1 hr1 =>
    bufferAfter_decodeStores file (parseHeader (freadHeader staleHeader file)) staleRow
      staleBuf W H bpp hW hH hF h3 hlen hr2 r1 c hr1 hc
  have red : pack 0 0 255 = 0xff0000ff := by decide
  have blue : pack 255 0 0 = 0xffff0000 := by decide
  intro stores hs
  have hst : stores = decodeStores file (parseHeader (freadHeader staleHeader file)) staleRow := by
    rcases hs with h | h
    · rw [h, setupGraphicsRGBA_of_opened gTextureProgram file staleHeader staleRow hprog hmagic,
        decodeAndUpload_stores]
    · rw [h, glShowbmp_of_opened imgOk file staleHeader staleRow hmagic,
        decodeAndUpload_stores]
  rw [hst]
  refine ⟨key r hr, ?_, ?_⟩
  · rintro ⟨a0, a1, a2⟩
    rw [key (H - 1) hH1, ez, Nat.zero_mul, Nat.zero_mul, Nat.add_zero, a0, a1, a2, red]
  · rintro ⟨a0, a1, a2⟩
    rw [key 0 hH0, Nat.sub_zero, a0, a1, a2, blue]

theorem row_mapping_witness :
    bufferAfter (fun _ => 0)
        (Gl2DrawRgba.setupGraphicsRGBA 1 (.opened bmp2x2) (fun _ => 0) (fun _ => 0)).stores
        ((0 * 2 + 1 : Nat) : Int)
      = pack (bmp2x2.getD (54 + (2 - 1 - 0) * 4 * 2 + 1 * 4) 0)
          (bmp2x2.getD (54 + (2 - 1 - 0) * 4 * 2 + 1 * 4 + 1) 0)
          (bmp2x2.getD (54 + (2 - 1 - 0) * 4 * 2 + 1 * 4 + 2) 0) :=
  (row_mapping 1 true bmp2x2 (fun _ => 0) (fun _ => 0) (fun _ => 0) 2 2 4
    (by decide) (by decide) (by decide) (by decide) (by decide) (by decide) (by decide)
    (by decide) 0 1 (by decide) (by decide) _ (Or.inl rfl)).1




theorem bigFile_length : bigFile.length = 8589934646 := by
  simp only [bigFile, List.length_append, List.length_replicate]
  rfl

theorem bigFile_header (stale : Nat → UInt8) :
    freadHeader stale bigFile = freadHeader stale bigHeader := by
  funext i
  unfold freadHeader
  by_cases h : i < BMP_HEADER_SIZE
  · have h' : i < bigHeader.length := h
    simp only [if_pos h, bigFile, List.getElem?_append_left h']
  · simp only [if_neg h]

theorem bigFile_row0 (i : Nat) (h : i < 262144) : bigFile[54 + i]? = some 1 := by
  have h1 : bigHeader.length ≤ 54 + i := Nat.le_add_right 54 i
  have h2 : 54 + i - bigHeader.length = i := by
    show 54 + i - 54 = i
    omega
  have h3 : i < (List.replicate 262144 (1 : UInt8)).length := by
    rw [List.length_replicate]; exact h
  rw [bigFile, List.getElem?_append_right h1, h2, List.getElem?_append_left h3,
    List.getElem?_replicate, if_pos h]

theorem bigFile_rest (i : Nat) (h1 : 262144 ≤ i) (h2 : i < 8589934592) :
    bigFile[54 + i]? = some 2 := by
  have a1 : bigHeader.length ≤ 54 + i := Nat.le_add_right 54 i
  have a2 : 54 + i - bigHeader.length = i := by
    show 54 + i - 54 = i
    omega
  have a3 : (List.replicate 262144 (1 : UInt8)).length ≤ i := by
    rw [List.length_replicate]; exact h1
  have a4 : i - 262144 < 8589672448 := by omega
  rw [bigFile, List.getElem?_append_right a1, a2, List.getElem?_append_right a3,
    List.length_replicate, List.getElem?_replicate, if_pos a4]




theorem rowStores_fst (tmpb : Int → UInt8) (W : Nat) (mF : Int) (s : Nat)
    (h : (s + 1) * W ≤ 2147483648) :
    (rowStores tmpb (W : Int) mF (s : Int)).map Prod.fst
      = (List.range' (s * W) W).map (fun p : Nat => (p : Int)) := by
  unfold rowStores
  rw [List.range'_eq_map_range, List.map_map, List.map_map, Int.toNat_ofNat]
  apply List.map_congr_left
  intro jj hjj
  have hjj : jj < W := List.mem_range.mp hjj
  have e : (s + 1) * W = s * W + W := by ring
  have h0 : s * W < 2147483648 := by omega
  have h1 : s * W + jj < 2147483648 := by omega
  rw [Function.comp_apply, Function.comp_apply, imul_natCast h0, iadd_natCast h1]

/-- The indices stored by the decode loops are `0, 1, 2, ...` in this order
as long as the texel count stays within the `int` range. -/
theorem decodeLoop_fst (file : List UInt8) (W : Nat) (mH mF : Int) :
    ∀ (n s : Nat) (st : RowState), (s + n) * W ≤ 2147483648 →
      (decodeLoop file (W : Int) mH mF (List.range' s n) st).map Prod.fst
        = (List.range' (s * W) (n * W)).map (fun p : Nat => (p : Int)) := by
  intro n
  induction n with
  | zero => intro s st _; simp [decodeLoop]
  | succ n ih =>
    intro s st hs
    have e0 : (s + (n + 1)) * W = (s + 1) * W + n * W := by ring
    have e1 : (s + 1 + n) * W = (s + 1) * W + n * W := by ring
    have hs1 : (s + 1) * W ≤ 2147483648 := by omega
    have hs2 : (s + 1 + n) * W ≤ 2147483648 := by omega
    have e : (s + 1) * W = s * W + W := by ring
    have e2 : (n + 1) * W = n * W + W := by ring
    rw [List.range'_succ, decodeLoop, List.map_append, rowStores_fst _ W mF s hs1,
      ih (s + 1) _ hs2, e, e2, ← List.range'_append_1, List.map_append]

theorem first_store_mem (file : List UInt8) (w h : Nat) (mH mF : Int) (st : RowState) :
    ((0 : Int), texel (readRow file ((w + 1 : Nat) : Int) mH mF ((0 : Nat) : Int) st).tmpb mF
        ((0 : Nat) : Int))
      ∈ decodeLoop file ((w + 1 : Nat) : Int) mH mF (List.range (h + 1)) st := by
  rw [List.range_eq_range', List.range'_succ, decodeLoop]
  apply List.mem_append_left
  unfold rowStores
  rw [Int.toNat_ofNat, List.range_eq_range', List.range'_succ, List.map_cons]
  have e : iadd (imul ((0 : Nat) : Int) ((w + 1 : Nat) : Int)) ((0 : Nat) : Int) = 0 := by
    simp [iadd, imul, wrapInt]
  rw [e]
  exact List.mem_cons_self _ _




/-- The first cell of the buffer holds what the first turn of the loops stored
there, as long as the texel count stays within the `int` range. -/
theorem bufferAfter_first (file : List UInt8) (b : BmpInfo) (w h : Nat)
    (hW : b.mW = ((w + 1 : Nat) : Int)) (hH : b.mH = ((h + 1 : Nat) : Int))
    (hwh : (h + 1) * (w + 1) ≤ 2147483648) (staleRow : Int → UInt8) (staleBuf : Int → Nat) :
    bufferAfter staleBuf (decodeStores file b staleRow) 0
      = texel (readRow file ((w + 1 : Nat) : Int) ((h + 1 : Nat) : Int) b.mF ((0 : Nat) : Int)
          { pos := min BMP_HEADER_SIZE file.length, tmpb := staleRow }).tmpb b.mF
          ((0 : Nat) : Int) := by
  unfold decodeStores
  rw [hW, hH, Int.toNat_ofNat]
  apply bufferAfter_mem
  · have hb : (0 + (h + 1)) * (w + 1) ≤ 2147483648 := by rw [Nat.zero_add]; exact hwh
    rw [List.range_eq_range', decodeLoop_fst file (w + 1) _ _ (h + 1) 0 _ hb]
    exact (List.nodup_range' _ _).map (fun _ _ e => Int.ofNat.inj e)
  · exact first_store_mem file w h _ _ _

theorem bigFile_info :
    parseHeader (freadHeader (fun _ => 0) bigFile)
      = { mS := 0, mW := 65536, mH := 32768, mP := 32, mF := 4 } := by
  rw [bigFile_header]
  decide

theorem bigFile_magic : badMagic (freadHeader (fun _ => 0) bigFile) = false := by
  rw [bigFile_header]
  decide

theorem bigFile_tmpb (k : Nat) (hk : k < 262144) :
    (readRow bigFile ((65535 + 1 : Nat) : Int) ((32767 + 1 : Nat) : Int) 4 ((0 : Nat) : Int)
        { pos := min BMP_HEADER_SIZE bigFile.length, tmpb := fun _ => 0 }).tmpb (k : Int) = 1 := by
  have eoff : iadd (BMP_HEADER_SIZE : Int)
      (imul (imul (isub (isub ((32767 + 1 : Nat) : Int) ((0 : Nat) : Int)) 1) 4)
        ((65535 + 1 : Nat) : Int)) = -262090 := by decide
  have en : imul 4 ((65535 + 1 : Nat) : Int) = 262144 := by decide
  have es : toSizeT 262144 = 262144 := by decide
  have epos : min BMP_HEADER_SIZE bigFile.length = 54 := by
    rw [bigFile_length]; decide
  have eseek : fseekSet 54 (-262090) = 54 := by decide
  simp only [readRow, eoff, en, epos, eseek, freadBuf, es]
  rw [if_pos ⟨Int.ofNat_nonneg _, by simpa using hk⟩, Int.toNat_ofNat, bigFile_row0 k hk]
  rfl




theorem bigFile_first_texel :
    bufferAfter (fun _ => 0)
        (Gl2DrawRgba.setupGraphicsRGBA 1 (.opened bigFile) (fun _ => 0) (fun _ => 0)).stores 0
      = pack 1 1 1 := by
  have hprog : (1 : Nat) ≠ 0 := by decide
  rw [setupGraphicsRGBA_of_opened 1 bigFile _ _ hprog bigFile_magic, decodeAndUpload_stores,
    bufferAfter_first bigFile _ 65535 32767 (by rw [bigFile_info]; rfl)
      (by rw [bigFile_info]; rfl) (by decide), bigFile_info]
  have i0 : iadd (imul ((0 : Nat) : Int) 4) 0 = ((0 : Nat) : Int) := by decide
  have i1 : iadd (imul ((0 : Nat) : Int) 4) 1 = ((1 : Nat) : Int) := by decide
  have i2 : iadd (imul ((0 : Nat) : Int) 4) 2 = ((2 : Nat) : Int) := by decide
  simp only [texel, i0, i1, i2]
  rw [bigFile_tmpb 0 (by decide), bigFile_tmpb 1 (by decide), bigFile_tmpb 2 (by decide)]

theorem bigFile_last_row :
    pack (bigFile.getD (54 + (32768 - 1 - 0) * 4 * 65536 + 0 * 4) 0)
        (bigFile.getD (54 + (32768 - 1 - 0) * 4 * 65536 + 0 * 4 + 1) 0)
        (bigFile.getD (54 + (32768 - 1 - 0) * 4 * 65536 + 0 * 4 + 2) 0)
      = pack 2 2 2 := by
  have e0 : 54 + (32768 - 1 - 0) * 4 * 65536 + 0 * 4 = 54 + 8589672448 := by decide
  have e1 : 54 + (32768 - 1 - 0) * 4 * 65536 + 0 * 4 + 1 = 54 + 8589672449 := by decide
  have e2 : 54 + (32768 - 1 - 0) * 4 * 65536 + 0 * 4 + 2 = 54 + 8589672450 := by decide
  rw [e0, e1, e2, List.getD_eq_getElem?_getD, List.getD_eq_getElem?_getD,
    List.getD_eq_getElem?_getD, bigFile_rest _ (by decide) (by decide),
    bigFile_rest _ (by decide) (by decide), bigFile_rest _ (by decide) (by decide)]
  rfl

/-- C1, as stated, fails beyond the `int` range: the 32-bit bitmap `bigFile`
of width 65536 and height 32768 has a valid signature and all of its
`54 + W*H*bpp` bytes, yet the element at index `0*W + 0` of the decoded buffer
is not packed from the bytes at offsets `54 + (H-1-0)*bpp*W + 0*bpp + k`: the
seek offset of the first turn wraps to a negative `int`, the seek is refused,
and the row is read from offset 54. -/
theorem row_mapping_fails_beyond_int_range :
    badMagic (freadHeader (fun _ => 0) bigFile) = false
      ∧ (parseHeader (freadHeader (fun _ => 0) bigFile)).mW = ((65536 : Nat) : Int)
      ∧ (parseHeader (freadHeader (fun _ => 0) bigFile)).mH = ((32768 : Nat) : Int)
      ∧ (parseHeader (freadHeader (fun _ => 0) bigFile)).mF = ((4 : Nat) : Int)
      ∧ 54 + 65536 * 32768 * 4 ≤ bigFile.length
      ∧ bufferAfter (fun _ => 0)
          (Gl2DrawRgba.setupGraphicsRGBA 1 (.opened bigFile) (fun _ => 0) (fun _ => 0)).stores
          ((0 * 65536 + 0 : Nat) : Int)
        ≠ pack (bigFile.getD (54 + (32768 - 1 - 0) * 4 * 65536 + 0 * 4) 0)
            (bigFile.getD (54 + (32768 - 1 - 0) * 4 * 65536 + 0 * 4 + 1) 0)
            (bigFile.getD (54 + (32768 - 1 - 0) * 4 * 65536 + 0 * 4 + 2) 0) := by
  refine ⟨bigFile_magic, ?_, ?_, ?_, ?_, ?_⟩
  · rw [bigFile_info]; rfl
  · rw [bigFile_info]; rfl
  · rw [bigFile_info]; rfl
  · rw [bigFile_length]
  · rw [bigFile_last_row]
    have e : ((0 * 65536 + 0 : Nat) : Int) = 0 := by decide
    rw [e, bigFile_first_texel]
    decide

/-! ## Texel count and opacity -/

theorem idx4_mod (jj : Int) (k : Int) (hk0 : 0 ≤ k) (hk : k < 3) :
    (iadd (imul jj 4) k) % 4 ≠ 3 := by
  unfold iadd imul wrapInt
  omega

theorem texel_congr4 (t1 t2 : Int → UInt8) (h : ∀ i : Int, i % 4 ≠ 3 → t1 i = t2 i)
    (jj : Int) : texel t1 4 jj = texel t2 4 jj := by
  unfold texel
  rw [h _ (idx4_mod jj 0 (by decide) (by decide)), h _ (idx4_mod jj 1 (by decide) (by decide)),
    h _ (idx4_mod jj 2 (by decide) (by decide))]

theorem rowStores_congr4 (t1 t2 : Int → UInt8) (h : ∀ i : Int, i % 4 ≠ 3 → t1 i = t2 i)
    (mW ii : Int) : rowStores t1 mW 4 ii = rowStores t2 mW 4 ii := by
  unfold rowStores
  apply List.map_congr_left
  intro jj _
  rw [texel_congr4 t1 t2 h]

theorem seek4_mod (a mW : Int) :
    (iadd (BMP_HEADER_SIZE : Int) (imul (imul a 4) mW)) % 4 = 2 := by
  have h1 : (imul a 4) % 4 = 0 := by
    unfold imul wrapInt
    omega
  obtain ⟨m, hm⟩ : ∃ m, imul a 4 = 4 * m := ⟨imul a 4 / 4, by omega⟩
  have e : imul a 4 * mW = 4 * (m * mW) := by rw [hm]; ring
  have hb : ((BMP_HEADER_SIZE : Nat) : Int) = 54 := rfl
  unfold iadd
  rw [hb]
  show wrapInt (54 + wrapInt (imul a 4 * mW)) % 4 = 2
  rw [e]
  unfold wrapInt
  omega

theorem count4_mod (mW : Int) : toSizeT (imul 4 mW) % 4 = 0 := by
  unfold toSizeT imul wrapInt
  omega




theorem readRow_agree (f1 f2 : List UInt8) (hf : SameButFourth f1 f2) (mW mH ii : Int)
    (s1 s2 : RowState) (h : Agree f1.length s1 s2) :
    Agree f1.length (readRow f1 mW mH 4 ii s1) (readRow f2 mW mH 4 ii s2) := by
  obtain ⟨hpos, hal, htmp⟩ := h
  obtain ⟨hlen, hsame⟩ := hf
  have hoff := seek4_mod (isub (isub mH ii) 1) mW
  have hcnt := count4_mod mW
  generalize hq : iadd (BMP_HEADER_SIZE : Int) (imul (imul (isub (isub mH ii) 1) 4) mW) = off
    at hoff
  generalize hn : toSizeT (imul 4 mW) = cnt at hcnt
  have hseek : fseekSet s1.pos off % 4 = 2 ∨ f1.length ≤ fseekSet s1.pos off := by
    unfold fseekSet
    by_cases h0 : 0 ≤ off
    · rw [if_pos h0]; left; omega
    · rw [if_neg h0]; exact hal
  generalize hp : fseekSet s1.pos off = p at hseek
  have hp2 : fseekSet s2.pos off = p := by rw [← hpos]; exact hp
  refine ⟨?_, ?_, ?_⟩
  · simp only [readRow, hq, hp, hp2, freadPos, hn, hlen]
  · simp only [readRow, hq, hp, freadPos, hn]
    omega
  · intro i hi
    simp only [readRow, hq, hp, hp2, freadBuf, hn]
    by_cases hc : 0 ≤ i ∧ i.toNat < cnt
    · rw [if_pos hc, if_pos hc, htmp i hi]
      have hget : f1[p + i.toNat]? = f2[p + i.toNat]? := by
        rcases hseek with ha | hb
        · apply hsame
          omega
        · rw [List.getElem?_eq_none (by omega), List.getElem?_eq_none (by omega)]
      rw [hget]
    · rw [if_neg hc, if_neg hc, htmp i hi]

theorem decodeLoop_agree (f1 f2 : List UInt8) (hf : SameButFourth f1 f2) (mW mH : Int) :
    ∀ (l : List Nat) (s1 s2 : RowState), Agree f1.length s1 s2 →
      decodeLoop f1 mW mH 4 l s1 = decodeLoop f2 mW mH 4 l s2 := by
  intro l
  induction l with
  | nil => intro s1 s2 _; rfl
  | cons ii rest ih =>
    intro s1 s2 h
    have h' := readRow_agree f1 f2 hf mW mH (ii : Int) s1 s2 h
    rw [decodeLoop, decodeLoop, rowStores_congr4 _ _ h'.2.2, ih _ _ h']

theorem sameButFourth_set (file : List UInt8) (p : Nat) (a : UInt8) :
    SameButFourth (file.set (54 + 4 * p + 3) a) file := by
  refine ⟨List.length_set _ _ _, fun o ho => ?_⟩
  apply List.getElem?_set_ne
  omega

/-- For 4-byte pixels the stores of the decode loops do not depend on the
fourth byte of any pixel of the file. -/
theorem decodeStores_set4 (file : List UInt8) (b : BmpInfo) (staleRow : Int → UInt8)
    (hF : b.mF = 4) (p : Nat) (a : UInt8) :
    decodeStores (file.set (54 + 4 * p + 3) a) b staleRow = decodeStores file b staleRow := by
  have hl : (file.set (54 + 4 * p + 3) a).length = file.length := List.length_set _ _ _
  unfold decodeStores
  rw [hF, hl]
  apply decodeLoop_agree _ _ (sameButFourth_set file p a)
  refine ⟨rfl, ?_, fun _ _ => rfl⟩
  rw [hl]
  show min 54 file.length % 4 = 2 ∨ file.length ≤ min 54 file.length
  omega

/-- Every value stored by the decode loops has alpha byte `0xff` and fits 32
bits. -/
theorem decodeLoop_alpha (file : List UInt8) (mW mH mF : Int) :
    ∀ (l : List Nat) (st : RowState), ∀ s ∈ decodeLoop file mW mH mF l st,
      memByte s.2 3 = 0xff ∧ s.2 < 4294967296 := by
  intro l
  induction l with
  | nil => intro st s hs; simp [decodeLoop] at hs
  | cons ii rest ih =>
    intro st s hs
    rw [decodeLoop] at hs
    rcases List.mem_append.mp hs with h | h
    · unfold rowStores at h
      obtain ⟨jj, _, rfl⟩ := List.mem_map.mp h
      refine ⟨(memByte_pack _ _ _).2.2.2, ?_⟩
      show texel _ _ _ < 4294967296
      unfold texel
      rw [pack_eq]
      have h0 := UInt8.toNat_lt ((readRow file mW mH mF (ii : Int) st).tmpb
        (iadd (imul (jj : Int) mF) 0))
      have h1 := UInt8.toNat_lt ((readRow file mW mH mF (ii : Int) st).tmpb
        (iadd (imul (jj : Int) mF) 1))
      have h2 := UInt8.toNat_lt ((readRow file mW mH mF (ii : Int) st).tmpb
        (iadd (imul (jj : Int) mF) 2))
      omega
    · exact ih _ s h

theorem mF_of_depth {header : Nat → UInt8} {bpp : Nat}
    (hd : (parseHeader header).mP = 24 ∧ bpp = 3 ∨ (parseHeader header).mP = 32 ∧ bpp = 4) :
    (parseHeader header).mF = (bpp : Int) := by
  have e : (parseHeader header).mF = Int.tdiv (parseHeader header).mP 8 := rfl
  rcases hd with ⟨h1, h2⟩ | ⟨h1, h2⟩
  · rw [e, h1, h2]; rfl
  · rw [e, h1, h2]; rfl

theorem declaredSize_lt (header : Nat → UInt8) : declaredSize header < 4294967296 := by
  have h0 := UInt8.toNat_lt (header 2)
  have h1 := UInt8.toNat_lt (header 3)
  have h2 := UInt8.toNat_lt (header 4)
  have h3 := UInt8.toNat_lt (header 5)
  unfold declaredSize
  omega

theorem mallocBytes_natCast (W H : Nat) (h : W * H < 2147483648)
    (hW : W < 2147483648) (hH : H < 2147483648) :
    mallocBytes (W : Int) (H : Int) = 4 * (W * H) := by
  unfold mallocBytes smul
  rw [toSizeT_natCast hW, toSizeT_natCast hH]
  have e : 4 * W * H = 4 * (W * H) := Nat.mul_assoc 4 W H
  have a1 : 4 * W % 18446744073709551616 = 4 * W := Nat.mod_eq_of_lt (by omega)
  have a2 : 4 * (W * H) % 18446744073709551616 = 4 * (W * H) := Nat.mod_eq_of_lt (by omega)
  rw [a1, e, a2]

theorem mallocBytes_of_dims (W H : Nat) (hW : W < 2147483648) (hH : H < 2147483648) :
    mallocBytes (W : Int) (H : Int) = 4 * W * H := by
  unfold mallocBytes smul
  rw [toSizeT_natCast hW, toSizeT_natCast hH]
  have a1 : 4 * W % 18446744073709551616 = 4 * W := Nat.mod_eq_of_lt (by omega)
  have h4 : 4 * W < 8589934592 := by omega
  have a2 : 4 * W * H < 8589934592 * 2147483648 :=
    Nat.mul_lt_mul'' h4 hH
  rw [a1, Nat.mod_eq_of_lt a2]

theorem dim_lt (header : Nat → UInt8) (k n : Nat) (h : readInt header k = (n : Int)) :
    n < 2147483648 := by
  have := (readInt_range header k).2
  rw [h] at this
  exact_mod_cast this

theorem freadHeader_set (stale : Nat → UInt8) (file : List UInt8) (k : Nat) (a : UInt8)
    (hk : 54 ≤ k) : freadHeader stale (file.set k a) = freadHeader stale file := by
  funext i
  unfold freadHeader
  by_cases h : i < BMP_HEADER_SIZE
  · have hne : k ≠ i := by
      have : i < 54 := h
      omega
    rw [if_pos h, if_pos h, List.getElem?_set_ne hne]
  · rw [if_neg h, if_neg h]

/-- C2 (amended): for every valid 24-bit or 32-bit input of width `W` and
height `H` whose row length `bpp*W` fits `int` (it is the length of the row
buffer), each RGBA-expanding decoder allocates a buffer of exactly `W*H`
32-bit texels (`4*W*H` bytes) and uploads it as `W x H`; when `W*H` is at most
`2^31`, so that every texel index fits `int`, it stores to the indices
`0, 1, .., W*H-1` (each once, in this order, and to no other index); every
texel stored has alpha byte `0xff` and fits 32 bits; for a 32-bit source,
changing the fourth byte of any source pixel changes no store. -/
theorem texel_count_and_opacity (gTextureProgram : Nat) (imgOk : Bool) (file : List UInt8)
    (staleHeader : Nat → UInt8) (staleRow : Int → UInt8) (W H bpp : Nat)
    (hprog : gTextureProgram ≠ 0)
    (hvalid : ValidBmp (freadHeader staleHeader file) W H bpp)
    (hrow : bpp * W < 2147483648) :
    ∀ decode : List UInt8 → RGBAResult,
      (decode = (fun f =>
          Gl2DrawRgba.setupGraphicsRGBA gTextureProgram (.opened f) staleHeader staleRow)
        ∨ decode = (fun f =>
          GlShowbmp.setupYuvTexSurface imgOk (.opened f) staleHeader staleRow)) →
      (decode file).alloc = some (4 * (W * H))
        ∧ (decode file).texImage = some ((W : Int), (H : Int))
        ∧ (W * H ≤ 2147483648 →
            (decode file).stores.map Prod.fst
              = (List.range (W * H)).map (fun p : Nat => (p : Int)))
        ∧ (∀ s ∈ (decode file).stores, memByte s.2 3 = 0xff ∧ s.2 < 4294967296)
        ∧ (bpp = 4 → ∀ (p : Nat) (a : UInt8),
            (decode (file.set (54 + 4 * p + 3) a)).stores = (decode file).stores)
        ∧ rowLength (parseHeader (freadHeader staleHeader file)).mW
            (parseHeader (freadHeader staleHeader file)).mF = ((bpp * W : Nat) : Int) := by
  intro decode hdec
  have hF := mF_of_depth hvalid.2.1
  obtain ⟨hmagic, _, hW, hH⟩ := hvalid
  have hform : ∃ ret : Bool, ∀ f : List UInt8,
      badMagic (freadHeader staleHeader f) = false →
        decode f = decodeAndUpload f (freadHeader staleHeader f) staleRow ret := by
    rcases hdec with h | h
    · exact ⟨true, fun f hm => by
        rw [h]; exact setupGraphicsRGBA_of_opened gTextureProgram f staleHeader staleRow hprog hm⟩
    · exact ⟨imgOk, fun f hm => by
        rw [h]; exact glShowbmp_of_opened imgOk f staleHeader staleRow hm⟩
  obtain ⟨ret, hform⟩ := hform
  have hWb : W < 2147483648 := dim_lt _ 18 W hW
  have hHb : H < 2147483648 := dim_lt _ 22 H hH
  rw [hform file hmagic]
  refine ⟨?_, ?_, fun hWH => ?_, ?_, ?_, ?_⟩
  · simp only [decodeAndUpload, hW, hH]
    rw [mallocBytes_of_dims W H hWb hHb, Nat.mul_assoc]
  · simp only [decodeAndUpload, hW, hH]
  · have hb : (0 + H) * W ≤ 2147483648 := by
      rw [Nat.zero_add, Nat.mul_comm]; omega
    rw [decodeAndUpload_stores]
    unfold decodeStores
    rw [hW, hH, Int.toNat_ofNat, List.range_eq_range',
      decodeLoop_fst file W _ _ H 0 _ hb, Nat.zero_mul, ← List.range_eq_range',
      Nat.mul_comm H W]
  · intro s hs
    rw [decodeAndUpload_stores] at hs
    exact decodeLoop_alpha _ _ _ _ _ _ s hs
  · intro h4 p a
    have hk : 54 ≤ 54 + 4 * p + 3 := by omega
    have hh := freadHeader_set staleHeader file (54 + 4 * p + 3) a hk
    have hm2 : badMagic (freadHeader staleHeader (file.set (54 + 4 * p + 3) a)) = false := by
      rw [hh]; exact hmagic
    rw [hform _ hm2, decodeAndUpload_stores, decodeAndUpload_stores, hh]
    apply decodeStores_set4
    rw [hF, h4]
    rfl
  · unfold rowLength
    rw [hW, hF, imul_natCast hrow]

theorem bmp2x2_valid : ValidBmp (freadHeader (fun _ => 0) bmp2x2) 2 2 4 :=
  ⟨by decide, Or.inr ⟨by decide, rfl⟩, by decide, by decide⟩

/-- The 2x2 bitmap that declares one byte more than it holds is a valid input
of the RGBA-expanding decoders. -/
theorem padFile_valid : ValidBmp (freadHeader (fun _ => 0) padFile) 2 2 4 :=
  ⟨by decide, Or.inr ⟨by decide, rfl⟩, by decide, by decide⟩

theorem texel_count_and_opacity_witness :
    (Gl2DrawRgba.setupGraphicsRGBA 1 (.opened padFile) (fun _ => 0) (fun _ => 0)).stores.map
        Prod.fst
      = (List.range (2 * 2)).map (fun p : Nat => (p : Int)) :=
  (texel_count_and_opacity 1 true padFile (fun _ => 0) (fun _ => 0) 2 2 4 (by decide)
    padFile_valid (by decide)
    (fun f => Gl2DrawRgba.setupGraphicsRGBA 1 (.opened f) (fun _ => 0) (fun _ => 0))
    (Or.inl rfl)).2.2.1 (by decide)

theorem overFile_header (stale : Nat → UInt8) :
    freadHeader stale overFile = freadHeader stale overHeader := by
  funext i
  unfold freadHeader
  by_cases h : i < BMP_HEADER_SIZE
  · have h' : i < overHeader.length := h
    simp only [if_pos h, overFile, List.getElem?_append_left h']
  · simp only [if_neg h]

/-- Every index stored by the decode loops is an `int`. -/
theorem decodeLoop_index_lt (file : List UInt8) (mW mH mF : Int) :
    ∀ (l : List Nat) (st : RowState), ∀ s ∈ decodeLoop file mW mH mF l st,
      s.1 < 2147483648 := by
  intro l
  induction l with
  | nil => intro st s hs; simp [decodeLoop] at hs
  | cons ii rest ih =>
    intro st s hs
    rw [decodeLoop] at hs
    rcases List.mem_append.mp hs with h | h
    · unfold rowStores at h
      obtain ⟨jj, _, rfl⟩ := List.mem_map.mp h
      show iadd _ _ < 2147483648
      unfold iadd wrapInt
      omega
    · exact ih _ s h

/-- The turn `ii`, `jj` of the decode loops stores to the index `ii*mW+jj`. -/
theorem decodeLoop_mem (file : List UInt8) (mW mH mF : Int) (ii jj : Nat)
    (hjj : jj < mW.toNat) :
    ∀ (l : List Nat) (st : RowState), ii ∈ l →
      ∃ v, (iadd (imul (ii : Int) mW) (jj : Int), v) ∈ decodeLoop file mW mH mF l st := by
  intro l
  induction l with
  | nil => intro st h; simp at h
  | cons x rest ih =>
    intro st h
    rw [decodeLoop]
    rcases List.mem_cons.mp h with e | e
    · subst e
      refine ⟨texel (readRow file mW mH mF (ii : Int) st).tmpb mF (jj : Int), ?_⟩
      apply List.mem_append_left
      unfold rowStores
      exact List.mem_map.mpr ⟨jj, List.mem_range.mpr hjj, rfl⟩
    · obtain ⟨v, hv⟩ := ih (readRow file mW mH mF (x : Int) st) e
      exact ⟨v, List.mem_append_right _ hv⟩

/-- C2 (counterexample): `overFile` is a 24-bit bitmap of width 65536 and
height 32769 that holds all its pixel bytes; its `W*H = 2^31 + 65536` texels
exceed the `int` range of the index `ii*mW+jj`: no store of the decoder goes
to the index `2^31`, which is below `W*H`, and the first turn of row 32768
stores to the index `-2^31`. -/
theorem texel_index_wraps :
    ValidBmp (freadHeader (fun _ => 0) overFile) 65536 32769 3
      ∧ 3 * 65536 < 2147483648
      ∧ overFile.length = 54 + 65536 * 32769 * 3
      ∧ 2147483648 < 65536 * 32769
      ∧ (∀ s ∈ (Gl2DrawRgba.setupGraphicsRGBA 1 (.opened overFile) (fun _ => 0)
            (fun _ => 0)).stores, s.1 ≠ 2147483648)
      ∧ ∃ v, ((-2147483648 : Int), v)
          ∈ (Gl2DrawRgba.setupGraphicsRGBA 1 (.opened overFile) (fun _ => 0)
              (fun _ => 0)).stores := by
  have hmagic : badMagic (freadHeader (fun _ => 0) overFile) = false := by
    rw [overFile_header]; decide
  have hinfo : parseHeader (freadHeader (fun _ => 0) overFile)
      = { mS := -2147286986, mW := 65536, mH := 32769, mP := 24, mF := 3 } := by
    rw [overFile_header]; decide
  have hW : (parseHeader (freadHeader (fun _ => 0) overFile)).mW = 65536 := by rw [hinfo]
  have hH : (parseHeader (freadHeader (fun _ => 0) overFile)).mH = 32769 := by rw [hinfo]
  have hF : (parseHeader (freadHeader (fun _ => 0) overFile)).mF = 3 := by rw [hinfo]
  have hP : (parseHeader (freadHeader (fun _ => 0) overFile)).mP = 24 := by rw [hinfo]
  have hst : (Gl2DrawRgba.setupGraphicsRGBA 1 (.opened overFile) (fun _ => 0)
        (fun _ => 0)).stores
      = decodeLoop overFile 65536 32769 3 (List.range 32769)
          { pos := min BMP_HEADER_SIZE overFile.length, tmpb := fun _ => 0 } := by
    rw [setupGraphicsRGBA_of_opened 1 overFile (fun _ => 0) (fun _ => 0) (by decide) hmagic,
      decodeAndUpload_stores]
    unfold decodeStores
    rw [hW, hH, hF]
    rfl
  refine ⟨⟨hmagic, Or.inl ⟨hP, rfl⟩, hW, hH⟩, by decide, ?_, by decide, ?_, ?_⟩
  · simp only [overFile, List.length_append, List.length_replicate]
    rfl
  · intro s hs
    rw [hst] at hs
    have := decodeLoop_index_lt _ _ _ _ _ _ s hs
    omega
  · rw [hst]
    have e : iadd (imul ((32768 : Nat) : Int) 65536) ((0 : Nat) : Int) = -2147483648 := by
      decide
    rw [← e]
    exact decodeLoop_mem overFile 65536 32769 3 32768 0 (by decide) _ _
      (List.mem_range.mpr (by decide))

/-! ## Termination of the swap loop -/

theorem wrapInt_add_wrapInt (a b : Int) : wrapInt (wrapInt a + b) = wrapInt (a + b) := by
  unfold wrapInt
  omega

theorem wrapInt_lt (x : Int) : wrapInt x < 2147483648 := by
  unfold wrapInt
  omega

/-- The swap loop ends as soon as its counter, stepping by 3 with wrap-around,
reaches a value that is not below `imageSize`. -/
theorem swapLoop_isSome (imageSize : Int) :
    ∀ (fuel : Nat) (i : Int) (t8my : Int → UInt8) (k : Nat), k < fuel →
      ¬ (wrapInt (i + 3 * (k : Int)) < imageSize) → wrapInt i = i →
      (swapLoop imageSize fuel i t8my).isSome = true := by
  intro fuel
  induction fuel with
  | zero => intro i t8my k hk; omega
  | succ fuel ih =>
    intro i t8my k hk hstop hi
    unfold swapLoop
    by_cases hlt : i < imageSize
    · rw [if_pos hlt]
      have hk0 : k ≠ 0 := by
        intro h0
        subst h0
        simp only [Nat.cast_zero, Int.mul_zero, Int.add_zero, hi] at hstop
        exact hstop hlt
      obtain ⟨j, rfl⟩ : ∃ j, k = j + 1 := ⟨k - 1, by omega⟩
      apply ih (iadd i 3) _ j (by omega)
      · unfold iadd
        rw [wrapInt_add_wrapInt]
        have e : i + 3 + 3 * (j : Int) = i + 3 * ((j + 1 : Nat) : Int) := by
          push_cast; ring
        rw [e]
        exact hstop
      · unfold iadd
        unfold wrapInt
        omega
    · rw [if_neg hlt]
      rfl

theorem swapLoop_terminates (imageSize : Int) (h : imageSize < 2147483648)
    (t8my : Int → UInt8) : (swapLoop imageSize swapFuel 0 t8my).isSome = true := by
  apply swapLoop_isSome imageSize swapFuel 0 t8my 3579139413 (by decide)
  · have e : wrapInt (0 + 3 * ((3579139413 : Nat) : Int)) = 2147483647 := by decide
    rw [e]
    omega
  · decide

theorem imageSize_lt (b : BmpInfo) : imageSize b < 2147483648 := by
  unfold imageSize imul
  exact wrapInt_lt _

/-! ## The 2x2 bitmap end to end -/

theorem readInt_congr (h1 h2 : Nat → UInt8) (k : Nat)
    (e0 : h1 k = h2 k) (e1 : h1 (k + 1) = h2 (k + 1)) (e2 : h1 (k + 2) = h2 (k + 2))
    (e3 : h1 (k + 3) = h2 (k + 3)) : readInt h1 k = readInt h2 k := by
  unfold readInt byteAt
  rw [e0, e1, e2, e3]

/-- The decoders look at the first 54 elements of the header array only. -/
theorem parseHeader_congr (h1 h2 : Nat → UInt8) (e : ∀ i, i < 54 → h1 i = h2 i) :
    parseHeader h1 = parseHeader h2 ∧ badMagic h1 = badMagic h2 := by
  constructor
  · unfold parseHeader byteAt
    rw [readInt_congr h1 h2 2 (e _ (by decide)) (e _ (by decide)) (e _ (by decide))
        (e _ (by decide)),
      readInt_congr h1 h2 18 (e _ (by decide)) (e _ (by decide)) (e _ (by decide))
        (e _ (by decide)),
      readInt_congr h1 h2 22 (e _ (by decide)) (e _ (by decide)) (e _ (by decide))
        (e _ (by decide)),
      e 28 (by decide)]
  · unfold badMagic
    rw [e 0 (by decide), e 1 (by decide)]

/-- A file of at least 54 bytes overwrites the whole header array. -/
theorem freadHeader_full (s1 s2 : Nat → UInt8) (file : List UInt8) (h : 54 ≤ file.length) :
    ∀ i, i < 54 → freadHeader s1 file i = freadHeader s2 file i := by
  intro i hi
  have hi2 : i < BMP_HEADER_SIZE := hi
  have hl : i < file.length := by omega
  unfold freadHeader
  rw [if_pos hi2, if_pos hi2, List.getElem?_eq_getElem hl]
  rfl

theorem bmp2x2_header (stale : Nat → UInt8) :
    parseHeader (freadHeader stale bmp2x2) = { mS := 70, mW := 2, mH := 2, mP := 32, mF := 4 }
      ∧ badMagic (freadHeader stale bmp2x2) = false := by
  have e := parseHeader_congr _ _
    (freadHeader_full stale (fun _ => 0) bmp2x2 (by decide))
  rw [e.1, e.2]
  exact ⟨by decide, by decide⟩

/-- C3: on the 70-byte, 32-bit, 2x2 bitmap whose stored rows are `[red, blue]`
and `[green, yellow]` (pixels as bytes B, G, R, A), `setupGraphicsRGBA`, once
`createProgram` has succeeded and whatever its arrays held before, returns
true, allocates 16 bytes, uploads 2 x 2, and leaves a 4-texel buffer whose
texels, read as bytes R, G, B, A in little-endian memory order, are green
(0,255,0,255), yellow (255,255,0,255), red (255,0,0,255), blue (0,0,255,255). -/
theorem decode_2x2 (handle : Nat) (staleHeader : Nat → UInt8) (staleRow : Int → UInt8)
    (staleBuf : Int → Nat) :
    Gl2DrawRgba.setupGraphicsRGBA (handle + 1) (.opened bmp2x2) staleHeader staleRow
        = { ret := true, alloc := some 16,
            stores := [(0, 0xff00ff00), (1, 0xff00ffff), (2, 0xff0000ff), (3, 0xffff0000)],
            texImage := some (2, 2) }
      ∧ (List.range 4).map (fun i : Nat =>
            let t := bufferAfter staleBuf
              (Gl2DrawRgba.setupGraphicsRGBA (handle + 1) (.opened bmp2x2) staleHeader
                staleRow).stores (i : Int)
            (memByte t 0, memByte t 1, memByte t 2, memByte t 3))
          = [(0, 255, 0, 255), (255, 255, 0, 255), (255, 0, 0, 255), (0, 0, 255, 255)] := by
  obtain ⟨hinfo, hmagic⟩ := bmp2x2_header staleHeader
  have hres : Gl2DrawRgba.setupGraphicsRGBA (handle + 1) (.opened bmp2x2) staleHeader staleRow
      = { ret := true, alloc := some 16,
          stores := [(0, 0xff00ff00), (1, 0xff00ffff), (2, 0xff0000ff), (3, 0xffff0000)],
          texImage := some (2, 2) } := by
    rw [setupGraphicsRGBA_of_opened (handle + 1) bmp2x2 staleHeader staleRow
      (Nat.succ_ne_zero handle) hmagic]
    have hst : decodeStores bmp2x2 { mS := 70, mW := 2, mH := 2, mP := 32, mF := 4 } staleRow
        = [(0, 0xff00ff00), (1, 0xff00ffff), (2, 0xff0000ff), (3, 0xffff0000)] := by
      rw [decodeStores_eq bmp2x2 _ staleRow 2 2 4 rfl rfl rfl (by decide) (by decide)
        (by decide)]
      decide
    have hal : mallocBytes 2 2 = 16 := by decide
    simp only [decodeAndUpload, hinfo, hst, hal]
  refine ⟨hres, ?_⟩
  rw [hres]
  simp only [List.range, List.range.loop, List.map, bufferAfter]
  norm_num [memByte, Nat.shiftRight_eq_div_pow]

/-! ## Channel order -/

/-- C4 (amended): in the RGBA-expanding decoders the channel order is
reversed, not kept: every texel built by the inner loop has in buffer memory
order (little-endian) byte 0 equal to byte 2 of the source pixel, byte 1 equal
to byte 1, byte 2 equal to byte 0, and byte 3 equal to `0xff`; on a file with
a valid signature, `bpp = bits/8` in {3, 4}, all of its `54 + W*H*bpp` bytes
and that size within the `int` range, this holds between the texel at row `r`,
column `c` of the decoded buffer and the file pixel at offset
`54 + (H-1-r)*bpp*W + c*bpp`. -/
theorem channel_order (gTextureProgram : Nat) (imgOk : Bool) (file : List UInt8)
    (staleHeader : Nat → UInt8) (staleRow : Int → UInt8) (staleBuf : Int → Nat)
    (W H bpp : Nat)
    (hprog : gTextureProgram ≠ 0)
    (hmagic : badMagic (freadHeader staleHeader file) = false)
    (hW : (parseHeader (freadHeader staleHeader file)).mW = (W : Int))
    (hH : (parseHeader (freadHeader staleHeader file)).mH = (H : Int))
    (hF : (parseHeader (freadHeader staleHeader file)).mF = (bpp : Int))
    (hbpp : bpp = 3 ∨ bpp = 4)
    (hlen : 54 + W * H * bpp ≤ file.length)
    (hrange : 54 + W * H * bpp ≤ 2147483647)
    (r c : Nat) (hr : r < H) (hc : c < W) :
    (∀ (tmpb : Int → UInt8) (mF jj : Int),
        memByte (texel tmpb mF jj) 0 = (tmpb (iadd (imul jj mF) 2)).toNat
          ∧ memByte (texel tmpb mF jj) 1 = (tmpb (iadd (imul jj mF) 1)).toNat
          ∧ memByte (texel tmpb mF jj) 2 = (tmpb (iadd (imul jj mF) 0)).toNat
          ∧ memByte (texel tmpb mF jj) 3 = 0xff)
      ∧ ∀ stores : List (Int × Nat),
        (stores = (Gl2DrawRgba.setupGraphicsRGBA gTextureProgram (.opened file) staleHeader
            staleRow).stores
          ∨ stores = (GlShowbmp.setupYuvTexSurface imgOk (.opened file) staleHeader
            staleRow).stores) →
        memByte (bufferAfter staleBuf stores ((r * W + c : Nat) : Int)) 0
            = (file.getD (54 + (H - 1 - r) * bpp * W + c * bpp + 2) 0).toNat
          ∧ memByte (bufferAfter staleBuf stores ((r * W + c : Nat) : Int)) 1
            = (file.getD (54 + (H - 1 - r) * bpp * W + c * bpp + 1) 0).toNat
          ∧ memByte (bufferAfter staleBuf stores ((r * W + c : Nat) : Int)) 2
            = (file.getD (54 + (H - 1 - r) * bpp * W + c * bpp) 0).toNat
          ∧ memByte (bufferAfter staleBuf stores ((r * W + c : Nat) : Int)) 3 = 0xff := by
  constructor
  · intro tmpb mF jj
    unfold texel
    exact memByte_pack _ _ _
  · intro stores hs
    have hst : stores
        = decodeStores file (parseHeader (freadHeader staleHeader file)) staleRow := by
      rcases hs with h | h
      · rw [h, setupGraphicsRGBA_of_opened gTextureProgram file staleHeader staleRow hprog
          hmagic, decodeAndUpload_stores]
      · rw [h, glShowbmp_of_opened imgOk file staleHeader staleRow hmagic,
          decodeAndUpload_stores]
    have h3 : 3 ≤ bpp := by omega
    have hr2 : 54 + W * H * bpp < 2147483648 := by omega
    have key := bufferAfter_decodeStores file (parseHeader (freadHeader staleHeader file))
      staleRow staleBuf W H bpp hW hH hF h3 hlen hr2 r c hr hc
    rw [hst, key]
    unfold packAt
    exact memByte_pack _ _ _

theorem channel_order_witness :
    memByte (bufferAfter (fun _ => 0)
        (Gl2DrawRgba.setupGraphicsRGBA 1 (.opened bmp2x2) (fun _ => 0) (fun _ => 0)).stores
        ((1 * 2 + 0 : Nat) : Int)) 0
      = (bmp2x2.getD (54 + (2 - 1 - 1) * 4 * 2 + 0 * 4 + 2) 0).toNat :=
  ((channel_order 1 true bmp2x2 (fun _ => 0) (fun _ => 0) (fun _ => 0) 2 2 4 (by decide)
    (by decide) (by decide) (by decide) (by decide) (by decide) (by decide) (by decide)
    1 0 (by decide) (by decide)).2 _ (Or.inl rfl)).1

/-- C4, as stated, fails: the texel decoded from the red pixel at offset 54 of
the 2x2 bitmap (file bytes 0, 0, 255) has memory byte 0 equal to 255, not to
the source pixel's byte 0. -/
theorem channel_order_not_verbatim :
    memByte (bufferAfter (fun _ => 0)
        (Gl2DrawRgba.setupGraphicsRGBA 1 (.opened bmp2x2) (fun _ => 0) (fun _ => 0)).stores
        ((1 * 2 + 0 : Nat) : Int)) 0
      ≠ (bmp2x2.getD (54 + (2 - 1 - 1) * 4 * 2 + 0 * 4 + 0) 0).toNat := by
  decide

/-! ## Return values and rejected inputs -/

theorem loadAndUpload_ok (gProgram : Nat) (file : List UInt8) (b : BmpInfo)
    (staleBuf : Int → UInt8) (hn : nullWrite file b = false) :
    loadAndUpload gProgram file b staleBuf = swapAndUpload gProgram file b staleBuf := by
  unfold loadAndUpload
  rw [if_neg (by rw [hn]; decide)]

theorem nullWrite_of_nonneg (file : List UInt8) (b : BmpInfo) (h : 0 ≤ imageSize b) :
    nullWrite file b = false := by
  unfold nullWrite
  rw [decide_eq_false (by omega)]
  rfl

theorem loadAndUpload_ret (gProgram : Nat) (file : List UInt8) (b : BmpInfo)
    (staleBuf : Int → UInt8) (hn : nullWrite file b = false) :
    (loadAndUpload gProgram file b staleBuf).map (fun r => r.ret) = some (gProgram != 0) := by
  have ht := swapLoop_terminates (imageSize b) (imageSize_lt b) (rawPixels file b staleBuf)
  obtain ⟨t, ht⟩ := Option.isSome_iff_exists.mp ht
  rw [loadAndUpload_ok gProgram file b staleBuf hn]
  unfold swapAndUpload
  rw [ht]
  by_cases h4 : gProgram = 0
  · subst h4; rfl
  · show Option.map (fun r : RGBResult => r.ret) (if gProgram = 0 then _ else _) = _
    rw [if_neg h4]
    have : (gProgram != 0) = true := by simpa using h4
    rw [this]
    rfl

/-- The strict decoder returns `false`, before any allocation, when one of
its three tests fails. -/
theorem setupYuvTexSurface_rejected (gProgram : Nat) (file : List UInt8)
    (staleHeader : Nat → UInt8) (staleBuf : Int → UInt8)
    (h : badMagic (freadHeader staleHeader file) = true
      ∨ badDepth (parseHeader (freadHeader staleHeader file)).mF = true
      ∨ badSize (parseHeader (freadHeader staleHeader file)) = true) :
    Gl2DrawRgb.setupYuvTexSurface gProgram (.opened file) staleHeader staleBuf
      = some { ret := false, alloc := none, t8my := none, texImage := none } := by
  show (if badMagic (freadHeader staleHeader file) = true then _
    else if badDepth (parseHeader (freadHeader staleHeader file)).mF = true then _
    else if badSize (parseHeader (freadHeader staleHeader file)) = true then _
    else loadAndUpload gProgram file (parseHeader (freadHeader staleHeader file)) staleBuf) = _
  by_cases h1 : badMagic (freadHeader staleHeader file) = true
  · rw [if_pos h1]
  · rw [if_neg h1]
    by_cases h2 : badDepth (parseHeader (freadHeader staleHeader file)).mF = true
    · rw [if_pos h2]
    · rw [if_neg h2]
      by_cases h3 : badSize (parseHeader (freadHeader staleHeader file)) = true
      · rw [if_pos h3]
      · rcases h with h | h | h
        · exact absurd h h1
        · exact absurd h h2
        · exact absurd h h3

theorem setupYuvTexSurface_accepted (gProgram : Nat) (file : List UInt8)
    (staleHeader : Nat → UInt8) (staleBuf : Int → UInt8)
    (h1 : badMagic (freadHeader staleHeader file) = false)
    (h2 : badDepth (parseHeader (freadHeader staleHeader file)).mF = false)
    (h3 : badSize (parseHeader (freadHeader staleHeader file)) = false) :
    Gl2DrawRgb.setupYuvTexSurface gProgram (.opened file) staleHeader staleBuf
      = loadAndUpload gProgram file (parseHeader (freadHeader staleHeader file)) staleBuf := by
  show (if badMagic (freadHeader staleHeader file) = true then _
    else if badDepth (parseHeader (freadHeader staleHeader file)).mF = true then _
    else if badSize (parseHeader (freadHeader staleHeader file)) = true then _
    else loadAndUpload gProgram file (parseHeader (freadHeader staleHeader file)) staleBuf) = _
  rw [if_neg (by rw [h1]; decide), if_neg (by rw [h2]; decide), if_neg (by rw [h3]; decide)]

/-- The value returned by the strict decoder on an opened file, when the read
does not store through a null pointer: true exactly when the header array
passes the signature, depth and size tests and `createProgram` has
succeeded. -/
theorem setupYuvTexSurface_ret (gProgram : Nat) (file : List UInt8)
    (staleHeader : Nat → UInt8) (staleBuf : Int → UInt8)
    (hn : nullWrite file (parseHeader (freadHeader staleHeader file)) = false) :
    (Gl2DrawRgb.setupYuvTexSurface gProgram (.opened file) staleHeader staleBuf).map
        (fun r => r.ret)
      = some (!(badMagic (freadHeader staleHeader file))
          && !(badDepth (parseHeader (freadHeader staleHeader file)).mF)
          && !(badSize (parseHeader (freadHeader staleHeader file)))
          && (gProgram != 0)) := by
  show Option.map (fun r => r.ret) (if badMagic (freadHeader staleHeader file) = true then _
    else if badDepth (parseHeader (freadHeader staleHeader file)).mF = true then _
    else if badSize (parseHeader (freadHeader staleHeader file)) = true then _
    else loadAndUpload gProgram file (parseHeader (freadHeader staleHeader file)) staleBuf) = _
  by_cases h1 : badMagic (freadHeader staleHeader file) = true
  · rw [if_pos h1, h1]; rfl
  · rw [if_neg h1, Bool.eq_false_iff.mpr h1]
    by_cases h2 : badDepth (parseHeader (freadHeader staleHeader file)).mF = true
    · rw [if_pos h2, h2]; rfl
    · rw [if_neg h2, Bool.eq_false_iff.mpr h2]
      by_cases h3 : badSize (parseHeader (freadHeader staleHeader file)) = true
      · rw [if_pos h3, h3]; rfl
      · rw [if_neg h3, Bool.eq_false_iff.mpr h3, loadAndUpload_ret _ _ _ _ hn]
        rfl

/-- C6 (code as it is): on a file that starts `0x41 0x4d`, `setupGraphicsRGBA`
(after a successful `createProgram`) and the `setupYuvTexSurface` of
`gl_showbmp.cpp` decode nothing but return true, because `return -1;`
converts to `true` in a function declared `bool`; only the strict
`setupYuvTexSurface` of `gl2_drawrgb.cpp` returns false. -/
theorem bad_signature_returns_true :
    badMagic (freadHeader (fun _ => 0) badSigFile) = true
      ∧ Gl2DrawRgba.setupGraphicsRGBA 1 (.opened badSigFile) (fun _ => 0) (fun _ => 0)
        = { ret := true, alloc := none, stores := [], texImage := none }
      ∧ GlShowbmp.setupYuvTexSurface true (.opened badSigFile) (fun _ => 0) (fun _ => 0)
        = { ret := true, alloc := none, stores := [], texImage := none }
      ∧ (Gl2DrawRgb.setupYuvTexSurface 1 (.opened badSigFile) (fun _ => 0) (fun _ => 0)).map
          (fun r => r.ret) = some false := by
  decide

/-- C7 (code as it is): when `fopen` fails with `errno = 2`, `setupGraphicsRGBA`
(after a successful `createProgram`) and the `setupYuvTexSurface` of
`gl_showbmp.cpp` return true, because `return -errno;` converts the non-zero
`-2` to `true`; only the strict `setupYuvTexSurface` of `gl2_drawrgb.cpp`
returns false. -/
theorem fopen_failure_returns_true :
    Gl2DrawRgba.setupGraphicsRGBA 1 (.failed 2) (fun _ => 0) (fun _ => 0)
        = { ret := true, alloc := none, stores := [], texImage := none }
      ∧ GlShowbmp.setupYuvTexSurface true (.failed 2) (fun _ => 0) (fun _ => 0)
        = { ret := true, alloc := none, stores := [], texImage := none }
      ∧ (Gl2DrawRgb.setupYuvTexSurface 1 (.failed 2) (fun _ => 0) (fun _ => 0)).map
          (fun r => r.ret) = some false := by
  decide

/-- C9 (code as it is): on a 16-bit bitmap of width 1 and height 1 both
RGBA-expanding decoders return true and store a texel, no depth test being
made; the third byte of the texel comes from beyond the 2-byte row. -/
theorem unsupported_depth_is_decoded :
    (parseHeader (freadHeader (fun _ => 0) bmp16)).mP = 16
      ∧ Gl2DrawRgba.setupGraphicsRGBA 1 (.opened bmp16) (fun _ => 0) (fun _ => 0)
        = { ret := true, alloc := some 4, stores := [(0, pack 0x12 0x34 0)],
            texImage := some (1, 1) }
      ∧ GlShowbmp.setupYuvTexSurface true (.opened bmp16) (fun _ => 0) (fun _ => 0)
        = { ret := true, alloc := some 4, stores := [(0, pack 0x12 0x34 0)],
            texImage := some (1, 1) } := by
  decide

theorem badDepth_iff (header : Nat → UInt8) :
    badDepth (parseHeader header).mF = false
      ↔ 24 ≤ (header 28).toNat ∧ (header 28).toNat ≤ 39 := by
  have hb := UInt8.toNat_lt (header 28)
  have e : (parseHeader header).mF = (((header 28).toNat / 8 : Nat) : Int) := by
    show Int.tdiv ((header 28).toNat : Int) 8 = _
    rw [Int.tdiv_eq_ediv (Int.ofNat_nonneg _) (by decide)]
    rfl
  rw [e]
  unfold badDepth
  simp only [Bool.and_eq_false_iff, bne_eq_false_iff_eq]
  omega

/-- What the depth test of the strict decoder does: it is made on
`mF = bits / 8`, so for every value `b` of the bits-per-pixel byte it passes
if and only if `24 <= b <= 39` (that is `b / 8` is 3 or 4), and for every
other `b` the function returns false. -/
theorem depth_check (gProgram : Nat) (file : List UInt8)
    (staleHeader : Nat → UInt8) (staleBuf : Int → UInt8) :
    (∀ header : Nat → UInt8, badDepth (parseHeader header).mF = false
        ↔ 24 ≤ (header 28).toNat ∧ (header 28).toNat ≤ 39)
      ∧ (¬ (24 ≤ (freadHeader staleHeader file 28).toNat
            ∧ (freadHeader staleHeader file 28).toNat ≤ 39) →
          (Gl2DrawRgb.setupYuvTexSurface gProgram (.opened file) staleHeader staleBuf).map
            (fun r => r.ret) = some false) := by
  refine ⟨badDepth_iff, fun hb => ?_⟩
  have hd : badDepth (parseHeader (freadHeader staleHeader file)).mF = true := by
    cases h : badDepth (parseHeader (freadHeader staleHeader file)).mF
    · exact absurd ((badDepth_iff _).mp h) hb
    · rfl
  rw [setupYuvTexSurface_rejected gProgram file staleHeader staleBuf (Or.inr (Or.inl hd))]
  rfl

theorem depth_check_witness :
    (Gl2DrawRgb.setupYuvTexSurface 1 (.opened bmp16) (fun _ => 0) (fun _ => 0)).map
        (fun r => r.ret) = some false :=
  (depth_check 1 bmp16 (fun _ => 0) (fun _ => 0)).2 (by decide)

/-- C10: on `bmp25`, whose bits-per-pixel byte is 25, the depth test of the
strict decoder passes, because it is made on the truncated quotient
`25 / 8 = 3`, and the decoder returns true; a depth check that passes for 24
and 32 only returns false here. -/
theorem depth_25_accepted :
    (freadHeader (fun _ => 0) bmp25 28).toNat = 25
      ∧ badDepth (parseHeader (freadHeader (fun _ => 0) bmp25)).mF = false
      ∧ (Gl2DrawRgb.setupYuvTexSurface 1 (.opened bmp25) (fun _ => 0) (fun _ => 0)).map
          (fun r => r.ret) = some true := by
  decide

/-! ## Strict and non-strict size validation -/

theorem imageSize_natCast (b : BmpInfo) (W H bpp : Nat) (hW : b.mW = (W : Int))
    (hH : b.mH = (H : Int)) (hF : b.mF = (bpp : Int)) (h1 : W * H < 2147483648)
    (h2 : W * H * bpp < 2147483648) : imageSize b = ((W * H * bpp : Nat) : Int) := by
  unfold imageSize
  rw [hW, hH, hF, imul_natCast h1, imul_natCast h2]

theorem mS_eq_iff (header : Nat → UInt8) (n : Nat) (hn : n < 2147483648) :
    (parseHeader header).mS = (n : Int) ↔ declaredSize header = n := by
  have h0 := UInt8.toNat_lt (header 2)
  have h1 := UInt8.toNat_lt (header 3)
  have h2 := UInt8.toNat_lt (header 4)
  have h3 := UInt8.toNat_lt (header 5)
  have e : (parseHeader header).mS = readInt header 2 := rfl
  rw [e, readInt_eq]
  unfold signedLE32 declaredSize
  norm_num at h0 h1 h2 h3 ⊢
  split <;> omega

theorem badSize_iff (header : Nat → UInt8) (W H bpp : Nat)
    (hW : (parseHeader header).mW = (W : Int)) (hH : (parseHeader header).mH = (H : Int))
    (hF : (parseHeader header).mF = (bpp : Int)) (h3 : 3 ≤ bpp)
    (hrange : 54 + W * H * bpp < 2147483648) :
    badSize (parseHeader header) = false ↔ declaredSize header = 54 + W * H * bpp := by
  have hwh : W * H ≤ W * H * bpp := Nat.le_mul_of_pos_right _ (by omega)
  have b1 : W * H < 2147483648 := by omega
  have b2 : W * H * bpp < 2147483648 := by omega
  have b3 : W * H * bpp + 54 < 2147483648 := by omega
  have e54 : ((BMP_HEADER_SIZE : Nat) : Int) = ((54 : Nat) : Int) := rfl
  unfold badSize
  rw [imageSize_natCast _ W H bpp hW hH hF b1 b2, e54, iadd_natCast b3,
    bne_eq_false_iff_eq, mS_eq_iff header _ b3, Nat.add_comm]

theorem decodeAndUpload_eq (file : List UInt8) (header : Nat → UInt8)
    (staleRow : Int → UInt8) (ret : Bool) :
    decodeAndUpload file header staleRow ret
      = { ret := ret,
          alloc := some (mallocBytes (parseHeader header).mW (parseHeader header).mH),
          stores := decodeLoop file (parseHeader header).mW (parseHeader header).mH
            (parseHeader header).mF (List.range (parseHeader header).mH.toNat)
            { pos := min BMP_HEADER_SIZE file.length, tmpb := staleRow },
          texImage := some ((parseHeader header).mW, (parseHeader header).mH) } := by
  simp only [decodeAndUpload, decodeStores]

/-- C11 (counterexample): the header-only file `wrapFile` declares a size of
54 while `54 + 65536*65536*3` is 12884901942, and the strict decoder returns
`true` on it: `mW * mH` wraps to 0 in `int` arithmetic. -/
theorem size_check_wraps :
    badMagic (freadHeader (fun _ => 0) wrapFile) = false
      ∧ parseHeader (freadHeader (fun _ => 0) wrapFile)
          = { mS := 54, mW := 65536, mH := 65536, mP := 24, mF := 3 }
      ∧ declaredSize (freadHeader (fun _ => 0) wrapFile) ≠ 54 + 65536 * 65536 * 3
      ∧ (Gl2DrawRgb.setupYuvTexSurface 1 (.opened wrapFile) (fun _ => 0) (fun _ => 0)).map
          (fun r => r.ret) = some true := by
  decide

/-- C11 (amended): for every header with a valid signature, `bpp` = 3 or 4
bytes per pixel, width `W` and height `H` with `54 + W*H*bpp` inside the `int`
range, the strict decoder returns `false` whenever the declared size of bytes
2..5 differs from `54 + W*H*bpp` (and returns whether `createProgram`
succeeded when it is equal), while `setupGraphicsRGBA` returns `true`,
allocates `4*W*H` bytes, uploads `W x H` and makes the stores of the decode
loops over `W`, `H`, `bpp` and the file: a result in which the declared size
does not occur. -/
theorem strict_size_check (gProgram : Nat) (file : List UInt8) (staleHeader : Nat → UInt8)
    (staleBuf staleRow : Int → UInt8) (W H bpp : Nat)
    (hmagic : badMagic (freadHeader staleHeader file) = false)
    (hW : (parseHeader (freadHeader staleHeader file)).mW = (W : Int))
    (hH : (parseHeader (freadHeader staleHeader file)).mH = (H : Int))
    (hF : (parseHeader (freadHeader staleHeader file)).mF = (bpp : Int))
    (hbpp : bpp = 3 ∨ bpp = 4)
    (hrange : 54 + W * H * bpp < 2147483648) :
    (declaredSize (freadHeader staleHeader file) ≠ 54 + W * H * bpp →
        (Gl2DrawRgb.setupYuvTexSurface gProgram (.opened file) staleHeader staleBuf).map
          (fun r => r.ret) = some false)
      ∧ (declaredSize (freadHeader staleHeader file) = 54 + W * H * bpp →
        (Gl2DrawRgb.setupYuvTexSurface gProgram (.opened file) staleHeader staleBuf).map
          (fun r => r.ret) = some (gProgram != 0))
      ∧ (gProgram ≠ 0 →
        Gl2DrawRgba.setupGraphicsRGBA gProgram (.opened file) staleHeader staleRow
          = { ret := true,
              alloc := some (mallocBytes (W : Int) (H : Int)),
              stores := decodeLoop file (W : Int) (H : Int) (bpp : Int) (List.range H)
                { pos := min BMP_HEADER_SIZE file.length, tmpb := staleRow },
              texImage := some ((W : Int), (H : Int)) }) := by
  have h3 : 3 ≤ bpp := by omega
  have hd : badDepth (parseHeader (freadHeader staleHeader file)).mF = false := by
    rw [hF]
    rcases hbpp with e | e <;> subst e <;> decide
  have hs := badSize_iff (freadHeader staleHeader file) W H bpp hW hH hF h3 hrange
  have hwh : W * H ≤ W * H * bpp := Nat.le_mul_of_pos_right _ (by omega)
  have hb1 : W * H < 2147483648 := by omega
  have hb2 : W * H * bpp < 2147483648 := by omega
  have hn : nullWrite file (parseHeader (freadHeader staleHeader file)) = false :=
    nullWrite_of_nonneg file _
      (by rw [imageSize_natCast _ W H bpp hW hH hF hb1 hb2]; exact Int.ofNat_nonneg _)
  have hret := setupYuvTexSurface_ret gProgram file staleHeader staleBuf hn
  rw [hmagic, hd] at hret
  refine ⟨fun hne => ?_, fun heq => ?_, fun hprog => ?_⟩
  · have : badSize (parseHeader (freadHeader staleHeader file)) = true := by
      cases hb : badSize (parseHeader (freadHeader staleHeader file))
      · exact absurd (hs.mp hb) hne
      · rfl
    rw [hret, this]
    rfl
  · rw [hret, hs.mpr heq]
    rfl
  · rw [setupGraphicsRGBA_of_opened gProgram file staleHeader staleRow hprog hmagic,
      decodeAndUpload_eq, hW, hH, hF, Int.toNat_ofNat]

theorem strict_size_check_witness :
    (declaredSize (freadHeader (fun _ => 0) padFile) ≠ 54 + 2 * 2 * 4 →
        (Gl2DrawRgb.setupYuvTexSurface 1 (.opened padFile) (fun _ => 0) (fun _ => 0)).map
          (fun r => r.ret) = some false)
      ∧ (declaredSize (freadHeader (fun _ => 0) padFile) = 54 + 2 * 2 * 4 →
        (Gl2DrawRgb.setupYuvTexSurface 1 (.opened padFile) (fun _ => 0) (fun _ => 0)).map
          (fun r => r.ret) = some ((1 : Nat) != 0))
      ∧ ((1 : Nat) ≠ 0 →
        Gl2DrawRgba.setupGraphicsRGBA 1 (.opened padFile) (fun _ => 0) (fun _ => 0)
          = { ret := true,
              alloc := some (mallocBytes ((2 : Nat) : Int) ((2 : Nat) : Int)),
              stores := decodeLoop padFile ((2 : Nat) : Int) ((2 : Nat) : Int) ((4 : Nat) : Int)
                (List.range 2)
                { pos := min BMP_HEADER_SIZE padFile.length, tmpb := fun _ => 0 },
              texImage := some (((2 : Nat) : Int), ((2 : Nat) : Int)) }) :=
  strict_size_check 1 padFile (fun _ => 0) (fun _ => 0) (fun _ => 0) 2 2 4 (by decide)
    (by decide) (by decide) (by decide) (Or.inr rfl) (by decide)

/-! ## Dimensions that are not positive -/

/-- When the header passes the three tests of the strict decoder with a
negative `imageSize` and a byte follows the header, the read stores through a
null pointer and the call has no result. -/
theorem setupYuvTexSurface_nullWrite (gProgram : Nat) (file : List UInt8)
    (staleHeader : Nat → UInt8) (staleBuf : Int → UInt8)
    (h1 : badMagic (freadHeader staleHeader file) = false)
    (h2 : badDepth (parseHeader (freadHeader staleHeader file)).mF = false)
    (h3 : badSize (parseHeader (freadHeader staleHeader file)) = false)
    (hn : nullWrite file (parseHeader (freadHeader staleHeader file)) = true) :
    Gl2DrawRgb.setupYuvTexSurface gProgram (.opened file) staleHeader staleBuf = none := by
  rw [setupYuvTexSurface_accepted gProgram file staleHeader staleBuf h1 h2 h3]
  unfold loadAndUpload
  rw [if_pos hn]

/-- The header of `negDimFile` (width -1, height 1, declared size 51) passes
the three tests of the strict decoder with `imageSize = -3`; when nine bytes
follow it, the call has no result. -/
theorem negDimFile_nullWrite :
    imageSize (parseHeader (freadHeader (fun _ => 0) negDimFile)) = -3
      ∧ (Gl2DrawRgb.setupYuvTexSurface 1 (.opened (negDimFile ++ [1, 2, 3, 4, 5, 6, 7, 8, 9]))
            (fun _ => 0) (fun _ => 0)).isNone = true := by
  decide

/-- C13: on the accepted 32-bit file `bmp32row` (width 2, height 1, pixel
bytes `1 2 3 4 5 6 7 8`, buffer of 8 bytes handed out holding `170`), the swap
loop exchanges the bytes at offsets (0, 2), (3, 5) and (6, 8): the buffer ends
as `3 2 1 6 5 4 170 8` and the byte after the buffer holds 7, where an
exchange of the first and third byte of each 4-byte pixel gives
`3 2 1 4 7 6 5 8`. -/
theorem swap_steps_by_three :
    parseHeader (freadHeader (fun _ => 0) bmp32row)
        = { mS := 62, mW := 2, mH := 1, mP := 32, mF := 4 }
      ∧ (Gl2DrawRgb.setupYuvTexSurface 1 (.opened bmp32row) (fun _ => 0) (fun _ => 170)).map
          (fun r => (r.ret, r.alloc,
            r.t8my.map (fun t => (List.range 9).map (fun (k : Nat) => t (k : Int)))))
        = some (true, some 8, some [3, 2, 1, 6, 5, 4, 170, 8, 7]) := by
  decide

/-! ## Bytes read by the upload -/

theorem texImageBytes_pos (components align W H : Nat) (hW : 0 < W) (hH : 0 < H) :
    texImageBytes components align ((W : Int), (H : Int))
      = (H - 1) * roundUp (components * W) align + components * W := by
  have h : ¬ (((W : Int) ≤ 0) ∨ ((H : Int) ≤ 0)) := by omega
  unfold texImageBytes
  rw [if_neg h, Int.toNat_ofNat, Int.toNat_ofNat]

theorem roundUp_four (n : Nat) : n ≤ roundUp n 4 ∧ (roundUp n 4 = n ↔ n % 4 = 0) := by
  unfold roundUp
  omega

theorem rgba_upload_bytes (W H : Nat) (hW : 0 < W) (hH : 0 < H) :
    texImageBytes 4 initialUnpackAlignment ((W : Int), (H : Int)) = 4 * W * H := by
  rw [texImageBytes_pos 4 _ W H hW hH]
  have e : roundUp (4 * W) initialUnpackAlignment = 4 * W := by
    unfold roundUp initialUnpackAlignment
    omega
  rw [e]
  obtain ⟨d, rfl⟩ : ∃ d, H = d + 1 := ⟨H - 1, by omega⟩
  rw [Nat.add_sub_cancel, Nat.mul_succ, Nat.mul_comm d (4 * W)]

theorem rgb_upload_bytes (W H : Nat) (hW : 0 < W) (hH : 0 < H) :
    W * H * 3 ≤ texImageBytes 3 4 ((W : Int), (H : Int))
      ∧ (texImageBytes 3 4 ((W : Int), (H : Int)) = W * H * 3 ↔ H = 1 ∨ W % 4 = 0) := by
  rw [texImageBytes_pos 3 4 W H hW hH]
  obtain ⟨d, rfl⟩ : ∃ d, H = d + 1 := ⟨H - 1, by omega⟩
  have hr := roundUp_four (3 * W)
  have e : W * (d + 1) * 3 = d * (3 * W) + 3 * W := by ring
  rw [Nat.add_sub_cancel, e]
  have hle : d * (3 * W) ≤ d * roundUp (3 * W) 4 := Nat.mul_le_mul_left d hr.1
  constructor
  · omega
  · constructor
    · intro h
      have h2 : d * roundUp (3 * W) 4 = d * (3 * W) := by omega
      by_cases hd : d = 0
      · left; omega
      · right
        have := Nat.eq_of_mul_eq_mul_left (Nat.pos_of_ne_zero hd) h2
        have := hr.2.mp this
        omega
    · intro h
      rcases h with h | h
      · have : d = 0 := by omega
        subst this
        simp
      · have : roundUp (3 * W) 4 = 3 * W := hr.2.mpr (by omega)
        rw [this]

theorem loadAndUpload_eq (gProgram : Nat) (file : List UInt8) (b : BmpInfo)
    (staleBuf : Int → UInt8) (hprog : gProgram ≠ 0) (hn : nullWrite file b = false) :
    ∃ t, loadAndUpload gProgram file b staleBuf
      = some { ret := true, alloc := some (toSizeT (imageSize b)), t8my := some t,
               texImage := some (b.mW, b.mH) } := by
  have ht := swapLoop_terminates (imageSize b) (imageSize_lt b) (rawPixels file b staleBuf)
  obtain ⟨t, ht⟩ := Option.isSome_iff_exists.mp ht
  refine ⟨t, ?_⟩
  rw [loadAndUpload_ok gProgram file b staleBuf hn]
  unfold swapAndUpload
  rw [ht]
  show (if gProgram = 0 then _ else _) = _
  rw [if_neg hprog]

/-- C14: on the accepted 24-bit file `bmp1x2` (width 1, height 2) the strict
decoder allocates a buffer of 6 bytes, and its `GL_RGB` upload, whose rows of
3 bytes are 4 bytes apart under the unpack alignment 4 that the function
sets, reads 7 bytes from it: one byte more than the buffer holds, where an
upload that transfers exactly the buffer reads 6. -/
theorem upload_reads_past_buffer :
    parseHeader (freadHeader (fun _ => 0) bmp1x2)
        = { mS := 60, mW := 1, mH := 2, mP := 24, mF := 3 }
      ∧ (Gl2DrawRgb.setupYuvTexSurface 1 (.opened bmp1x2) (fun _ => 0) (fun _ => 0)).map
          (fun r => (r.ret, r.alloc, Gl2DrawRgb.uploadBytes r)) = some (true, some 6, some 7) := by
  decide

/-- The bytes read by the uploads in general: for every input with a valid
signature, width `W > 0` and height `H > 0`, the upload of each
RGBA-expanding decoder reads `4*W*H` bytes, the size of the allocated buffer;
for an accepted 24-bit input (with `54 + W*H*3` inside the `int` range) the
strict decoder allocates `W*H*3` bytes and its `GL_RGB` upload under unpack
alignment 4 reads `(H-1)*stride + 3*W` bytes, `stride` being `3*W` rounded up
to 4, which is never less than the buffer and equals it exactly when `H = 1`
or `W` is a multiple of 4. -/
theorem upload_bytes (gProgram : Nat) (imgOk : Bool) (file : List UInt8)
    (staleHeader : Nat → UInt8) (staleRow staleBuf : Int → UInt8) (W H : Nat)
    (hprog : gProgram ≠ 0)
    (hmagic : badMagic (freadHeader staleHeader file) = false)
    (hW : (parseHeader (freadHeader staleHeader file)).mW = (W : Int))
    (hH : (parseHeader (freadHeader staleHeader file)).mH = (H : Int))
    (hWpos : 0 < W) (hHpos : 0 < H) :
    ((Gl2DrawRgba.setupGraphicsRGBA gProgram (.opened file) staleHeader staleRow).alloc
          = some (4 * W * H)
        ∧ uploadBytesRGBA
            (Gl2DrawRgba.setupGraphicsRGBA gProgram (.opened file) staleHeader staleRow)
          = some (4 * W * H))
      ∧ ((GlShowbmp.setupYuvTexSurface imgOk (.opened file) staleHeader staleRow).alloc
          = some (4 * W * H)
        ∧ uploadBytesRGBA
            (GlShowbmp.setupYuvTexSurface imgOk (.opened file) staleHeader staleRow)
          = some (4 * W * H))
      ∧ ((parseHeader (freadHeader staleHeader file)).mF = 3 →
          declaredSize (freadHeader staleHeader file) = 54 + W * H * 3 →
          54 + W * H * 3 < 2147483648 →
          (Gl2DrawRgb.setupYuvTexSurface gProgram (.opened file) staleHeader staleBuf).map
              (fun r => (r.ret, r.alloc, Gl2DrawRgb.uploadBytes r))
            = some (true, some (W * H * 3), some ((H - 1) * roundUp (3 * W) 4 + 3 * W))
          ∧ W * H * 3 ≤ (H - 1) * roundUp (3 * W) 4 + 3 * W
          ∧ ((H - 1) * roundUp (3 * W) 4 + 3 * W = W * H * 3 ↔ H = 1 ∨ W % 4 = 0)) := by
  have bW : W < 2147483648 := dim_lt _ 18 W hW
  have bH : H < 2147483648 := dim_lt _ 22 H hH
  have hm := mallocBytes_of_dims W H bW bH
  have hu := rgba_upload_bytes W H hWpos hHpos
  have key : ∀ ret : Bool,
      (decodeAndUpload file (freadHeader staleHeader file) staleRow ret).alloc
          = some (4 * W * H)
        ∧ uploadBytesRGBA (decodeAndUpload file (freadHeader staleHeader file) staleRow ret)
          = some (4 * W * H) := by
    intro ret
    rw [decodeAndUpload_eq, hW, hH]
    unfold uploadBytesRGBA
    show some (mallocBytes (W : Int) (H : Int)) = _
      ∧ some (texImageBytes 4 initialUnpackAlignment ((W : Int), (H : Int))) = _
    rw [hm, hu]
    exact ⟨rfl, rfl⟩
  refine ⟨?_, ?_, ?_⟩
  · rw [setupGraphicsRGBA_of_opened gProgram file staleHeader staleRow hprog hmagic]
    exact key true
  · rw [glShowbmp_of_opened imgOk file staleHeader staleRow hmagic]
    exact key imgOk
  · intro hF hsize hrange
    have hb := rgb_upload_bytes W H hWpos hHpos
    rw [texImageBytes_pos 3 4 W H hWpos hHpos] at hb
    refine ⟨?_, hb.1, hb.2⟩
    have hF3 : (parseHeader (freadHeader staleHeader file)).mF = ((3 : Nat) : Int) := hF
    have hd : badDepth (parseHeader (freadHeader staleHeader file)).mF = false := by
      rw [hF]; decide
    have hs : badSize (parseHeader (freadHeader staleHeader file)) = false :=
      (badSize_iff _ W H 3 hW hH hF3 (by decide) hrange).mpr hsize
    have hwh : W * H ≤ W * H * 3 := Nat.le_mul_of_pos_right _ (by decide)
    have b1 : W * H < 2147483648 := by omega
    have b2 : W * H * 3 < 2147483648 := by omega
    have hi := imageSize_natCast _ W H 3 hW hH hF3 b1 b2
    have hn : nullWrite file (parseHeader (freadHeader staleHeader file)) = false :=
      nullWrite_of_nonneg file _ (by rw [hi]; exact Int.ofNat_nonneg _)
    obtain ⟨t, ht⟩ := loadAndUpload_eq gProgram file
      (parseHeader (freadHeader staleHeader file)) staleBuf hprog hn
    rw [setupYuvTexSurface_accepted gProgram file staleHeader staleBuf hmagic hd hs, ht,
      hi, hW, hH, toSizeT_natCast b2]
    show some (true, some (W * H * 3), some (texImageBytes 3 4 ((W : Int), (H : Int)))) = _
    rw [texImageBytes_pos 3 4 W H hWpos hHpos]

theorem upload_bytes_witness :
    (Gl2DrawRgba.setupGraphicsRGBA 1 (.opened bmp2x2) (fun _ => 0) (fun _ => 0)).alloc
        = some (4 * 2 * 2)
      ∧ uploadBytesRGBA
          (Gl2DrawRgba.setupGraphicsRGBA 1 (.opened bmp2x2) (fun _ => 0) (fun _ => 0))
        = some (4 * 2 * 2) :=
  (upload_bytes 1 true bmp2x2 (fun _ => 0) (fun _ => 0) (fun _ => 0) 2 2 (by decide)
    (by decide) (by decide) (by decide) (by decide) (by decide)).1

/-! ## Shader objects after a compile failure -/

/-- C15: for a shader whose compile status is false and whose info log has
length 0, `loadShader` deletes nothing and returns the name of the shader:
here the shader named 1 is returned and still exists, where a failure with a
log of length 5 gives 0 and no shader. -/
theorem loadShader_keeps_failed_shader :
    loadShader { name := 1, compiled := false, infoLen := 0 } { shaders := [], programs := [] }
        = (1, { shaders := [1], programs := [] })
      ∧ loadShader { name := 1, compiled := false, infoLen := 5 }
          { shaders := [], programs := [] }
        = (0, { shaders := [], programs := [] }) := by
  decide

theorem filter_ne_cons (x : Nat) (l : List Nat) (h : x ∉ l) :
    (x :: l).filter (fun y => y != x) = l := by
  have e : (x != x) = false := by simp
  rw [List.filter_cons_of_neg (by rw [e]; decide)]
  apply List.filter_eq_self.mpr
  intro a ha
  have : a ≠ x := fun e => h (e ▸ ha)
  simpa using this

theorem loadShader_failed (o : ShaderOracle) (s : GlObjects) (h0 : o.name ≠ 0)
    (hfresh : o.name ∉ s.shaders) (hc : o.compiled = false) (hl : o.infoLen ≠ 0) :
    loadShader o s = (0, s) := by
  unfold loadShader glCreateShader glDeleteShader
  rw [if_pos h0, hc, if_pos (by decide), if_pos hl, if_neg h0]
  show (0, { shaders := List.filter (fun x => x != o.name) (o.name :: s.shaders),
             programs := s.programs }) = (0, s)
  rw [filter_ne_cons o.name s.shaders hfresh]

theorem loadShader_compiled (o : ShaderOracle) (s : GlObjects) (h0 : o.name ≠ 0)
    (hc : o.compiled = true) :
    loadShader o s = (o.name, { shaders := o.name :: s.shaders, programs := s.programs }) := by
  unfold loadShader glCreateShader
  rw [if_pos h0, hc, if_neg (by decide), if_neg h0]

/-- C16 (counterexample): the vertex shader named 1 compiles, the fragment
shader named 2 fails to compile with a log of length 5: `createProgram`
returns 0 and the vertex shader still exists. -/
theorem vertex_shader_left_behind :
    createProgram { name := 1, compiled := true, infoLen := 0 }
        { name := 2, compiled := false, infoLen := 5 }
        { name := 3, linked := true, bufLength := 0 } { shaders := [], programs := [] }
      = (0, { shaders := [1], programs := [] }) := by
  decide

/-- C16 (amended): over explicit sets of existing shader and program objects,
when `createProgram` returns 0 because `loadShader` returned 0 for a stage
that failed to compile (with a non-empty info log), the shader of the failed
stage has been deleted by `loadShader`; when the failed stage is the vertex
stage the objects are those that existed before the call, and when only the
fragment stage fails the compiled vertex shader exists in addition. -/
theorem createProgram_after_compile_failure (v f : ShaderOracle) (p : ProgramOracle)
    (s : GlObjects) (hv0 : v.name ≠ 0) (hf0 : f.name ≠ 0) (hv : v.name ∉ s.shaders)
    (hf : f.name ∉ s.shaders) (hvf : f.name ≠ v.name) :
    (v.compiled = false → v.infoLen ≠ 0 → createProgram v f p s = (0, s))
      ∧ (v.compiled = true → f.compiled = false → f.infoLen ≠ 0 →
          createProgram v f p s
            = (0, { shaders := v.name :: s.shaders, programs := s.programs })) := by
  constructor
  · intro hc hl
    unfold createProgram
    rw [loadShader_failed v s hv0 hv hc hl, if_pos rfl]
  · intro hc hfc hl
    have hfresh : f.name ∉ ({ shaders := v.name :: s.shaders, programs := s.programs }
        : GlObjects).shaders := by
      show f.name ∉ v.name :: s.shaders
      simp only [List.mem_cons, not_or]
      exact ⟨hvf, hf⟩
    unfold createProgram
    rw [loadShader_compiled v s hv0 hc, if_neg hv0,
      loadShader_failed f _ hf0 hfresh hfc hl, if_pos rfl]

theorem createProgram_after_compile_failure_witness :
    createProgram { name := 1, compiled := true, infoLen := 0 }
        { name := 2, compiled := false, infoLen := 5 }
        { name := 3, linked := true, bufLength := 0 } { shaders := [7], programs := [] }
      = (0, { shaders := (1 : Nat) :: [7], programs := [] }) :=
  (createProgram_after_compile_failure { name := 1, compiled := true, infoLen := 0 }
    { name := 2, compiled := false, infoLen := 5 }
    { name := 3, linked := true, bufLength := 0 } { shaders := [7], programs := [] }
    (by decide) (by decide) (by decide) (by decide) (by decide)).2 rfl rfl (by decide)

/-! ## State left by a frame -/

/-- C17: from a state with no active program and no enabled array, with
`GL_MAX_VERTEX_ATTRIBS = 8` and the attribute handles 0 and 1,
`renderFrameRGBA` issues one `glDrawArrays(GL_TRIANGLE_STRIP, 0, 4)` and ends
with no program active but with the arrays 0 and 1 still enabled;
`renderFrameRGB` ends with no program active and no array enabled. -/
theorem rgba_frame_leaves_arrays_enabled :
    execCalls 8 { program := 0, arrays := [], draws := [] } (renderFrameRGBA 1 3 0 1)
        = { program := 0, arrays := [1, 0], draws := [(GL_TRIANGLE_STRIP, 0, 4)] }
      ∧ execCalls 8 { program := 0, arrays := [], draws := [] } (renderFrameRGB 3 1)
        = { program := 0, arrays := [], draws := [(GL_TRIANGLE_STRIP, 0, 4)] } := by
  decide

/-! ## Mode selection -/

/-- C18 (counterexample): with the second argument `RGB` followed by one
further argument, `argc` is 4 and the selected mode is the RGBA path. -/
theorem mode_needs_three_arguments :
    selectMode ["glDrawBMP", "a.bmp", "RGB", "x"] = RGBA_MODE := by
  decide

/-- C18 (amended): for every argument vector, the selected mode is the RGB
path exactly when there are three arguments in all (program name, bitmap path
and one more) and the last one is the string `RGB`; in every other case,
among them any vector with further arguments, it is the RGBA path. -/
theorem mode_selection (argv : List String) :
    (selectMode argv = RGB_MODE ↔ argv.length = 3 ∧ argv.getD 2 "" = "RGB")
      ∧ (selectMode argv = RGBA_MODE ↔ ¬ (argv.length = 3 ∧ argv.getD 2 "" = "RGB")) := by
  have hne : RGBA_MODE ≠ RGB_MODE := by decide
  have hs : ("RGB" : String) ≠ "RGBA" := by decide
  unfold selectMode
  by_cases h3 : argv.length = 3
  · rw [if_pos h3]
    by_cases ha : argv.getD 2 "" = "RGBA"
    · rw [if_pos ha]
      have hb : ¬ (argv.getD 2 "" = "RGB") := fun e => hs (e.symm.trans ha)
      exact ⟨⟨fun e => absurd e hne, fun e => absurd e.2 hb⟩,
        ⟨fun _ e => hb e.2, fun _ => rfl⟩⟩
    · rw [if_neg ha]
      by_cases hb : argv.getD 2 "" = "RGB"
      · rw [if_pos hb]
        exact ⟨⟨fun _ => ⟨h3, hb⟩, fun _ => rfl⟩,
          ⟨fun e => absurd e.symm hne, fun e => absurd ⟨h3, hb⟩ e⟩⟩
      · rw [if_neg hb]
        exact ⟨⟨fun e => absurd e hne, fun e => absurd e.2 hb⟩,
          ⟨fun _ e => hb e.2, fun _ => rfl⟩⟩
  · rw [if_neg h3]
    exact ⟨⟨fun e => absurd e hne, fun e => absurd e.1 h3⟩,
      ⟨fun _ e => h3 e.1, fun _ => rfl⟩⟩

theorem mode_selection_witness : selectMode ["glDrawBMP", "a.bmp", "RGB"] = RGB_MODE :=
  (mode_selection ["glDrawBMP", "a.bmp", "RGB"]).1.mpr ⟨rfl, rfl⟩

/-! ## Exit codes -/

theorem eglInit_snd (env : Env) :
    (eglInit env).2
      = if (env.displayOk && env.initOk && env.configOk && env.surfaceOk && env.contextOk
          && env.makeCurrentOk) = true then none else some 0 := by
  rcases env with ⟨a, b, c, d, e, f, _, _, _⟩
  cases a <;> cases b <;> cases c <;> cases d <;> cases e <;> cases f <;> rfl

theorem eglInit_all (env : Env) :
    (eglInit env).1.all (fun e => !isFrameEvent e) = true := by
  rcases env with ⟨a, b, c, d, e, f, _, _, _⟩
  cases a <;> cases b <;> cases c <;> cases d <;> cases e <;> cases f <;> rfl

theorem eglInit_quiet (env : Env) : ∀ e ∈ (eglInit env).1, isFrameEvent e = false := by
  intro e he
  have h := List.all_eq_true.mp (eglInit_all env) e he
  simpa using h

theorem step_entry (env : Env) (argv : List String) (t : List Event) :
    step env argv { pc := .entry, trace := t }
      = if argv.length ≤ 1 then { pc := .exited (-1), trace := t }
        else
          match (eglInit env).2 with
          | some code => { pc := .exited code, trace := t ++ (eglInit env).1 }
          | none => { pc := .setup (selectMode argv), trace := t ++ (eglInit env).1 } :=
  rfl

theorem step_setup (env : Env) (argv : List String) (mode : Nat) (t : List Event) :
    step env argv { pc := .setup mode, trace := t }
      = if (setupCall env mode).2 = true then
          { pc := .frame mode, trace := t ++ [(setupCall env mode).1] }
        else { pc := .exited 1, trace := t ++ [(setupCall env mode).1] } :=
  rfl

theorem run_no_argument (env : Env) (argv : List String) (h : argv.length ≤ 1) :
    ∀ n, run env argv (n + 1) = { pc := .exited (-1), trace := [] } := by
  intro n
  induction n with
  | zero =>
    show step env argv { pc := .entry, trace := [] } = _
    rw [step_entry, if_pos h]
  | succ n ih => show step env argv (run env argv (n + 1)) = _; rw [ih]; rfl

theorem run_egl_failure (env : Env) (argv : List String) (h : ¬ argv.length ≤ 1) (code : Int)
    (hc : (eglInit env).2 = some code) :
    ∀ n, run env argv (n + 1) = { pc := .exited code, trace := (eglInit env).1 } := by
  intro n
  induction n with
  | zero =>
    show step env argv { pc := .entry, trace := [] } = _
    rw [step_entry, if_neg h, hc]
    rfl
  | succ n ih => show step env argv (run env argv (n + 1)) = _; rw [ih]; rfl

theorem run_at_setup (env : Env) (argv : List String) (h : ¬ argv.length ≤ 1)
    (hc : (eglInit env).2 = none) :
    run env argv 1 = { pc := .setup (selectMode argv), trace := (eglInit env).1 } := by
  show step env argv { pc := .entry, trace := [] } = _
  rw [step_entry, if_neg h, hc]
  rfl

theorem run_setup_failure (env : Env) (argv : List String) (h : ¬ argv.length ≤ 1)
    (hc : (eglInit env).2 = none) (hs : (setupCall env (selectMode argv)).2 = false) :
    ∀ n, run env argv (n + 2)
      = { pc := .exited 1,
          trace := (eglInit env).1 ++ [(setupCall env (selectMode argv)).1] } := by
  intro n
  induction n with
  | zero =>
    show step env argv (run env argv 1) = _
    rw [run_at_setup env argv h hc, step_setup, if_neg (by rw [hs]; decide)]
  | succ n ih => show step env argv (run env argv (n + 2)) = _; rw [ih]; rfl

theorem run_in_loop (env : Env) (argv : List String) (h : ¬ argv.length ≤ 1)
    (hc : (eglInit env).2 = none) (hs : (setupCall env (selectMode argv)).2 = true) :
    ∀ n, (run env argv (n + 2)).pc = .frame (selectMode argv)
      ∨ (run env argv (n + 2)).pc = .swap (selectMode argv) := by
  intro n
  induction n with
  | zero =>
    left
    show (step env argv (run env argv 1)).pc = _
    rw [run_at_setup env argv h hc, step_setup, if_pos hs]
  | succ n ih =>
    show (step env argv (run env argv (n + 2))).pc = _ ∨ (step env argv (run env argv (n + 2))).pc = _
    unfold step
    rcases ih with e | e
    · right; rw [e]
    · left; rw [e]

/-- C19 (counterexample): when every EGL call succeeds and the setup function
of the selected mode returns `false`, `main` of `main.cpp` returns 1; when
`eglCreateWindowSurface` fails, `main` of `gl_showbmp.cpp` returns 1. -/
theorem setup_failure_exit_code :
    exitCode envSetupFails ["glDrawBMP", "a.bmp"] 2 = some 1
      ∧ (GlShowbmp.mainExit envNoSurface 2).2 = some 1 := by
  decide

/-- C19 (amended): each `main` returns -1 when `argc <= 1`, before any call is
made.  Otherwise `main` of `main.cpp` returns 0 when `eglGetDisplay`,
`eglInitialize`, `printEGLConfigurations`, `eglCreateWindowSurface`,
`eglCreateContext` or `eglMakeCurrent` fails, returns 1 when the setup
function of the selected mode returns `false`, and does not return otherwise;
`main` of `gl_showbmp.cpp` returns 0 when `eglGetDisplay` or `eglInitialize`
fails, returns 1 when the configuration, surface, context, `eglMakeCurrent`
or `setupYuvTexSurface` step fails, and enters its render loop otherwise. -/
theorem exit_codes (env : Env) (argv : List String) (n : Nat) (hn : 2 ≤ n) :
    exitCode env argv n
        = (if argv.length ≤ 1 then some (-1)
           else if (env.displayOk && env.initOk && env.configOk && env.surfaceOk
              && env.contextOk && env.makeCurrentOk) = false then some 0
           else if (setupCall env (selectMode argv)).2 = false then some 1
           else none)
      ∧ (argv.length ≤ 1 → (run env argv n).trace = [])
      ∧ (GlShowbmp.mainExit env argv.length).2
        = (if argv.length ≤ 1 then some (-1)
           else if (env.displayOk && env.initOk) = false then some 0
           else if (env.configOk && env.surfaceOk && env.contextOk && env.makeCurrentOk
              && env.setupYuvTexSurface) = false then some 1
           else none)
      ∧ (argv.length ≤ 1 → (GlShowbmp.mainExit env argv.length).1 = []) := by
  obtain ⟨k, rfl⟩ : ∃ k, n = k + 2 := ⟨n - 2, by omega⟩
  refine ⟨?_, ?_, ?_, ?_⟩
  · by_cases h : argv.length ≤ 1
    · unfold exitCode
      rw [run_no_argument env argv h (k + 1), if_pos h]
    · rw [if_neg h]
      have he := eglInit_snd env
      cases hall : (env.displayOk && env.initOk && env.configOk && env.surfaceOk
          && env.contextOk && env.makeCurrentOk)
      · rw [hall, if_neg (by decide)] at he
        unfold exitCode
        rw [run_egl_failure env argv h 0 he (k + 1), if_pos rfl]
      · rw [hall, if_pos rfl] at he
        rw [if_neg (by decide)]
        cases hs : (setupCall env (selectMode argv)).2
        · unfold exitCode
          rw [run_setup_failure env argv h he hs k, if_pos rfl]
        · rw [if_neg (by decide)]
          unfold exitCode
          rcases run_in_loop env argv h he hs k with e | e <;> rw [e]
  · intro h
    rw [run_no_argument env argv h (k + 1)]
  · by_cases h : argv.length ≤ 1
    · unfold GlShowbmp.mainExit
      rw [if_pos h, if_pos h]
    · unfold GlShowbmp.mainExit
      rw [if_neg h, if_neg h]
      rcases env with ⟨a, b, c, d, e, f, _, _, g⟩
      cases a <;> cases b <;> cases c <;> cases d <;> cases e <;> cases f <;> cases g <;> rfl
  · intro h
    unfold GlShowbmp.mainExit
    rw [if_pos h]

theorem exit_codes_witness :
    exitCode envSetupFails ["glDrawBMP", "a.bmp", "RGBA"] 5 = some 1 :=
  (exit_codes envSetupFails ["glDrawBMP", "a.bmp", "RGBA"] 5 (by decide)).1

/-! ## Setup before the render loop -/

theorem step_frame (env : Env) (argv : List String) (mode : Nat) (t : List Event) :
    step env argv { pc := .frame mode, trace := t }
      = { pc := .swap mode, trace := t ++ [frameCall mode] } :=
  rfl

theorem step_swap (env : Env) (argv : List String) (mode : Nat) (t : List Event) :
    step env argv { pc := .swap mode, trace := t }
      = { pc := .frame mode, trace := t ++ [.eglSwapBuffers] } :=
  rfl

theorem step_exited (env : Env) (argv : List String) (code : Int) (t : List Event) :
    step env argv { pc := .exited code, trace := t } = { pc := .exited code, trace := t } :=
  rfl

theorem selectMode_cases (argv : List String) :
    selectMode argv = RGB_MODE ∨ selectMode argv = RGBA_MODE := by
  unfold selectMode
  split_ifs
  · right; rfl
  · left; rfl
  · right; rfl
  · right; rfl

theorem gated_nil (mode : Nat) : Gated mode [] := by
  intro pre e post h
  have := congrArg List.length h
  simp at this
  omega

theorem gated_append (mode : Nat) (t : List Event) (e : Event) (h : Gated mode t)
    (he : (e = .renderFrameRGB → mode = RGB_MODE ∧ Event.setupGraphicsRGB true ∈ t)
      ∧ (e = .renderFrameRGBA → mode = RGBA_MODE ∧ Event.setupGraphicsRGBA true ∈ t)) :
    Gated mode (t ++ [e]) := by
  intro pre x post hx
  rcases List.eq_nil_or_concat post with hp | ⟨q, y, hp⟩
  · subst hp
    have h2 : t ++ [e] = pre ++ [x] := hx
    have hl : t = pre ∧ [e] = [x] := List.append_inj' h2 rfl
    have hex : e = x := by
      have := hl.2
      simpa using this
    rw [← hl.1, ← hex]
    exact he
  · subst hp
    have h2 : t ++ [e] = (pre ++ x :: q) ++ [y] := by
      rw [hx]
      simp
    have hl := List.append_inj' h2 rfl
    exact h pre x q hl.1

theorem gated_of_quiet (mode : Nat) (t : List Event)
    (h : ∀ e ∈ t, isFrameEvent e = false) : Gated mode t := by
  intro pre e post ht
  have hm : e ∈ t := by
    rw [ht]
    simp
  have hq := h e hm
  constructor
  · intro he
    rw [he] at hq
    exact absurd hq (by decide)
  · intro he
    rw [he] at hq
    exact absurd hq (by decide)

theorem setupCall_not_frame (env : Env) (mode : Nat) :
    (setupCall env mode).1 ≠ .renderFrameRGB ∧ (setupCall env mode).1 ≠ .renderFrameRGBA
      ∧ isFrameEvent (setupCall env mode).1 = false := by
  unfold setupCall
  split_ifs
  · exact ⟨fun h => Event.noConfusion h, fun h => Event.noConfusion h, rfl⟩
  · exact ⟨fun h => Event.noConfusion h, fun h => Event.noConfusion h, rfl⟩

theorem frameCall_setup (env : Env) (argv : List String) (m : Nat)
    (hm : m = selectMode argv) (hs : (setupCall env m).2 = true) :
    (frameCall m = .renderFrameRGB →
        selectMode argv = RGB_MODE ∧ (setupCall env m).1 = .setupGraphicsRGB true)
      ∧ (frameCall m = .renderFrameRGBA →
        selectMode argv = RGBA_MODE ∧ (setupCall env m).1 = .setupGraphicsRGBA true) := by
  unfold frameCall
  unfold setupCall at hs ⊢
  by_cases h0 : m = RGB_MODE
  · rw [if_pos h0] at hs ⊢
    rw [if_pos h0]
    have hs2 : env.setupGraphicsRGB = true := hs
    constructor
    · intro _
      refine ⟨by rw [← hm]; exact h0, ?_⟩
      show Event.setupGraphicsRGB env.setupGraphicsRGB = _
      rw [hs2]
    · intro h; exact Event.noConfusion h
  · rw [if_neg h0] at hs ⊢
    rw [if_neg h0]
    have hs2 : env.setupGraphicsRGBA = true := hs
    constructor
    · intro h; exact Event.noConfusion h
    · intro _
      constructor
      · rcases selectMode_cases argv with e | e
        · exact absurd (hm.trans e) h0
        · exact e
      · show Event.setupGraphicsRGBA env.setupGraphicsRGBA = _
        rw [hs2]

theorem inv_step (env : Env) (argv : List String) (s : MainState) (h : Inv env argv s) :
    Inv env argv (step env argv s) := by
  obtain ⟨pc, t⟩ := s
  obtain ⟨hg, hentry, hsetup, hloop⟩ := h
  cases pc with
  | entry =>
    have ht : t = [] := hentry rfl
    subst ht
    rw [step_entry]
    by_cases ha : argv.length ≤ 1
    · rw [if_pos ha]
      exact ⟨hg, fun h => Pc.noConfusion h, fun m h => Pc.noConfusion h,
        fun m h => by rcases h with h | h <;> exact Pc.noConfusion h⟩
    · rw [if_neg ha]
      have hq : Gated (selectMode argv) ([] ++ (eglInit env).1) := by
        rw [List.nil_append]
        exact gated_of_quiet _ _ (eglInit_quiet env)
      cases hc : (eglInit env).2 with
      | some code =>
        exact ⟨hq, fun h => Pc.noConfusion h, fun m h => Pc.noConfusion h,
          fun m h => by rcases h with h | h <;> exact Pc.noConfusion h⟩
      | none =>
        exact ⟨hq, fun h => Pc.noConfusion h, fun m h => (Pc.setup.inj h).symm,
          fun m h => by rcases h with h | h <;> exact Pc.noConfusion h⟩
  | setup mode =>
    have hm : mode = selectMode argv := hsetup mode rfl
    have hnf := setupCall_not_frame env mode
    have hq : Gated (selectMode argv) (t ++ [(setupCall env mode).1]) :=
      gated_append _ t _ hg ⟨fun h => absurd h hnf.1, fun h => absurd h hnf.2.1⟩
    rw [step_setup]
    by_cases hs : (setupCall env mode).2 = true
    · rw [if_pos hs]
      refine ⟨hq, fun h => Pc.noConfusion h, fun m h => Pc.noConfusion h, fun m h => ?_⟩
      have e : m = mode := by
        rcases h with h | h
        · exact (Pc.frame.inj h).symm
        · exact Pc.noConfusion h
      subst e
      exact ⟨hm, hs, by simp⟩
    · rw [if_neg hs]
      exact ⟨hq, fun h => Pc.noConfusion h, fun m h => Pc.noConfusion h,
        fun m h => by rcases h with h | h <;> exact Pc.noConfusion h⟩
  | frame mode =>
    obtain ⟨hm, hs, hmem⟩ := hloop mode (Or.inl rfl)
    have hf := frameCall_setup env argv mode hm hs
    rw [step_frame]
    refine ⟨gated_append _ t _ hg ⟨fun h => ?_, fun h => ?_⟩, fun h => Pc.noConfusion h,
      fun m h => Pc.noConfusion h, fun m h => ?_⟩
    · obtain ⟨h1, h2⟩ := hf.1 h
      exact ⟨h1, h2 ▸ hmem⟩
    · obtain ⟨h1, h2⟩ := hf.2 h
      exact ⟨h1, h2 ▸ hmem⟩
    · have e : m = mode := by
        rcases h with h | h
        · exact Pc.noConfusion h
        · exact (Pc.swap.inj h).symm
      subst e
      exact ⟨hm, hs, List.mem_append_left _ hmem⟩
  | swap mode =>
    obtain ⟨hm, hs, hmem⟩ := hloop mode (Or.inr rfl)
    rw [step_swap]
    refine ⟨gated_append _ t _ hg ⟨fun h => Event.noConfusion h, fun h => Event.noConfusion h⟩,
      fun h => Pc.noConfusion h, fun m h => Pc.noConfusion h, fun m h => ?_⟩
    have e : m = mode := by
      rcases h with h | h
      · exact (Pc.frame.inj h).symm
      · exact Pc.noConfusion h
    subst e
    exact ⟨hm, hs, List.mem_append_left _ hmem⟩
  | exited code =>
    rw [step_exited]
    exact ⟨hg, hentry, hsetup, hloop⟩

theorem inv_run (env : Env) (argv : List String) : ∀ n, Inv env argv (run env argv n) := by
  intro n
  induction n with
  | zero =>
    exact ⟨gated_nil _, fun _ => rfl, fun m h => Pc.noConfusion h,
      fun m h => by rcases h with h | h <;> exact Pc.noConfusion h⟩
  | succ n ih => exact inv_step env argv _ ih

theorem quiet_run (env : Env) (argv : List String)
    (hs : (setupCall env (selectMode argv)).2 = false) (n : Nat) :
    (∀ e ∈ (run env argv n).trace, isFrameEvent e = false)
      ∧ (2 ≤ n → ∃ code, (run env argv n).pc = .exited code) := by
  have hnil : ∀ e ∈ ([] : List Event), isFrameEvent e = false := fun e he => by simp at he
  by_cases ha : argv.length ≤ 1
  · cases n with
    | zero => exact ⟨hnil, fun h => absurd h (by decide)⟩
    | succ k =>
      rw [run_no_argument env argv ha k]
      exact ⟨hnil, fun _ => ⟨_, rfl⟩⟩
  · cases hc : (eglInit env).2 with
    | some code =>
      cases n with
      | zero => exact ⟨hnil, fun h => absurd h (by decide)⟩
      | succ k =>
        rw [run_egl_failure env argv ha code hc k]
        exact ⟨eglInit_quiet env, fun _ => ⟨_, rfl⟩⟩
    | none =>
      match n with
      | 0 => exact ⟨hnil, fun h => absurd h (by decide)⟩
      | 1 =>
        rw [run_at_setup env argv ha hc]
        exact ⟨eglInit_quiet env, fun h => absurd h (by decide)⟩
      | k + 2 =>
        rw [run_setup_failure env argv ha hc hs k]
        refine ⟨fun e he => ?_, fun _ => ⟨_, rfl⟩⟩
        rcases List.mem_append.mp he with h | h
        · exact eglInit_quiet env e h
        · rw [List.mem_singleton.mp h]
          exact (setupCall_not_frame env _).2.2

/-- C20: in every run of `main` of `main.cpp` and after any number of steps,
each call of a frame function in the trace is that of the selected mode and
has before it a call of the setup function of the same mode that returned
`true`; and when the setup function of the selected mode returns `false`, the
trace never holds a frame call or an `eglSwapBuffers`, and from the second
step on `main` has returned. -/
theorem setup_gates_render_loop (env : Env) (argv : List String) (n : Nat) :
    (∀ (pre : List Event) (e : Event) (post : List Event),
        (run env argv n).trace = pre ++ e :: post →
        (e = .renderFrameRGB →
            selectMode argv = RGB_MODE ∧ Event.setupGraphicsRGB true ∈ pre)
          ∧ (e = .renderFrameRGBA →
            selectMode argv = RGBA_MODE ∧ Event.setupGraphicsRGBA true ∈ pre))
      ∧ ((setupCall env (selectMode argv)).2 = false →
          (∀ e ∈ (run env argv n).trace, isFrameEvent e = false)
            ∧ (2 ≤ n → ∃ code, (run env argv n).pc = .exited code)) :=
  ⟨(inv_run env argv n).1, fun hs => quiet_run env argv hs n⟩

theorem setup_gates_render_loop_witness :
    (selectMode ["glDrawBMP", "a.bmp", "RGB"] = RGB_MODE
        ∧ Event.setupGraphicsRGB true
          ∈ [Event.eglGetDisplay, .eglInitialize, .printEGLConfigurations,
             .eglCreateWindowSurface, .eglCreateContext, .eglMakeCurrent,
             .setupGraphicsRGB true])
      ∧ ((∀ e ∈ (run envSetupFails ["glDrawBMP", "a.bmp"] 4).trace, isFrameEvent e = false)
        ∧ (2 ≤ 4 → ∃ code, (run envSetupFails ["glDrawBMP", "a.bmp"] 4).pc = .exited code)) :=
  ⟨((setup_gates_render_loop envAllOk ["glDrawBMP", "a.bmp", "RGB"] 4).1
      [Event.eglGetDisplay, .eglInitialize, .printEGLConfigurations,
       .eglCreateWindowSurface, .eglCreateContext, .eglMakeCurrent, .setupGraphicsRGB true]
      .renderFrameRGB [.eglSwapBuffers] (by decide)).1 rfl,
   (setup_gates_render_loop envSetupFails ["glDrawBMP", "a.bmp"] 4).2 (by decide)⟩

/-! ## The swap loop on 3-byte pixels -/

theorem iadd_small (a : Int) (k : Int) (h0 : 0 ≤ a) (hk0 : 0 ≤ k) (h : a + k < 2147483648) :
    iadd a k = a + k := by
  unfold iadd
  exact wrapInt_of_range (by omega) h

theorem swapLoop_three (n : Nat) (hn : 3 * n < 2147483648) :
    ∀ (d p fuel : Nat) (t : Int → UInt8), p + d = n → d < fuel →
      ∃ t', swapLoop (3 * (n : Int)) fuel (3 * (p : Int)) t = some t'
        ∧ ∀ j : Int, t' j
            = if 3 * (p : Int) ≤ j ∧ j < 3 * (n : Int) then swapped3 t j else t j := by
  intro d
  induction d with
  | zero =>
    intro p fuel t hp hf
    obtain ⟨f, rfl⟩ : ∃ f, fuel = f + 1 := ⟨fuel - 1, by omega⟩
    have hpn : p = n := by omega
    subst hpn
    refine ⟨t, ?_, fun j => ?_⟩
    · unfold swapLoop
      rw [if_neg (by omega)]
    · rw [if_neg (by omega)]
  | succ d ih =>
    intro p fuel t hp hf
    obtain ⟨f, rfl⟩ : ∃ f, fuel = f + 1 := ⟨fuel - 1, by omega⟩
    have hlt : 3 * (p : Int) < 3 * (n : Int) := by omega
    have e2 : iadd (3 * (p : Int)) 2 = 3 * (p : Int) + 2 :=
      iadd_small _ _ (by omega) (by decide) (by omega)
    have e3 : iadd (3 * (p : Int)) 3 = 3 * ((p + 1 : Nat) : Int) := by
      rw [iadd_small _ _ (by omega) (by decide) (by omega)]
      push_cast
      ring
    obtain ⟨t', ht', hj⟩ := ih (p + 1) f
      (store (store t (3 * (p : Int)) (t (3 * (p : Int) + 2))) (3 * (p : Int) + 2)
        (t (3 * (p : Int)))) (by omega) (by omega)
    refine ⟨t', ?_, fun j => ?_⟩
    · unfold swapLoop
      rw [if_pos hlt]
      show swapLoop _ f (iadd (3 * (p : Int)) 3)
        (store (store t (3 * (p : Int)) (t (iadd (3 * (p : Int)) 2)))
          (iadd (3 * (p : Int)) 2) (t (3 * (p : Int)))) = _
      rw [e2, e3]
      exact ht'
    · rw [hj j]
      have hc : ((p + 1 : Nat) : Int) = (p : Int) + 1 := by push_cast; rfl
      rw [hc]
      simp only [store, swapped3]
      split_ifs <;> (refine congrArg t ?_; omega)

theorem swapAccesses_three (n : Nat) (hn : 3 * n < 2147483648) :
    ∀ (d p fuel : Nat), p + d = n → d < fuel →
      ∃ l, swapAccesses (3 * (n : Int)) fuel (3 * (p : Int)) = some l
        ∧ ∀ x ∈ l, 3 * (p : Int) ≤ x ∧ x < 3 * (n : Int) := by
  intro d
  induction d with
  | zero =>
    intro p fuel hp hf
    obtain ⟨f, rfl⟩ : ∃ f, fuel = f + 1 := ⟨fuel - 1, by omega⟩
    have hpn : p = n := by omega
    subst hpn
    refine ⟨[], ?_, fun x hx => ?_⟩
    · unfold swapAccesses
      rw [if_neg (by omega)]
    · simp at hx
  | succ d ih =>
    intro p fuel hp hf
    obtain ⟨f, rfl⟩ : ∃ f, fuel = f + 1 := ⟨fuel - 1, by omega⟩
    have hlt : 3 * (p : Int) < 3 * (n : Int) := by omega
    have e2 : iadd (3 * (p : Int)) 2 = 3 * (p : Int) + 2 :=
      iadd_small _ _ (by omega) (by decide) (by omega)
    have e3 : iadd (3 * (p : Int)) 3 = 3 * ((p + 1 : Nat) : Int) := by
      rw [iadd_small _ _ (by omega) (by decide) (by omega)]
      push_cast
      ring
    obtain ⟨l, hl, hx⟩ := ih (p + 1) f (by omega) (by omega)
    refine ⟨3 * (p : Int) :: (3 * (p : Int) + 2) :: 3 * (p : Int) :: (3 * (p : Int) + 2) :: l,
      ?_, fun x hmem => ?_⟩
    · unfold swapAccesses
      rw [if_pos hlt, e2, e3, hl]
      rfl
    · have hc : ((p + 1 : Nat) : Int) = (p : Int) + 1 := by push_cast; rfl
      simp only [List.mem_cons] at hmem
      rcases hmem with h | h | h | h | h
      · omega
      · omega
      · omega
      · omega
      · have := hx x h
        omega

/-- C21: the accepted 32-bit file `bmp32row` (width 2, height 1) gives
`imageSize = 8`, a buffer with the indices 0..7, and the swap loop touches
the indices 0, 2, 3, 5, 6 and 8: its last turn reads and writes index 8,
outside the buffer. -/
theorem swap_loop_leaves_buffer :
    badMagic (freadHeader (fun _ => 0) bmp32row) = false
      ∧ badDepth (parseHeader (freadHeader (fun _ => 0) bmp32row)).mF = false
      ∧ badSize (parseHeader (freadHeader (fun _ => 0) bmp32row)) = false
      ∧ imageSize (parseHeader (freadHeader (fun _ => 0) bmp32row)) = 8
      ∧ swapAccesses (imageSize (parseHeader (freadHeader (fun _ => 0) bmp32row))) swapFuel 0
        = some [0, 2, 0, 2, 3, 5, 3, 5, 6, 8, 6, 8] := by
  decide

/-! ## The size test modulo 2^32 -/

theorem wrapInt_emod (x : Int) : wrapInt x % 4294967296 = x % 4294967296 := by
  unfold wrapInt
  omega

theorem imul_emod (a b : Int) : imul a b % 4294967296 = a * b % 4294967296 := by
  unfold imul
  exact wrapInt_emod _

theorem imageSize_emod (b : BmpInfo) :
    imageSize b % 4294967296 = b.mW * b.mH * b.mF % 4294967296 := by
  unfold imageSize
  rw [imul_emod, Int.mul_emod, imul_emod, ← Int.mul_emod]

theorem mS_emod (header : Nat → UInt8) :
    (parseHeader header).mS % 4294967296 = (declaredSize header : Int) % 4294967296 := by
  have h0 := UInt8.toNat_lt (header 2)
  have h1 := UInt8.toNat_lt (header 3)
  have h2 := UInt8.toNat_lt (header 4)
  have h3 := UInt8.toNat_lt (header 5)
  have e : (parseHeader header).mS = readInt header 2 := rfl
  rw [e, readInt_eq]
  unfold signedLE32 declaredSize
  norm_num at h0 h1 h2 h3 ⊢
  split <;> omega

/-- C22 (counterexample): the header of `aliasFile` declares a 24-bit bitmap
of width 641 and height 6700417 and a size of 57; `mW * mH` wraps to 1, the
size test passes, the decoder returns `true` with a buffer of 3 bytes, while
`54 + 641*6700417*3` is 12884901945. -/
theorem size_check_aliases :
    parseHeader (freadHeader (fun _ => 0) aliasFile)
        = { mS := 57, mW := 641, mH := 6700417, mP := 24, mF := 3 }
      ∧ badSize (parseHeader (freadHeader (fun _ => 0) aliasFile)) = false
      ∧ declaredSize (freadHeader (fun _ => 0) aliasFile) ≠ 54 + 641 * 6700417 * 3
      ∧ (Gl2DrawRgb.setupYuvTexSurface 1 (.opened aliasFile) (fun _ => 0) (fun _ => 0)).map
          (fun r => (r.ret, r.alloc, r.texImage))
        = some (true, some 3, some (641, 6700417)) := by
  decide

/-- C22 (amended): whenever the size test of the strict decoder lets a header
pass, the declared size is congruent to `54 + mW*mH*mF` modulo `2^32`; when
moreover the signature is valid, the width `W` and the height `H` are not
negative, `bpp` is 3 or 4 and `54 + W*H*bpp` is inside the `int` range, the
declared size equals `54 + W*H*bpp` and the allocated buffer holds exactly
`W*H*bpp` bytes. -/
theorem size_check_sound_in_range (gProgram : Nat) (file : List UInt8)
    (staleHeader : Nat → UInt8) (staleBuf : Int → UInt8)
    (hpass : badSize (parseHeader (freadHeader staleHeader file)) = false) :
    (declaredSize (freadHeader staleHeader file) : Int) % 4294967296
        = (54 + (parseHeader (freadHeader staleHeader file)).mW
            * (parseHeader (freadHeader staleHeader file)).mH
            * (parseHeader (freadHeader staleHeader file)).mF) % 4294967296
      ∧ ∀ W H bpp : Nat, gProgram ≠ 0 → badMagic (freadHeader staleHeader file) = false →
          (parseHeader (freadHeader staleHeader file)).mW = (W : Int) →
          (parseHeader (freadHeader staleHeader file)).mH = (H : Int) →
          (parseHeader (freadHeader staleHeader file)).mF = (bpp : Int) →
          bpp = 3 ∨ bpp = 4 → 54 + W * H * bpp < 2147483648 →
          declaredSize (freadHeader staleHeader file) = 54 + W * H * bpp
            ∧ (Gl2DrawRgb.setupYuvTexSurface gProgram (.opened file) staleHeader staleBuf).map
                (fun r => (r.ret, r.alloc)) = some (true, some (W * H * bpp)) := by
  constructor
  · have hm := mS_emod (freadHeader staleHeader file)
    have hi := imageSize_emod (parseHeader (freadHeader staleHeader file))
    have hs : (parseHeader (freadHeader staleHeader file)).mS
        = iadd (imageSize (parseHeader (freadHeader staleHeader file))) 54 := by
      unfold badSize at hpass
      have := bne_eq_false_iff_eq.mp hpass
      exact this
    have ha : iadd (imageSize (parseHeader (freadHeader staleHeader file))) 54 % 4294967296
        = (imageSize (parseHeader (freadHeader staleHeader file)) + 54) % 4294967296 := by
      unfold iadd
      exact wrapInt_emod _
    rw [← hm, hs, ha, Int.add_emod, hi, ← Int.add_emod, Int.add_comm]
  · intro W H bpp hprog hmagic hW hH hF hbpp hrange
    have h3 : 3 ≤ bpp := by omega
    have hsize := (badSize_iff _ W H bpp hW hH hF h3 hrange).mp hpass
    refine ⟨hsize, ?_⟩
    have hd : badDepth (parseHeader (freadHeader staleHeader file)).mF = false := by
      rw [hF]
      rcases hbpp with e | e <;> subst e <;> decide
    have hwh : W * H ≤ W * H * bpp := Nat.le_mul_of_pos_right _ (by omega)
    have b1 : W * H < 2147483648 := by omega
    have b2 : W * H * bpp < 2147483648 := by omega
    have hi := imageSize_natCast _ W H bpp hW hH hF b1 b2
    have hn : nullWrite file (parseHeader (freadHeader staleHeader file)) = false :=
      nullWrite_of_nonneg file _ (by rw [hi]; exact Int.ofNat_nonneg _)
    obtain ⟨t, ht⟩ := loadAndUpload_eq gProgram file
      (parseHeader (freadHeader staleHeader file)) staleBuf hprog hn
    rw [setupYuvTexSurface_accepted gProgram file staleHeader staleBuf hmagic hd hpass, ht,
      hi, toSizeT_natCast b2]
    rfl

theorem size_check_sound_in_range_witness :
    declaredSize (freadHeader (fun _ => 0) bmp1x2) = 54 + 1 * 2 * 3
      ∧ (Gl2DrawRgb.setupYuvTexSurface 1 (.opened bmp1x2) (fun _ => 0) (fun _ => 0)).map
          (fun r => (r.ret, r.alloc)) = some (true, some (1 * 2 * 3)) :=
  (size_check_sound_in_range 1 bmp1x2 (fun _ => 0) (fun _ => 0) (by decide)).2 1 2 3
    (by decide) (by decide) (by decide) (by decide) (by decide) (Or.inl rfl) (by decide)

/-! ## What the buffer of the strict decoder holds -/

theorem rawPixels_eq (file : List UInt8) (b : BmpInfo) (staleBuf : Int → UInt8) (j : Nat)
    (hj : j < toSizeT (imageSize b)) :
    rawPixels file b staleBuf (j : Int) = (file[54 + j]?).getD (staleBuf (j : Int)) := by
  have h54 : fseekSet (min BMP_HEADER_SIZE file.length) ((BMP_HEADER_SIZE : Nat) : Int) = 54 := by
    unfold fseekSet
    rw [if_pos (by decide)]
    rfl
  unfold rawPixels
  rw [h54]
  unfold freadBuf
  have hc : 0 ≤ (j : Int) ∧ (j : Int).toNat < toSizeT (imageSize b) := by
    rw [Int.toNat_ofNat]
    exact ⟨Int.ofNat_nonneg j, hj⟩
  rw [if_pos hc, Int.toNat_ofNat]

theorem loadAndUpload_swap (gProgram : Nat) (file : List UInt8) (b : BmpInfo)
    (staleBuf : Int → UInt8) (hprog : gProgram ≠ 0) (hn : nullWrite file b = false) :
    ∃ t, loadAndUpload gProgram file b staleBuf
        = some { ret := true, alloc := some (toSizeT (imageSize b)), t8my := some t,
                 texImage := some (b.mW, b.mH) }
      ∧ swapLoop (imageSize b) swapFuel 0 (rawPixels file b staleBuf) = some t := by
  have ht := swapLoop_terminates (imageSize b) (imageSize_lt b) (rawPixels file b staleBuf)
  obtain ⟨t, ht⟩ := Option.isSome_iff_exists.mp ht
  refine ⟨t, ?_, ht⟩
  rw [loadAndUpload_ok gProgram file b staleBuf hn]
  unfold swapAndUpload
  rw [ht]
  show (if gProgram = 0 then _ else _) = _
  rw [if_neg hprog]

/-- The seek offset and the read count of `readRow` are `seekOffset` and
`rowLength`. -/
theorem readRow_seek (file : List UInt8) (mW mH mF ii : Int) (st : RowState) :
    readRow file mW mH mF ii st
      = { pos := freadPos file (fseekSet st.pos (seekOffset mW mH mF ii)) (rowLength mW mF),
          tmpb := freadBuf file (fseekSet st.pos (seekOffset mW mH mF ii)) (rowLength mW mF)
            st.tmpb } :=
  rfl

/-- The three reads of `texel` use the indices `rowIndex`. -/
theorem texel_rowIndex (tmpb : Int → UInt8) (mF jj : Int) :
    texel tmpb mF jj
      = pack (tmpb (rowIndex mF jj 0)) (tmpb (rowIndex mF jj 1)) (tmpb (rowIndex mF jj 2)) :=
  rfl

/-- The stores of `rowStores` use the indices `texelIndex`. -/
theorem rowStores_texelIndex (tmpb : Int → UInt8) (mW mF ii : Int) :
    rowStores tmpb mW mF ii
      = (List.range mW.toNat).map
          (fun (jj : Nat) => (texelIndex mW ii (jj : Int), texel tmpb mF (jj : Int))) :=
  rfl

/-- C24 (counterexample): the header of `tallFile` has width 1, height
536870911 and 4 bytes per pixel, so `4*W*H = 2147483644` is inside the `int`
range; the seek offset of the first turn, `54 + (H-1)*4*1 = 2147483694`,
wraps to -2147483602, which is not in `[54, 54 + (H-1)*mF*W]`. -/
theorem seek_offset_wraps :
    parseHeader (freadHeader (fun _ => 0) tallFile)
        = { mS := -2147483598, mW := 1, mH := 536870911, mP := 32, mF := 4 }
      ∧ 4 * 1 * 536870911 < 2147483648
      ∧ seekOffset 1 536870911 4 0 = -2147483602 := by
  decide

/-- C24 (amended): for width `W > 0`, height `H > 0`, `F` in {3, 4} bytes per
pixel and `4*W*H` inside the `int` range, every read of the row buffer uses an
index `jj*F + k` (`k` in 0..2) below its length `F*W`, and every write to the
texel buffer uses an index `ii*W + jj` in `[0, W*H)`; when moreover
`54 + (H-1)*F*W` is inside the `int` range, every seek offset is
`54 + (H-ii-1)*F*W` and lies in `[54, 54 + (H-1)*F*W]`. -/
theorem index_safety (W H F ii jj k : Nat) (hW : 0 < W) (hH : 0 < H) (hF : F = 3 ∨ F = 4)
    (hrange : 4 * W * H < 2147483648) (hii : ii < H) (hjj : jj < W) (hk : k ≤ 2) :
    (rowIndex (F : Int) (jj : Int) (k : Int) = ((jj * F + k : Nat) : Int)
        ∧ rowLength (W : Int) (F : Int) = ((F * W : Nat) : Int)
        ∧ jj * F + k < F * W)
      ∧ (texelIndex (W : Int) (ii : Int) (jj : Int) = ((ii * W + jj : Nat) : Int)
        ∧ ii * W + jj < W * H)
      ∧ (54 + (H - 1) * F * W < 2147483648 →
          seekOffset (W : Int) (H : Int) (F : Int) (ii : Int)
              = ((54 + (H - ii - 1) * F * W : Nat) : Int)
            ∧ 54 ≤ 54 + (H - ii - 1) * F * W
            ∧ 54 + (H - ii - 1) * F * W ≤ 54 + (H - 1) * F * W) := by
  have hF4 : F ≤ 4 := by omega
  have hF3 : 3 ≤ F := by omega
  have hcol : jj * F + F ≤ F * W := by
    calc jj * F + F = F * (jj + 1) := by ring
      _ ≤ F * W := Nat.mul_le_mul_left _ hjj
  have hFW : F * W ≤ 4 * W := Nat.mul_le_mul_right _ hF4
  have h4W : 4 * W ≤ 4 * W * H := Nat.le_mul_of_pos_right _ hH
  have hrow : ii * W + W ≤ W * H := by
    calc ii * W + W = W * (ii + 1) := by ring
      _ ≤ W * H := Nat.mul_le_mul_left _ hii
  have hWH : W * H ≤ 4 * W * H := by
    calc W * H = 1 * (W * H) := (Nat.one_mul _).symm
      _ ≤ 4 * (W * H) := Nat.mul_le_mul_right _ (by decide)
      _ = 4 * W * H := (Nat.mul_assoc 4 W H).symm
  have hHle : H ≤ W * H := Nat.le_mul_of_pos_left _ hW
  have a1 : jj * F < 2147483648 := by omega
  have a2 : jj * F + k < 2147483648 := by omega
  have a3 : F * W < 2147483648 := by omega
  have a4 : ii * W < 2147483648 := by omega
  have a5 : ii * W + jj < 2147483648 := by omega
  refine ⟨⟨?_, ?_, by omega⟩, ⟨?_, by omega⟩, fun hoff => ?_⟩
  · unfold rowIndex
    rw [imul_natCast a1, iadd_natCast a2]
  · unfold rowLength
    rw [imul_natCast a3]
  · unfold texelIndex
    rw [imul_natCast a4, iadd_natCast a5]
  · have hmono : (H - ii - 1) * F * W ≤ (H - 1) * F * W :=
      Nat.mul_le_mul_right _ (Nat.mul_le_mul_right _ (by omega))
    have hmid : (H - ii - 1) * F ≤ (H - ii - 1) * F * W := Nat.le_mul_of_pos_right _ hW
    have c1 : H < 2147483648 := by omega
    have c2 : H - ii < 2147483648 := by omega
    have c3 : (H - ii - 1) * F < 2147483648 := by omega
    have c4 : (H - ii - 1) * F * W < 2147483648 := by omega
    have c5 : 54 + (H - ii - 1) * F * W < 2147483648 := by omega
    have one : ((1 : Nat) : Int) = 1 := rfl
    have e54 : ((BMP_HEADER_SIZE : Nat) : Int) = ((54 : Nat) : Int) := rfl
    refine ⟨?_, by omega, by omega⟩
    unfold seekOffset
    rw [isub_natCast (by omega) c1, ← one, isub_natCast (by omega) c2, imul_natCast c3,
      imul_natCast c4, e54, iadd_natCast c5]

theorem index_safety_witness :
    (rowIndex ((4 : Nat) : Int) ((1 : Nat) : Int) ((2 : Nat) : Int) = ((1 * 4 + 2 : Nat) : Int)
        ∧ rowLength ((2 : Nat) : Int) ((4 : Nat) : Int) = ((4 * 2 : Nat) : Int)
        ∧ 1 * 4 + 2 < 4 * 2)
      ∧ (texelIndex ((2 : Nat) : Int) ((1 : Nat) : Int) ((1 : Nat) : Int)
            = ((1 * 2 + 1 : Nat) : Int)
        ∧ 1 * 2 + 1 < 2 * 2)
      ∧ (54 + (2 - 1) * 4 * 2 < 2147483648 →
          seekOffset ((2 : Nat) : Int) ((2 : Nat) : Int) ((4 : Nat) : Int) ((1 : Nat) : Int)
              = ((54 + (2 - 1 - 1) * 4 * 2 : Nat) : Int)
            ∧ 54 ≤ 54 + (2 - 1 - 1) * 4 * 2
            ∧ 54 + (2 - 1 - 1) * 4 * 2 ≤ 54 + (2 - 1) * 4 * 2) :=
  index_safety 2 2 4 1 1 2 (by decide) (by decide) (Or.inr rfl) (by decide) (by decide)
    (by decide) (by decide)

/-! ## The swapping and the expanding decoder on 24-bit input -/

theorem strict_buffer_24 (gProgram : Nat) (file : List UInt8) (staleHeader : Nat → UInt8)
    (staleBuf : Int → UInt8) (W H : Nat) (hprog : gProgram ≠ 0)
    (hmagic : badMagic (freadHeader staleHeader file) = false)
    (hP : (parseHeader (freadHeader staleHeader file)).mP = 24)
    (hsize : badSize (parseHeader (freadHeader staleHeader file)) = false)
    (hW : (parseHeader (freadHeader staleHeader file)).mW = (W : Int))
    (hH : (parseHeader (freadHeader staleHeader file)).mH = (H : Int))
    (hrange : 54 + W * H * 3 < 2147483648) (hlen : 54 + W * H * 3 ≤ file.length) :
    ∃ t, (Gl2DrawRgb.setupYuvTexSurface gProgram (.opened file) staleHeader staleBuf).map
          (fun r => r.t8my) = some (some t)
      ∧ ∀ q : Nat, q < W * H →
          t (((q * 3 + 0 : Nat) : Int)) = file.getD (54 + q * 3 + 2) 0
            ∧ t (((q * 3 + 1 : Nat) : Int)) = file.getD (54 + q * 3 + 1) 0
            ∧ t (((q * 3 + 2 : Nat) : Int)) = file.getD (54 + q * 3) 0 := by
  have hF : (parseHeader (freadHeader staleHeader file)).mF = ((3 : Nat) : Int) :=
    mF_of_depth (Or.inl ⟨hP, rfl⟩)
  have hd : badDepth (parseHeader (freadHeader staleHeader file)).mF = false := by
    rw [hF]; decide
  have b1 : W * H < 2147483648 := by omega
  have b2 : W * H * 3 < 2147483648 := by omega
  have b3 : 3 * (W * H) < 2147483648 := by omega
  have hi := imageSize_natCast _ W H 3 hW hH hF b1 b2
  have hi3 : imageSize (parseHeader (freadHeader staleHeader file)) = 3 * ((W * H : Nat) : Int) := by
    rw [hi]
    push_cast
    ring
  have hts : toSizeT (imageSize (parseHeader (freadHeader staleHeader file))) = W * H * 3 := by
    rw [hi, toSizeT_natCast b2]
  have hn : nullWrite file (parseHeader (freadHeader staleHeader file)) = false :=
    nullWrite_of_nonneg file _ (by rw [hi]; exact Int.ofNat_nonneg _)
  obtain ⟨t, ht, hsw⟩ := loadAndUpload_swap gProgram file
    (parseHeader (freadHeader staleHeader file)) staleBuf hprog hn
  have hfuel : W * H < swapFuel := by
    show W * H < 4294967297
    omega
  obtain ⟨t', ht', hj⟩ := swapLoop_three (W * H) b3 (W * H) 0 swapFuel
    (rawPixels file (parseHeader (freadHeader staleHeader file)) staleBuf) (by omega) hfuel
  have hzero : (3 : Int) * ((0 : Nat) : Int) = 0 := by decide
  rw [hzero, ← hi3, hsw] at ht'
  have htt : t = t' := Option.some.inj ht'
  refine ⟨t, ?_, fun q hq => ?_⟩
  · rw [setupYuvTexSurface_accepted gProgram file staleHeader staleBuf hmagic hd hsize, ht]
    rfl
  · have raw : ∀ m : Nat, m < W * H * 3 →
        rawPixels file (parseHeader (freadHeader staleHeader file)) staleBuf (m : Int)
          = file.getD (54 + m) 0 := by
      intro m hm
      have hin : 54 + m < file.length := by omega
      rw [rawPixels_eq file _ staleBuf m (by rw [hts]; exact hm),
        List.getElem?_eq_getElem hin, List.getD_eq_getElem?_getD, List.getElem?_eq_getElem hin]
      rfl
    have r0 := raw (q * 3) (by omega)
    have r1 := raw (q * 3 + 1) (by omega)
    have r2 := raw (q * 3 + 2) (by omega)
    have k0 := hj ((q * 3 + 0 : Nat) : Int)
    have k1 := hj ((q * 3 + 1 : Nat) : Int)
    have k2 := hj ((q * 3 + 2 : Nat) : Int)
    rw [if_pos (by omega)] at k0 k1 k2
    unfold swapped3 at k0 k1 k2
    rw [if_pos (by omega)] at k0
    rw [if_neg (by omega), if_neg (by omega)] at k1
    rw [if_neg (by omega), if_pos (by omega)] at k2
    have e0 : ((q * 3 + 0 : Nat) : Int) + 2 = ((q * 3 + 2 : Nat) : Int) := by omega
    have e2 : ((q * 3 + 2 : Nat) : Int) - 2 = ((q * 3 : Nat) : Int) := by omega
    rw [e0] at k0
    rw [e2] at k2
    rw [htt, k0, k1, k2, r0, r1, r2]
    exact ⟨rfl, rfl, rfl⟩

/-- C25 (counterexample): `headerOnlyFile` is a 24-bit file that passes the
strict checks and ends after its header.  With a `malloc`ed buffer that held
170 everywhere, the RGB-path buffer after the swap loop is `170 170 170`;
with a row buffer that held 0 everywhere, bytes 0..2 of the RGBA-path texel
at index 0 are `0 0 0`. -/
theorem paths_differ_on_short_file :
    badSize (parseHeader (freadHeader (fun _ => 0) headerOnlyFile)) = false
      ∧ (Gl2DrawRgb.setupYuvTexSurface 1 (.opened headerOnlyFile) (fun _ => 0)
            (fun _ => 170)).map
          (fun r => r.t8my.map
            (fun t => (List.range 3).map (fun (j : Nat) => (t (j : Int)).toNat)))
        = some (some [170, 170, 170])
      ∧ (List.range 3).map
          (memByte (bufferAfter (fun _ => 0)
            (Gl2DrawRgba.setupGraphicsRGBA 1 (.opened headerOnlyFile) (fun _ => 0)
              (fun _ => 0)).stores 0))
        = [0, 0, 0] := by
  decide

/-- C25 (amended): for every 24-bit file of width `W` and height `H` that
passes the strict checks, with `54 + W*H*3` inside the `int` range and at
least `54 + W*H*3` bytes in the file, and for every stored row `k < H`,
column `c < W` and `j < 3`, byte `j` of the RGB-path buffer at offset
`(k*W + c)*3` after the swap loop equals byte `j`, in little-endian memory
order, of the RGBA-path texel at index `(H-1-k)*W + c`. -/
theorem swap_matches_rgba (gProgram : Nat) (file : List UInt8) (staleHeader : Nat → UInt8)
    (staleBuf staleRow : Int → UInt8) (staleTex : Int → Nat) (W H : Nat)
    (hprog : gProgram ≠ 0)
    (hmagic : badMagic (freadHeader staleHeader file) = false)
    (hP : (parseHeader (freadHeader staleHeader file)).mP = 24)
    (hsize : badSize (parseHeader (freadHeader staleHeader file)) = false)
    (hW : (parseHeader (freadHeader staleHeader file)).mW = (W : Int))
    (hH : (parseHeader (freadHeader staleHeader file)).mH = (H : Int))
    (hrange : 54 + W * H * 3 < 2147483648) (hlen : 54 + W * H * 3 ≤ file.length) :
    ∃ t, (Gl2DrawRgb.setupYuvTexSurface gProgram (.opened file) staleHeader staleBuf).map
          (fun r => r.t8my) = some (some t)
      ∧ ∀ k c j : Nat, k < H → c < W → j < 3 →
          (t ((((k * W + c) * 3 + j : Nat) : Int))).toNat
            = memByte (bufferAfter staleTex
                (Gl2DrawRgba.setupGraphicsRGBA gProgram (.opened file) staleHeader
                  staleRow).stores
                (((H - 1 - k) * W + c : Nat) : Int)) j := by
  obtain ⟨t, ht, hq⟩ := strict_buffer_24 gProgram file staleHeader staleBuf W H hprog hmagic
    hP hsize hW hH hrange hlen
  refine ⟨t, ht, fun k c j hk hc hj => ?_⟩
  have hF : (parseHeader (freadHeader staleHeader file)).mF = ((3 : Nat) : Int) :=
    mF_of_depth (Or.inl ⟨hP, rfl⟩)
  have hcell : k * W + c < W * H := by
    have := @cell_lt W H k c hk hc
    rw [Nat.mul_comm W H]
    exact this
  have hr : H - 1 - k < H := by omega
  have hback : H - 1 - (H - 1 - k) = k := by omega
  have hoff : 54 + k * 3 * W + c * 3 = 54 + (k * W + c) * 3 := by ring
  rw [setupGraphicsRGBA_of_opened gProgram file staleHeader staleRow hprog hmagic,
    decodeAndUpload_stores,
    bufferAfter_decodeStores file _ staleRow staleTex W H 3 hW hH hF (by decide) hlen hrange
      (H - 1 - k) c hr hc,
    hback, hoff]
  unfold packAt
  obtain ⟨m0, m1, m2, _⟩ := memByte_pack (file.getD (54 + (k * W + c) * 3) 0)
    (file.getD (54 + (k * W + c) * 3 + 1) 0) (file.getD (54 + (k * W + c) * 3 + 2) 0)
  obtain ⟨q0, q1, q2⟩ := hq (k * W + c) hcell
  interval_cases j
  · rw [q0, m0]
  · rw [q1, m1]
  · rw [q2, m2]

theorem swap_matches_rgba_witness :
    ∃ t, (Gl2DrawRgb.setupYuvTexSurface 1 (.opened bmp1x2) (fun _ => 0) (fun _ => 0)).map
          (fun r => r.t8my) = some (some t)
      ∧ ∀ k c j : Nat, k < 2 → c < 1 → j < 3 →
          (t ((((k * 1 + c) * 3 + j : Nat) : Int))).toNat
            = memByte (bufferAfter (fun _ => 0)
                (Gl2DrawRgba.setupGraphicsRGBA 1 (.opened bmp1x2) (fun _ => 0)
                  (fun _ => 0)).stores
                (((2 - 1 - k) * 1 + c : Nat) : Int)) j :=
  swap_matches_rgba 1 bmp1x2 (fun _ => 0) (fun _ => 0) (fun _ => 0) (fun _ => 0) 1 2
    (by decide) (by decide) (by decide) (by decide) (by decide) (by decide) (by decide)
    (by decide)

end ShowBmp
